import Mathlib

/-!
# Directory and path-control plane of the overlay node

A shallow embedding of `llarp/dht/context.cpp` (the DHT message handler) and
`llarp/path/path_context.cpp` (the path context), followed by the properties
proved about them.

Conventions.
* A 256-bit key is a natural number: the big-endian reading of its bytes, so
  that `operator^` is bitwise xor and `operator<` is the order on numbers.
* `uint64_t` counters are natural numbers reduced modulo `2^64` on increment.
* `llarp_time_t` (`std::chrono::milliseconds`) is an integer.
* A `std::vector` is a list; a `std::map`/`std::unordered_map` is a list of
  key-value pairs without repeated keys; a `std::set<Key_t>` is a strictly
  ascending list of keys.
* Mutating member functions return the new state; output parameters such as
  `replies` are returned together with it.
-/

namespace llarp

/-- A 256-bit DHT key (`dht::Key_t`). -/
abbrev Key_t := Nat

/-- A router identity key (`RouterID`); as a key it is itself. -/
abbrev RouterID := Nat

/-- A hop / path identifier (`HopID`, `PathID_t`). -/
abbrev HopID := Nat

/-- Milliseconds (`llarp_time_t`). -/
abbrev llarp_time_t := Int

/-- Modelled from the spec: the router contact record (its header is not among
the sources). Only the identity key and the expiry drive the code embedded
here; `version` and `issued_at` stand for the rest of the signed payload. -/
structure RouterContact where
  pubkey : RouterID
  version : Nat
  issued_at : llarp_time_t
  expiry : llarp_time_t
deriving DecidableEq, Repr, Inhabited

/-- Modelled from the spec: an RC is live while `now < expiry`, so it is
expired once `expiry ≤ now`. -/
def RouterContact.IsExpired (rc : RouterContact) (now : llarp_time_t) : Bool :=
  decide (rc.expiry ≤ now)

/-- Modelled from the spec: an RC is fresh while `now < expiry − Δ`; it expires
soon when it is no longer fresh. The guard `Δ` is passed by the caller. -/
def RouterContact.ExpiresSoon (rc : RouterContact) (now dlt : llarp_time_t) : Bool :=
  !decide (now < rc.expiry - dlt)

namespace service

/-- Modelled from the spec: the encrypted introduction set
`{location, ciphertext, sig, expiry}`; it expires like an RC. -/
structure EncryptedIntroSet where
  location : Key_t
  ciphertext : Nat
  sig : Nat
  expiry : llarp_time_t
deriving DecidableEq, Repr, Inhabited

/-- Modelled from the spec: introsets expire like RCs. -/
def EncryptedIntroSet.IsExpired (i : EncryptedIntroSet) (now : llarp_time_t) : Bool :=
  decide (i.expiry ≤ now)

end service

namespace dht

/-- XOR distance between two keys. -/
def distance (a b : Key_t) : Key_t := a ^^^ b

/-- A bucket entry holding a router contact (`RCNode`). -/
structure RCNode where
  rc : RouterContact
  ID : Key_t
deriving DecidableEq, Repr

/-- A bucket entry holding an introduction set (`ISNode`). -/
structure ISNode where
  introset : service.EncryptedIntroSet
  ID : Key_t
deriving DecidableEq, Repr

/-- Modelled from the spec: the Kademlia bucket, a mapping from DHT key to node
without duplicate keys (its header is not among the sources). -/
structure Bucket (V : Type) where
  nodes : List (Key_t × V)
deriving DecidableEq, Repr

/-- Number of nodes of a bucket (`Bucket::size`). -/
def Bucket.size {V : Type} (b : Bucket V) : Nat := b.nodes.length

/-- Insertion into a `std::set<Key_t>`: an element already present is not
inserted again, a new one takes its place in ascending key order. -/
def setInsert (k : Key_t) (s : List Key_t) : List Key_t :=
  if k ∈ s then s else s.orderedInsert (fun a b => a ≤ b) k

/-- The `std::set<Key_t>` built from an initializer list. -/
def stdSet (l : List Key_t) : List Key_t := l.foldl (fun s k => setInsert k s) []

/-- The relation "at least as close to `target`": the XOR metric as an order on keys. -/
def closerEq (target a b : Key_t) : Prop := distance a target ≤ distance b target

instance closerEqDecidable (target : Key_t) : DecidableRel (closerEq target) :=
  fun a b => inferInstanceAs (Decidable (distance a target ≤ distance b target))

/-- The keys of a bucket that are not in `exclude`. -/
def Bucket.available {V : Type} (b : Bucket V) (exclude : List Key_t) : List Key_t :=
  (b.nodes.map Prod.fst).filter (fun k => !decide (k ∈ exclude))

/-- Modelled from the spec: `get_many_nearest(target, n, exclude)` (the bucket
header is not among the sources). The `N` keys closest to `target` by XOR that
are not in `exclude` are inserted into the set `result`; when fewer than `N`
exist after exclusion all of them are delivered and the boolean reports
"insufficient" as `false`. -/
def Bucket.GetManyNearExcluding {V : Type} (b : Bucket V) (target : Key_t)
    (result : List Key_t) (N : Nat) (exclude : List Key_t) : Bool × List Key_t :=
  let avail := b.available exclude
  let near := (avail.insertionSort (closerEq target)).take N
  (decide (N ≤ avail.length), near.foldl (fun s k => setInsert k s) result)

/-- Owner of a transaction: the peer asked and the transaction id on the wire. -/
structure TXOwner where
  node : Key_t
  txid : Nat
deriving DecidableEq, Repr

/-- A completion callback, named by a handle; `none` is `nullptr`. -/
abbrev RouterLookupHandler := Option Nat

/-- The transaction jobs constructed in `context.cpp`, with their constructor
arguments (the back-pointer to the handler is left out). -/
inductive Job where
  | ExploreNetworkJob (peer : RouterID)
  | LocalRouterLookup (path : HopID) (txid : Nat) (target : RouterID)
  | RecursiveRouterLookup (whoasked : TXOwner) (target : RouterID)
      (handler : RouterLookupHandler)
  | LocalServiceAddressLookup (path : HopID) (txid : Nat) (relayOrder : Nat) (addr : Key_t)
      (askpeer : Key_t)
  | PublishServiceJob (asker : TXOwner) (introset : service.EncryptedIntroSet)
      (relayOrder : Nat)
  | LocalPublishServiceJob (peer : TXOwner) (fromPath : HopID) (txid : Nat)
      (introset : service.EncryptedIntroSet) (relayOrder : Nat)
  | ServiceAddressLookup (asker : TXOwner) (addr : Key_t) (relayOrder : Nat)
      (handler : Option Nat)
deriving DecidableEq, Repr

/-- Modelled from the spec: a pending transaction
`{owner, asker, target, started_at, attempts, payload, result_handler, timeout}`;
the job is payload and result handler together, `timeout = none` is the default
timeout of the table. -/
structure TX (K : Type) where
  owner : TXOwner
  asker : TXOwner
  target : K
  started_at : llarp_time_t
  attempts : Nat
  job : Job
  timeout : Option llarp_time_t
deriving DecidableEq, Repr

/-- Modelled from the spec: one table of pending transactions (the header of
the transaction holder is not among the sources). `tx` lists the transactions
in order of creation, `started` logs the `job.start(owner)` dispatches and
`timedOut` the owners whose handler was invoked with a timeout result. -/
structure TXHolder (K : Type) where
  tx : List (TX K)
  started : List TXOwner
  timedOut : List TXOwner
  defaultTimeout : llarp_time_t

/-- The deadline of a transaction in a table. -/
def TXHolder.deadline {K : Type} (h : TXHolder K) (t : TX K) : llarp_time_t :=
  t.started_at + t.timeout.getD h.defaultTimeout

/-- Modelled from the spec: `new_tx(owner, asker, target, job, timeout)` inserts
the transaction and dispatches `job.start(owner)`. -/
def TXHolder.NewTX {K : Type} (h : TXHolder K) (now : llarp_time_t) (askpeer whoasked : TXOwner)
    (k : K) (t : Job) (requestTimeoutMS : Option llarp_time_t) : TXHolder K :=
  { h with
    tx := h.tx ++ [{ owner := askpeer, asker := whoasked, target := k, started_at := now,
                     attempts := 0, job := t, timeout := requestTimeoutMS }]
    started := h.started ++ [askpeer] }

/-- Modelled from the spec: `expire(now)` removes the transactions whose deadline
passed and invokes their handler with a timeout result. -/
def TXHolder.Expire {K : Type} (h : TXHolder K) (now : llarp_time_t) : TXHolder K :=
  { h with
    tx := h.tx.filter (fun t => !decide (h.deadline t ≤ now))
    timedOut := h.timedOut ++ ((h.tx.filter (fun t => decide (h.deadline t ≤ now))).map TX.owner) }

/-- Modelled from the spec: the `GotRouter` reply (its header is not among the
sources). `From` is the key the message is addressed to, `foundRCs` the result
set, `closerTarget` the closer-node hint, `nearKeys` the router ids of an
exploration reply. -/
structure GotRouterMessage where
  From : Key_t
  foundRCs : List RouterContact
  closerTarget : Option Key_t
  nearKeys : List RouterID
  txid : Nat
  relayed : Bool
deriving DecidableEq, Repr

/-- Constructor `GotRouterMessage(from, id, results, tunneled)`. -/
def GotRouterMessage.ofResults (src : Key_t) (id : Nat) (results : List RouterContact)
    (tunneled : Bool) : GotRouterMessage :=
  { From := src, foundRCs := results, closerTarget := none, nearKeys := [], txid := id,
    relayed := tunneled }

/-- Constructor `GotRouterMessage(from, closer, id, tunneled)`. -/
def GotRouterMessage.ofCloser (src closer : Key_t) (id : Nat) (tunneled : Bool) :
    GotRouterMessage :=
  { From := src, foundRCs := [], closerTarget := some closer, nearKeys := [], txid := id,
    relayed := tunneled }

/-- Constructor `GotRouterMessage(id, near, tunneled)`; the sender key is zero. -/
def GotRouterMessage.ofNear (id : Nat) (near : List RouterID) (tunneled : Bool) :
    GotRouterMessage :=
  { From := 0, foundRCs := [], closerTarget := none, nearKeys := near, txid := id,
    relayed := tunneled }

/-- The DHT messages built by the embedded code. -/
inductive AbstractDHTMessage where
  | GotRouter (m : GotRouterMessage)
  | FindRouter (txid : Nat)
deriving DecidableEq, Repr

end dht

/-- Modelled from the spec: `find_closest_to(k)` of the node DB, the known RC
whose key is nearest to `location` by XOR (the node DB is not among the
sources); an empty DB yields the default RC. -/
def FindClosestTo (node_db : List RouterContact) (location : Key_t) : RouterContact :=
  node_db.foldl
    (fun rc otherRC =>
      if dht.distance otherRC.pubkey location < dht.distance rc.pubkey location then otherRC
      else rc)
    (node_db.headD default)

/-- What the DHT handler uses of the router it points back to. -/
structure Router where
  rc : RouterContact
  now : llarp_time_t
  SessionToRouterAllowed : RouterID → Bool
  node_db : List RouterContact
  IsBadForConnect : RouterID → Bool
  rcExpiresSoonGuard : llarp_time_t

namespace dht

/-- State of `DHTMessageHandler`. -/
structure DHTMessageHandler where
  router : Router
  nodes : Option (Bucket RCNode)
  services : Option (Bucket ISNode)
  allowTransit : Bool
  pendingIntrosetLookups : TXHolder TXOwner
  pendingRouterLookups : TXHolder RouterID
  pendingExploreLookups : TXHolder RouterID
  ids : Nat
  ourKey : Key_t

/-- Embedding of `Now()`: the router's clock. -/
def DHTMessageHandler.Now (self : DHTMessageHandler) : llarp_time_t := self.router.now

/-- Embedding of `LookupRouterRecursive(target, whoasked, txid, askpeer, handler)`: a new
router-lookup transaction towards `askpeer` under the next id, on behalf of
`(whoasked, txid)`. -/
def DHTMessageHandler.LookupRouterRecursive (self : DHTMessageHandler)
    (time_now_ms : llarp_time_t) (target : RouterID) (whoasked : Key_t) (txid : Nat)
    (askpeer : Key_t) (handler : RouterLookupHandler) : DHTMessageHandler :=
  let asker : TXOwner := ⟨whoasked, txid⟩
  let ids := (self.ids + 1) % 2 ^ 64
  let peer : TXOwner := ⟨askpeer, ids⟩
  { self with
    ids := ids
    pendingRouterLookups :=
      self.pendingRouterLookups.NewTX time_now_ms peer asker target
        (Job.RecursiveRouterLookup asker target handler) none }

/-- Embedding of `LookupRouterRelayed(requester, txid, target, recursive, replies)`;
`time_now_ms` is the reading of `llarp::time_now_ms()`. -/
def DHTMessageHandler.LookupRouterRelayed (self : DHTMessageHandler)
    (time_now_ms : llarp_time_t) (requester : Key_t) (txid : Nat) (target : Key_t)
    (recursive : Bool) (replies : List AbstractDHTMessage) :
    DHTMessageHandler × List AbstractDHTMessage :=
  if target = self.ourKey then
    (self, replies ++ [.GotRouter (.ofResults requester txid [self.router.rc] false)])
  else if !self.router.SessionToRouterAllowed target then
    (self, replies ++ [.GotRouter (.ofResults requester txid [] false)])
  else
    let rc := FindClosestTo self.router.node_db target
    let next : Key_t := rc.pubkey
    if next = target then
      if rc.ExpiresSoon time_now_ms self.router.rcExpiresSoonGuard then
        (self.LookupRouterRecursive time_now_ms target requester txid next none, replies)
      else
        (self, replies ++ [.GotRouter (.ofResults requester txid [rc] false)])
    else if recursive then
      if distance next target < distance self.ourKey target then
        (self.LookupRouterRecursive time_now_ms target requester txid next none, replies)
      else
        (self, replies ++ [.GotRouter (.ofResults requester txid [] false)])
    else
      (self, replies ++ [.GotRouter (.ofCloser requester next txid false)])

/-- Embedding of `HandleExploritoryRouterLookup(requester, txid, target, reply)`; the
result is the returned flag and the reply vector. -/
def DHTMessageHandler.HandleExploritoryRouterLookup (self : DHTMessageHandler)
    (requester : Key_t) (txid : Nat) (target : RouterID) (reply : List AbstractDHTMessage) :
    Bool × List AbstractDHTMessage :=
  match self.nodes with
  | none => (false, reply)
  | some nodes =>
    let nodeCount := nodes.size
    if nodeCount = 0 then (false, reply)
    else
      let found := nodes.GetManyNearExcluding target [] (min nodeCount 4)
        (stdSet [self.ourKey, requester])
      if !found.1 then (false, reply)
      else
        let closer := found.2.filter (fun f => !self.router.IsBadForConnect f)
        (true, reply ++ [.GotRouter (.ofNear txid closer false)])

/-- Embedding of `CleanupTX()`: expire the three tables at the router's time. -/
def DHTMessageHandler.CleanupTX (self : DHTMessageHandler) : DHTMessageHandler :=
  let now := self.Now
  { self with
    pendingRouterLookups := self.pendingRouterLookups.Expire now
    pendingIntrosetLookups := self.pendingIntrosetLookups.Expire now
    pendingExploreLookups := self.pendingExploreLookups.Expire now }

/-- The erase loop of the cleanup tick: walk the nodes, erase those for which
`expired` holds and step over the others. -/
def eraseExpired {V : Type} (expired : V → Bool) : List (Key_t × V) → List (Key_t × V)
  | [] => []
  | itr :: rest =>
    if expired itr.2 then eraseExpired expired rest else itr :: eraseExpired expired rest

/-- Embedding of `handle_cleaner_timer()`: clean up the transactions, then sweep
the RC bucket and the introset bucket, each only if it is allocated. -/
def DHTMessageHandler.handle_cleaner_timer (self : DHTMessageHandler) : DHTMessageHandler :=
  let self1 := self.CleanupTX
  let now := self1.Now
  let self2 : DHTMessageHandler :=
    match self1.nodes with
    | some b => { self1 with nodes := some ⟨eraseExpired (fun n => n.rc.IsExpired now) b.nodes⟩ }
    | none => self1
  match self2.services with
  | some b =>
    { self2 with services := some ⟨eraseExpired (fun n => n.introset.IsExpired now) b.nodes⟩ }
  | none => self2

end dht

namespace path

/-- Identity of a transit hop: the neighbours on both sides and the hop ids
used towards each of them (`TransitHopInfo`). -/
structure TransitHopInfo where
  downstream : RouterID
  upstream : RouterID
  rxID : HopID
  txID : HopID
deriving DecidableEq, Repr

/-- Modelled from the spec: a hop served on someone else's path,
`{upstream, downstream, rx_id, tx_id, keys, lifetime}` (its header is not
among the sources). -/
structure TransitHop where
  info : TransitHopInfo
  started : llarp_time_t
  lifetime : llarp_time_t
deriving DecidableEq, Repr

/-- Key of `transit_hops`: a router id and a hop id (`TransitHopID`). -/
abbrev TransitHopID := RouterID × HopID

/-- Modelled from the spec: one hop of an own path,
`{rid, rx_id, tx_id, symmetric_keys, lifetime}`. -/
structure PathHopConfig where
  rid : RouterID
  rxID : HopID
  txID : HopID
  lifetime : llarp_time_t
deriving DecidableEq, Repr

/-- A path we made: the data members of `Path` that the path context reads. -/
structure Path where
  hops : List PathHopConfig
  buildStarted : llarp_time_t
  established : Bool
  is_session_path : Bool
  is_client : Bool
  last_recv_msg : llarp_time_t
deriving DecidableEq, Repr

/-- Member `count(k)` of an `unordered_map`: 1 when `k` is a key, 0 otherwise. -/
def mapCount {K V : Type} [DecidableEq K] (m : List (K × V)) (k : K) : Nat :=
  if m.any (fun e => decide (e.1 = k)) then 1 else 0

/-- Member `find(k)` of an `unordered_map`: the value stored under `k`, if any. -/
def mapFind {K V : Type} [DecidableEq K] (m : List (K × V)) (k : K) : Option V :=
  (m.find? (fun e => decide (e.1 = k))).map Prod.snd

/-- Member `emplace(k, v)` of an `unordered_map`: inserts only when `k` is not yet a
key; an existing entry is never overwritten. -/
def mapEmplace {K V : Type} [DecidableEq K] (m : List (K × V)) (k : K) (v : V) : List (K × V) :=
  if m.any (fun e => decide (e.1 = k)) then m else m ++ [(k, v)]

/-- An IP address with its port (`IpAddress`). -/
structure IpAddress where
  ip : Nat
  port : Nat
deriving DecidableEq, Repr

/-- Member `setPort(port)` of an address. -/
def IpAddress.setPort (a : IpAddress) (port : Nat) : IpAddress := { a with port := port }

/-- Modelled from the spec: the decaying set used for rate limiting (its header
is not among the sources). Each value is kept with the time of its insertion;
`m_CacheInterval` is the window after which a value decays. -/
structure DecayingHashSet (V : Type) where
  m_Values : List (V × llarp_time_t)
  m_CacheInterval : llarp_time_t
deriving DecidableEq, Repr

/-- Membership in a decaying set. -/
def DecayingHashSet.Contains {V : Type} [DecidableEq V] (s : DecayingHashSet V) (v : V) : Bool :=
  s.m_Values.any (fun e => decide (e.1 = v))

/-- Modelled from the spec: insertion into the decaying set at time `now`; the
flag is true when the value was inserted and false when it is already held. -/
def DecayingHashSet.Insert {V : Type} [DecidableEq V] (s : DecayingHashSet V) (v : V)
    (now : llarp_time_t) : Bool × DecayingHashSet V :=
  if s.Contains v then (false, s)
  else (true, { s with m_Values := s.m_Values ++ [(v, now)] })

/-- Modelled from the spec: decay at time `now` drops the values whose window
has elapsed. -/
def DecayingHashSet.Decay {V : Type} (s : DecayingHashSet V) (now : llarp_time_t) :
    DecayingHashSet V :=
  { s with m_Values := s.m_Values.filter (fun e => !decide (s.m_CacheInterval + e.2 ≤ now)) }

/-- The constant `DefaultPathBuildLimit = 500ms`. -/
def DefaultPathBuildLimit : llarp_time_t := 500

/-- Modelled from the spec: the two maps of the path context,
`transit_hops : (RID, HopID) → TransitHop` and `own_paths : HopID → Path`, and
the per-IP rate-limit set (the class declaration is not among the sources). -/
structure PathContext where
  transit_hops : List (TransitHopID × TransitHop)
  own_paths : List (HopID × Path)
  m_AllowTransit : Bool
  path_limits : DecayingHashSet IpAddress

/-- Embedding of `has_transit_hop(info)`. -/
def PathContext.has_transit_hop (self : PathContext) (info : TransitHopInfo) : Bool :=
  let downstream : TransitHopID := (info.downstream, info.rxID)
  if mapCount self.transit_hops downstream ≠ 0 then true
  else
    let upstream : TransitHopID := (info.upstream, info.txID)
    if mapCount self.transit_hops upstream ≠ 0 then true
    else false

/-- Embedding of `GetTransitHop(rid, path_id)`; `none` is `nullptr`. -/
def PathContext.GetTransitHop (self : PathContext) (rid : RouterID) (path_id : HopID) :
    Option TransitHop :=
  mapFind self.transit_hops (rid, path_id)

/-- Embedding of `CurrentTransitPaths()`. -/
def PathContext.CurrentTransitPaths (self : PathContext) : Nat :=
  self.transit_hops.length / 2

/-- Embedding of `put_transit_hop(hop)`: two `emplace` calls, one per key. -/
def PathContext.put_transit_hop (self : PathContext) (hop : TransitHop) : PathContext :=
  let downstream : TransitHopID := (hop.info.downstream, hop.info.rxID)
  let upstream : TransitHopID := (hop.info.upstream, hop.info.txID)
  let transit_hops1 := mapEmplace self.transit_hops downstream hop
  { self with transit_hops := mapEmplace transit_hops1 upstream hop }

end path

namespace path

instance : Inhabited PathHopConfig := ⟨⟨0, 0, 0, 0⟩⟩

/-- The first hop `hops[0]`. The source reads it without a bounds check; on an
empty hop list the embedding reads the zero hop. -/
def Path.firstHop (p : Path) : PathHopConfig := p.hops.headD default

/-- The value a signed 64-bit millisecond count (`std::chrono::milliseconds`)
holds after an arithmetic result `x`: two's-complement wrap-around. -/
def wrapInt64 (x : Int) : Int := (x + 2 ^ 63) % 2 ^ 64 - 2 ^ 63

/-- Embedding of `ExpireTime()`: `buildStarted + hops[0].lifetime`, computed on
64-bit signed milliseconds. -/
def Path.ExpireTime (p : Path) : llarp_time_t :=
  wrapInt64 (p.buildStarted + p.firstHop.lifetime)

/-- Embedding of `ExpiresSoon(now, dlt)`: `now >= (ExpireTime() - dlt)`, the
difference computed on 64-bit signed milliseconds. -/
def Path.ExpiresSoon (p : Path) (now dlt : llarp_time_t) : Bool :=
  decide (now ≥ wrapInt64 (p.ExpireTime - dlt))

/-- The default guard of `ExpiresSoon`, 5 s. -/
def ExpiresSoonDefault : llarp_time_t := 5000

/-- Modelled from the spec: a path is expired from its expiry time on (the
definition of `is_expired` is not among the sources). -/
def Path.is_expired (p : Path) (now : llarp_time_t) : Bool := decide (now ≥ p.ExpireTime)

/-- Modelled from the spec: a path is ready iff it is established and
`now < expire_at − guard`, with the 5 s guard; the source reads the clock
itself, here `time_now_ms` (the definition of `is_ready` is not among the
sources). -/
def Path.is_ready (p : Path) (time_now_ms : llarp_time_t) : Bool :=
  p.established && decide (time_now_ms < p.ExpireTime - ExpiresSoonDefault)

/-- The TX id at the first hop (`TXID()`). -/
def Path.TXID (p : Path) : HopID := p.firstHop.txID

/-- The RX id at the first hop (`RXID()`). -/
def Path.RXID (p : Path) : HopID := p.firstHop.rxID

/-- The first hop's router (`upstream()`). -/
def Path.upstream (p : Path) : RouterID := p.firstHop.rid

/-- The last hop's router (`pivot_router_id()`); zero on an empty hop list. -/
def Path.pivot_router_id (p : Path) : RouterID := (p.hops.getLastD default).rid

/-- Modelled from the spec: a transit hop is expired once its lifetime has
passed since it started (its header is not among the sources). -/
def TransitHop.is_expired (h : TransitHop) (now : llarp_time_t) : Bool :=
  decide (now ≥ h.started + h.lifetime)

/-- Assignment `m[k] = v` on an `unordered_map`: the value under an existing
key is replaced, a new key is inserted. -/
def mapAssign {K V : Type} [DecidableEq K] (m : List (K × V)) (k : K) (v : V) : List (K × V) :=
  if m.any (fun e => decide (e.1 = k)) then m.map (fun e => if e.1 = k then (k, v) else e)
  else m ++ [(k, v)]

/-- The erase loops of `ExpirePaths`: walk the map, erase the entries whose
value is expired and step over the others. -/
def eraseExpiredEntries {K V : Type} (expired : V → Bool) : List (K × V) → List (K × V)
  | [] => []
  | itr :: rest =>
    if expired itr.2 then eraseExpiredEntries expired rest
    else itr :: eraseExpiredEntries expired rest

/-- Modelled from the spec: the path set of a path handler, a map from router
id to path (the class declaration is not among the sources). -/
structure PathHandler where
  paths : List (RouterID × Path)
deriving DecidableEq, Repr

/-- Modelled from the spec: `add_path` attaches the path to the handler; the
entry is filed under the path's upstream router. -/
def PathHandler.add_path (set : PathHandler) (path : Path) : PathHandler :=
  { set with paths := mapAssign set.paths path.upstream path }

/-- The constructor `PathContext(router)`: both maps empty, transit not
allowed, rate-limit window `DefaultPathBuildLimit`. -/
def PathContext.construct : PathContext :=
  { transit_hops := [], own_paths := [], m_AllowTransit := false,
    path_limits := ⟨[], DefaultPathBuildLimit⟩ }

/-- Embedding of `check_path_limit_hit_by_ip(ip)`; `testnet` is the build flag
`TESTNET` and `time_now_ms` the clock read by the insertion. -/
def PathContext.check_path_limit_hit_by_ip (self : PathContext) (testnet : Bool)
    (time_now_ms : llarp_time_t) (ip : IpAddress) : Bool × PathContext :=
  if testnet then (false, self)
  else
    let remote := ip.setPort 0
    let inserted := self.path_limits.Insert remote time_now_ms
    (!inserted.1, { self with path_limits := inserted.2 })

/-- The scan of `FindOwnedPathsWithEndpoint` over the entries of `own_paths`:
the entry filed under the path's TX id is skipped, the other one is kept when
the pivot is `r` and the path is ready. -/
def findOwnedScan (time_now_ms : llarp_time_t) (r : RouterID) : List (HopID × Path) → List Path
  | [] => []
  | (pathid, path) :: rest =>
    if path.TXID = pathid then findOwnedScan time_now_ms r rest
    else if path.pivot_router_id = r && path.is_ready time_now_ms then
      path :: findOwnedScan time_now_ms r rest
    else findOwnedScan time_now_ms r rest

/-- Embedding of `FindOwnedPathsWithEndpoint(r)`: the vector found, and the
context, which the scan does not write. -/
def PathContext.FindOwnedPathsWithEndpoint (self : PathContext) (time_now_ms : llarp_time_t)
    (r : RouterID) : List Path × PathContext :=
  (findOwnedScan time_now_ms r self.own_paths, self)

/-- Embedding of `AddOwnPath(set, path)`: attach to the handler, then assign
the path under its TX id and under its RX id. -/
def PathContext.AddOwnPath (self : PathContext) (set : PathHandler) (path : Path) :
    PathHandler × PathContext :=
  let own_paths1 := mapAssign self.own_paths path.TXID path
  (set.add_path path, { self with own_paths := mapAssign own_paths1 path.RXID path })

/-- Embedding of `get_path(path_id)`; `none` is `nullptr`. -/
def PathContext.get_path (self : PathContext) (path_id : HopID) : Option Path :=
  mapFind self.own_paths path_id

/-- Embedding of `ExpirePaths(now)`: decay the rate limits, then erase the
expired transit hops and the expired own paths. -/
def PathContext.ExpirePaths (self : PathContext) (now : llarp_time_t) : PathContext :=
  { self with
    path_limits := self.path_limits.Decay now
    transit_hops := eraseExpiredEntries (fun hop => hop.is_expired now) self.transit_hops
    own_paths := eraseExpiredEntries (fun path => path.is_expired now) self.own_paths }

/-- The two keys a transit hop is registered under. -/
def TransitHop.downstreamKey (h : TransitHop) : TransitHopID := (h.info.downstream, h.info.rxID)

/-- The second key of a transit hop. -/
def TransitHop.upstreamKey (h : TransitHop) : TransitHopID := (h.info.upstream, h.info.txID)

/-- The entries of a map in which every value of `vs` is filed twice, under
`k1` and under `k2`, in that order. -/
def dualEntries {K V : Type} (k1 k2 : V → K) : List V → List (K × V)
  | [] => []
  | v :: vs => (k1 v, v) :: (k2 v, v) :: dualEntries k1 k2 vs

/-- States of the path context reached from the constructed one by
`ExpirePaths` and by `put_transit_hop` of hops that pass the caller's check:
`has_transit_hop` is false and the hop's two keys differ. -/
inductive TransitReachable : PathContext → Prop where
  | construct : TransitReachable PathContext.construct
  | put (ctx : PathContext) (hop : TransitHop) :
      TransitReachable ctx → ctx.has_transit_hop hop.info = false →
      hop.downstreamKey ≠ hop.upstreamKey → TransitReachable (ctx.put_transit_hop hop)
  | expire (ctx : PathContext) (now : llarp_time_t) :
      TransitReachable ctx → TransitReachable (ctx.ExpirePaths now)

/-- States of the path context reached from the constructed one by
`ExpirePaths` and by `AddOwnPath` of paths with fresh ids: the first-hop RX and
TX ids differ and neither is a key of `own_paths` yet. -/
inductive OwnReachable : PathContext → Prop where
  | construct : OwnReachable PathContext.construct
  | add (ctx : PathContext) (set : PathHandler) (path : Path) :
      OwnReachable ctx → path.RXID ≠ path.TXID →
      mapCount ctx.own_paths path.TXID = 0 → mapCount ctx.own_paths path.RXID = 0 →
      OwnReachable (ctx.AddOwnPath set path).2
  | expire (ctx : PathContext) (now : llarp_time_t) :
      OwnReachable ctx → OwnReachable (ctx.ExpirePaths now)

end path

namespace service

/-- A network address as delivered by a name lookup (`NetworkAddress`). -/
abbrev NetworkAddress := Nat

/-- A decrypted introduction set (`service::IntroSet`), named by a handle. -/
abbrev IntroSet := Nat

/-- An encrypted name record (`EncryptedONSRecord`), named by its payload. -/
abbrev EncryptedONSRecord := String

/-- The functions of `llarp::service` called by the remote handler. Their
definitions are not among the sources, so they are parameters of the
embedding: the syntax check of ONS names, and parsing and decryption of name
records and of introduction sets. -/
structure Codec where
  is_valid_ons : String → Bool
  ons_construct : String → Option EncryptedONSRecord
  ons_decrypt : EncryptedONSRecord → String → Option NetworkAddress
  introset_construct : String → Option EncryptedIntroSet
  introset_decrypt : EncryptedIntroSet → RouterID → Option IntroSet

end service

namespace dht

/-- Modelled from the spec: `derive_from_rid(rid)`, the identity for routers. -/
def derive_from_rid (rid : RouterID) : Key_t := rid

end dht

namespace handlers

/-- The request a path is asked to carry. -/
inductive PathRequest where
  | resolve_ons (name : String)
  | find_intro (location : Key_t) (is_relayed : Bool) (order : Nat)
deriving DecidableEq, Repr

/-- One call `path->resolve_ons(...)` or `path->find_intro(...)`: the map entry
it is made on, the request, and the response handler passed along. Applied to
the response string, the handler yields `some arg` when it invokes the caller's
hook, exactly once, with the argument `arg`; it yields `none` when its run has
no defined behaviour and the hook is not reached. -/
structure PathCall (R : Type) where
  rid : RouterID
  path : path.Path
  request : PathRequest
  response_handler : String → Option (Option R)

/-- What a lookup of the remote handler does before it returns: the hook
invocations it makes itself and the calls it makes on paths. -/
structure LookupEffects (R : Type) where
  hook_calls : List (Option R)
  path_calls : List (PathCall R)

/-- A local address handed out for a remote (`oxen::quic::Address`). -/
abbrev LocalAddress := path.IpAddress

/-- Modelled from the spec: the address map of the remote handler, an in-memory
bijection between local addresses and remote addresses (its header is not among
the sources). It is kept as the list of its pairs `(local, remote)`. -/
structure AddressMap where
  pairs : List (LocalAddress × service.NetworkAddress)
deriving DecidableEq, Repr

/-- Modelled from the spec: `insert_or_assign(local, remote)` maps `local` to
`remote`; whatever either of them was paired with before is dropped, so that the
map stays a bijection. -/
def AddressMap.insert_or_assign (m : AddressMap) (loc : LocalAddress)
    (remote : service.NetworkAddress) : AddressMap :=
  ⟨m.pairs.filter (fun e => decide (e.1 ≠ loc ∧ e.2 ≠ remote)) ++ [(loc, remote)]⟩

/-- Modelled from the spec: `unmap(remote)`, the inverse, drops the pair of
`remote`. -/
def AddressMap.unmap (m : AddressMap) (remote : service.NetworkAddress) : AddressMap :=
  ⟨m.pairs.filter (fun e => decide (e.2 ≠ remote))⟩

/-- The local address a remote is mapped to, if any. -/
def AddressMap.get_local_from_remote (m : AddressMap) (remote : service.NetworkAddress) :
    Option LocalAddress :=
  (m.pairs.find? (fun e => decide (e.2 = remote))).map Prod.fst

/-- The remote a local address is mapped to, if any. -/
def AddressMap.get_remote_from_local (m : AddressMap) (loc : LocalAddress) :
    Option service.NetworkAddress :=
  (m.pairs.find? (fun e => decide (e.1 = loc))).map Prod.snd

/-- State of `RemoteHandler` that the lookups read: its name and the path map
inherited from `PathHandler`; and its address map. -/
structure RemoteHandler where
  name : String
  paths : List (RouterID × path.Path)
  address_map : AddressMap := ⟨[]⟩

/-- The response handler built by `resolve_ons`. The condition of its `if` is
`client_addr` alone: `record->decrypt(ons_name)` is evaluated on the result of
`construct(response)` without testing it. A response that does not parse
therefore dereferences an empty record: the run has no defined behaviour and
the hook is not reached (`none`). For a parsed record the hook gets the client
address when the record decrypts under `ons_name`, and an absent result
otherwise. -/
def ons_response_handler (svc : service.Codec) (ons_name : String) (response : String) :
    Option (Option service.NetworkAddress) :=
  match svc.ons_construct response with
  | none => none
  | some record =>
    match svc.ons_decrypt record ons_name with
    | some client_addr => some (some client_addr)
    | none => some none

/-- The response handler built by `lookup_intro`: `encrypted->decrypt(remote)`
is likewise evaluated on the untested result of `construct(response)`. -/
def intro_response_handler (svc : service.Codec) (remote : RouterID) (response : String) :
    Option (Option service.IntroSet) :=
  match svc.introset_construct response with
  | none => none
  | some encrypted =>
    match svc.introset_decrypt encrypted remote with
    | some intro => some (some intro)
    | none => some none

/-- Embedding of `RemoteHandler::resolve_ons(ons, func)`. -/
def RemoteHandler.resolve_ons (self : RemoteHandler) (svc : service.Codec) (ons : String) :
    LookupEffects service.NetworkAddress :=
  if !svc.is_valid_ons ons then { hook_calls := [none], path_calls := [] }
  else
    { hook_calls := []
      path_calls := self.paths.map
        (fun e => ⟨e.1, e.2, PathRequest.resolve_ons ons, ons_response_handler svc ons⟩) }

/-- Embedding of `RemoteHandler::lookup_intro(remote, is_relayed, order, func)`. -/
def RemoteHandler.lookup_intro (self : RemoteHandler) (svc : service.Codec) (remote : RouterID)
    (is_relayed : Bool) (order : Nat) : LookupEffects service.IntroSet :=
  let remote_key := dht.derive_from_rid remote
  { hook_calls := []
    path_calls := self.paths.map
      (fun e => ⟨e.1, e.2, PathRequest.find_intro remote_key is_relayed order,
        intro_response_handler svc remote⟩) }

/-- Modelled from the spec: a path that is asked invokes the callback it was
given with its response (the definitions of `Path::resolve_ons` and
`Path::find_intro` are not among the sources). The hook invocations caused by
the responses are therefore one per answered call, made by the handler of that
call; `responses` lists the responses in the order of the calls they answer.
The result is `none` when the handler of some answered call has no defined
behaviour on its response. -/
def hookCallsOnResponses {R : Type} :
    List (PathCall R) → List String → Option (List (Option R))
  | call :: calls, response :: responses =>
    match call.response_handler response with
    | none => none
    | some arg =>
      match hookCallsOnResponses calls responses with
      | none => none
      | some args => some (arg :: args)
  | _, _ => some []

end handlers

namespace handlers

/-- A closure handed to the event loop by the remote handler: the call of
`lookup_intro(remote, is_relayed, order, hook)` it makes when the loop runs it. -/
inductive LoopJob where
  | lookup_intro (remote : RouterID) (is_relayed : Bool) (order : Nat)
deriving DecidableEq, Repr

/-- What the event loop does when it runs a job of the handler. -/
def LoopJob.run (self : RemoteHandler) (svc : service.Codec) :
    LoopJob → LookupEffects service.IntroSet
  | LoopJob.lookup_intro remote is_relayed order =>
    self.lookup_intro svc remote is_relayed order

/-- Embedding of `RemoteHandler::initiate_session(remote, is_exit, is_snode)`:
the outcome (the exception thrown, or the value returned) and the jobs handed
to the event loop. -/
def RemoteHandler.initiate_session (_self : RemoteHandler) (remote : RouterID)
    (is_exit is_snode : Bool) : Except String Bool × List LoopJob :=
  if is_exit && is_snode then
    (Except.error "Cannot initiate exit session to remote service node!", [])
  else
    (Except.ok false, [LoopJob.lookup_intro remote false 0])

/-- Embedding of `map_remote_to_local_addr(remote, local)`. -/
def RemoteHandler.map_remote_to_local_addr (self : RemoteHandler)
    (remote : service.NetworkAddress) (loc : LocalAddress) : RemoteHandler :=
  { self with address_map := self.address_map.insert_or_assign loc remote }

/-- Embedding of `unmap_local_addr_by_remote(remote)`. -/
def RemoteHandler.unmap_local_addr_by_remote (self : RemoteHandler)
    (remote : service.NetworkAddress) : RemoteHandler :=
  { self with address_map := self.address_map.unmap remote }

end handlers

/-- A loaded configuration (`Config`), named by a handle. -/
structure Config where
  id : Nat
deriving DecidableEq, Repr

/-- The runtime options read by the context (`RuntimeOptions`). -/
structure RuntimeOptions where
  showBanner : Bool
deriving DecidableEq, Repr

/-- The router as the context drives it. The router class is not among the
sources: what its `configure` and `run` return are parameters, `is_running`
records a successful `run`. -/
structure RouterProcess where
  configure_ok : Bool
  run_ok : Bool
  is_running : Bool
deriving DecidableEq, Repr

/-- Member `run()` of the router: the flag it returns and the router after. -/
def RouterProcess.run (r : RouterProcess) : Bool × RouterProcess :=
  (r.run_ok, { r with is_running := r.run_ok })

/-- What the platform gives to `setup`: whether a native VPN platform exists
(`MakeNativePlatform` not returning null) and the outcomes of the router that
`make_router` constructs. -/
structure SetupEnv where
  vpn_platform_supported : Bool
  router_configure_ok : Bool
  router_run_ok : Bool
deriving DecidableEq, Repr

/-- State of `Context`: the members its functions read and write. `loop` is the
member that `run`, `close_async` and `close` use, `_loop` the one that `setup`
and `call_safe` use; a pointer is an `Option`, the payload of a loop or node DB
is a handle. `closeWaiter` holds whether the promise has been given its value. -/
structure Context where
  config : Option Config
  router : Option RouterProcess
  nodedb : Option Nat
  loop : Option Nat
  _loop : Option Nat
  closeWaiter : Option Bool
deriving DecidableEq, Repr

/-- What `run` does besides returning, in order. -/
inductive RunEvent where
  | router_run
  | loop_run
  | close_waiter_set_value
deriving DecidableEq, Repr

/-- Embedding of `Context::configure(conf)`: the outcome and the context after. -/
def Context.configure (self : Context) (conf : Option Config) : Except String Unit × Context :=
  if self.config.isSome then (Except.error "Config already exists", self)
  else (Except.ok (), { self with config := conf })

/-- Embedding of `Context::setup(opts)`: the outcome and the context after. The
exceptions are thrown where the source throws them, so the members assigned
before stay assigned. -/
def Context.setup (self : Context) (_opts : RuntimeOptions) (env : SetupEnv) :
    Except String Unit × Context :=
  if self.config.isNone then
    (Except.error "Cannot call Setup() on context without a Config", self)
  else
    let self1 : Context := if self._loop.isNone then { self with _loop := some 0 } else self
    if !env.vpn_platform_supported then (Except.error "vpn platform not supported", self1)
    else
      let router : RouterProcess :=
        { configure_ok := env.router_configure_ok, run_ok := env.router_run_ok,
          is_running := false }
      let self2 : Context := { self1 with router := some router }
      let self3 : Context := { self2 with nodedb := some 0 }
      if !router.configure_ok then (Except.error "Failed to configure router", self3)
      else (Except.ok (), self3)

/-- Embedding of `Context::close()`: release config, node DB, router and loop. -/
def Context.close (self : Context) : Context :=
  { self with config := none, nodedb := none, router := none, loop := none }

/-- Embedding of `Context::run(opts)`: the exit code, the context after and what
was run. `loop->run()` dereferences `loop` without a check; with a started
router and no `loop` the call is undefined, which is `none`. -/
def Context.run (self : Context) : Option (Int × Context × List RunEvent) :=
  match self.router with
  | none => some (1, self, [])
  | some router =>
    let started := router.run
    let self1 : Context := { self with router := some started.2 }
    if !started.1 then some (2, self1, [RunEvent.router_run])
    else
      match self1.loop with
      | none => none
      | some _ =>
        match self1.closeWaiter with
        | some _ =>
          some (0, ({ self1 with closeWaiter := some true } : Context).close,
            [RunEvent.router_run, RunEvent.loop_run, RunEvent.close_waiter_set_value])
        | none => some (0, self1.close, [RunEvent.router_run, RunEvent.loop_run])

namespace dht

/-- Modelled from the spec: `find_closest(target)`, the single nearest key of
the bucket by XOR distance (the bucket header is not among the sources); `none`
is the `false` an empty bucket gives. -/
def Bucket.FindClosest {V : Type} (b : Bucket V) (target : Key_t) : Option Key_t :=
  (b.nodes.map Prod.fst).foldl
    (fun result k =>
      match result with
      | none => some k
      | some r => if distance k target < distance r target then some k else some r)
    none

/-- Embedding of `LookupRouter(target, result)`: the flag returned and the
handler after. `_nodes` is dereferenced without a check; on a handler whose
bucket is not allocated the call is undefined, which is `none`. -/
def DHTMessageHandler.LookupRouter (self : DHTMessageHandler) (time_now_ms : llarp_time_t)
    (target : RouterID) (result : RouterLookupHandler) : Option (Bool × DHTMessageHandler) :=
  match self.nodes with
  | none => none
  | some nodes =>
    match nodes.FindClosest target with
    | none => some (false, self)
    | some askpeer =>
      some (true, self.LookupRouterRecursive time_now_ms target self.ourKey 0 askpeer result)

/-- Embedding of `ExploreNetworkVia(askpeer)`. -/
def DHTMessageHandler.ExploreNetworkVia (self : DHTMessageHandler)
    (time_now_ms : llarp_time_t) (askpeer : Key_t) : DHTMessageHandler :=
  let txid := (self.ids + 1) % 2 ^ 64
  let peer : TXOwner := ⟨askpeer, txid⟩
  let whoasked : TXOwner := ⟨self.ourKey, txid⟩
  let K : RouterID := askpeer
  { self with
    ids := txid
    pendingExploreLookups :=
      self.pendingExploreLookups.NewTX time_now_ms peer whoasked K
        (Job.ExploreNetworkJob askpeer) none }

/-- Embedding of `LookupIntroSetForPath(addr, txid, path, askpeer, relayOrder)`. -/
def DHTMessageHandler.LookupIntroSetForPath (self : DHTMessageHandler)
    (time_now_ms : llarp_time_t) (addr : Key_t) (txid : Nat) (path : HopID) (askpeer : Key_t)
    (relayOrder : Nat) : DHTMessageHandler :=
  let asker : TXOwner := ⟨self.ourKey, txid⟩
  let ids := (self.ids + 1) % 2 ^ 64
  let peer : TXOwner := ⟨askpeer, ids⟩
  { self with
    ids := ids
    pendingIntrosetLookups :=
      self.pendingIntrosetLookups.NewTX time_now_ms peer asker asker
        (Job.LocalServiceAddressLookup path txid relayOrder addr askpeer) none }

/-- Embedding of `PropagateIntroSetTo(from, txid, introset, tellpeer, relayOrder)`. -/
def DHTMessageHandler.PropagateIntroSetTo (self : DHTMessageHandler)
    (time_now_ms : llarp_time_t) (src : Key_t) (txid : Nat)
    (introset : service.EncryptedIntroSet) (tellpeer : Key_t) (relayOrder : Nat) :
    DHTMessageHandler :=
  let asker : TXOwner := ⟨src, txid⟩
  let ids := (self.ids + 1) % 2 ^ 64
  let peer : TXOwner := ⟨tellpeer, ids⟩
  { self with
    ids := ids
    pendingIntrosetLookups :=
      self.pendingIntrosetLookups.NewTX time_now_ms peer asker asker
        (Job.PublishServiceJob asker introset relayOrder) none }

/-- Embedding of `PropagateLocalIntroSet(from, txid, introset, tellpeer, relayOrder)`. -/
def DHTMessageHandler.PropagateLocalIntroSet (self : DHTMessageHandler)
    (time_now_ms : llarp_time_t) (src : HopID) (txid : Nat)
    (introset : service.EncryptedIntroSet) (tellpeer : Key_t) (relayOrder : Nat) :
    DHTMessageHandler :=
  let asker : TXOwner := ⟨self.ourKey, txid⟩
  let ids := (self.ids + 1) % 2 ^ 64
  let peer : TXOwner := ⟨tellpeer, ids⟩
  { self with
    ids := ids
    pendingIntrosetLookups :=
      self.pendingIntrosetLookups.NewTX time_now_ms peer asker peer
        (Job.LocalPublishServiceJob peer src txid introset relayOrder) none }

/-- Embedding of `LookupIntroSetRelayed(addr, whoasked, txid, askpeer, relayOrder,
handler)`. -/
def DHTMessageHandler.LookupIntroSetRelayed (self : DHTMessageHandler)
    (time_now_ms : llarp_time_t) (addr whoasked : Key_t) (txid : Nat) (askpeer : Key_t)
    (relayOrder : Nat) (handler : Option Nat) : DHTMessageHandler :=
  let asker : TXOwner := ⟨whoasked, txid⟩
  let ids := (self.ids + 1) % 2 ^ 64
  let peer : TXOwner := ⟨askpeer, ids⟩
  { self with
    ids := ids
    pendingIntrosetLookups :=
      self.pendingIntrosetLookups.NewTX time_now_ms peer asker asker
        (Job.ServiceAddressLookup asker addr relayOrder handler) none }

/-- Embedding of `LookupIntroSetDirect(addr, whoasked, txid, askpeer, handler)`:
relay order 0 and a timeout of 1 s. -/
def DHTMessageHandler.LookupIntroSetDirect (self : DHTMessageHandler)
    (time_now_ms : llarp_time_t) (addr whoasked : Key_t) (txid : Nat) (askpeer : Key_t)
    (handler : Option Nat) : DHTMessageHandler :=
  let asker : TXOwner := ⟨whoasked, txid⟩
  let ids := (self.ids + 1) % 2 ^ 64
  let peer : TXOwner := ⟨askpeer, ids⟩
  { self with
    ids := ids
    pendingIntrosetLookups :=
      self.pendingIntrosetLookups.NewTX time_now_ms peer asker asker
        (Job.ServiceAddressLookup asker addr 0 handler) (some 1000) }

/-- Embedding of `LookupRouterForPath(target, txid, path, askpeer)`. -/
def DHTMessageHandler.LookupRouterForPath (self : DHTMessageHandler)
    (time_now_ms : llarp_time_t) (target : RouterID) (txid : Nat) (path : HopID)
    (askpeer : Key_t) : DHTMessageHandler :=
  let ids := (self.ids + 1) % 2 ^ 64
  let peer : TXOwner := ⟨askpeer, ids⟩
  let whoasked : TXOwner := ⟨self.ourKey, txid⟩
  { self with
    ids := ids
    pendingRouterLookups :=
      self.pendingRouterLookups.NewTX time_now_ms peer whoasked target
        (Job.LocalRouterLookup path txid target) none }

/-- The TX-creating operations of the handler with their arguments. -/
inductive TxOperation where
  | LookupRouterRecursive (target : RouterID) (whoasked : Key_t) (txid : Nat) (askpeer : Key_t)
      (handler : RouterLookupHandler)
  | LookupRouterForPath (target : RouterID) (txid : Nat) (path : HopID) (askpeer : Key_t)
  | LookupIntroSetForPath (addr : Key_t) (txid : Nat) (path : HopID) (askpeer : Key_t)
      (relayOrder : Nat)
  | LookupIntroSetRelayed (addr whoasked : Key_t) (txid : Nat) (askpeer : Key_t)
      (relayOrder : Nat) (handler : Option Nat)
  | LookupIntroSetDirect (addr whoasked : Key_t) (txid : Nat) (askpeer : Key_t)
      (handler : Option Nat)
  | PropagateIntroSetTo (src : Key_t) (txid : Nat) (introset : service.EncryptedIntroSet)
      (tellpeer : Key_t) (relayOrder : Nat)
  | PropagateLocalIntroSet (src : HopID) (txid : Nat) (introset : service.EncryptedIntroSet)
      (tellpeer : Key_t) (relayOrder : Nat)
  | ExploreNetworkVia (askpeer : Key_t)
deriving DecidableEq, Repr

/-- One TX-creating operation applied to the handler. -/
def DHTMessageHandler.perform (self : DHTMessageHandler) (time_now_ms : llarp_time_t) :
    TxOperation → DHTMessageHandler
  | TxOperation.LookupRouterRecursive target whoasked txid askpeer handler =>
    self.LookupRouterRecursive time_now_ms target whoasked txid askpeer handler
  | TxOperation.LookupRouterForPath target txid path askpeer =>
    self.LookupRouterForPath time_now_ms target txid path askpeer
  | TxOperation.LookupIntroSetForPath addr txid path askpeer relayOrder =>
    self.LookupIntroSetForPath time_now_ms addr txid path askpeer relayOrder
  | TxOperation.LookupIntroSetRelayed addr whoasked txid askpeer relayOrder handler =>
    self.LookupIntroSetRelayed time_now_ms addr whoasked txid askpeer relayOrder handler
  | TxOperation.LookupIntroSetDirect addr whoasked txid askpeer handler =>
    self.LookupIntroSetDirect time_now_ms addr whoasked txid askpeer handler
  | TxOperation.PropagateIntroSetTo src txid introset tellpeer relayOrder =>
    self.PropagateIntroSetTo time_now_ms src txid introset tellpeer relayOrder
  | TxOperation.PropagateLocalIntroSet src txid introset tellpeer relayOrder =>
    self.PropagateLocalIntroSet time_now_ms src txid introset tellpeer relayOrder
  | TxOperation.ExploreNetworkVia askpeer => self.ExploreNetworkVia time_now_ms askpeer

/-- Successive TX-creating operations on one handler. -/
def DHTMessageHandler.performAll (self : DHTMessageHandler) (time_now_ms : llarp_time_t) :
    List TxOperation → DHTMessageHandler
  | [] => self
  | op :: ops => (self.perform time_now_ms op).performAll time_now_ms ops

/-- The values the id counter takes in `n` successive increments from `ids`. -/
def successiveIds (ids n : Nat) : List Nat :=
  (List.range n).map (fun k => (ids + k + 1) % 2 ^ 64)

/-- What `DHTSendTo` asks of the router: the messages handed to
`SendToOrQueue` and the sessions handed to `PersistSessionUntil`. -/
structure SendEffects where
  sent : List (RouterID × AbstractDHTMessage)
  persisted : List (RouterID × llarp_time_t)
deriving DecidableEq, Repr

/-- Embedding of `DHTSendTo(peer, msg, keepalive)`; the third parameter has no
name in the definition and is not read, and one minute is 60000 ms. -/
def DHTMessageHandler.DHTSendTo (self : DHTMessageHandler) (peer : RouterID)
    (msg : AbstractDHTMessage) (_keepalive : Bool) : SendEffects :=
  let now := self.Now
  { sent := [(peer, msg)], persisted := [(peer, now + 60000)] }

end dht

namespace net

/-- The address families `AF_INET` and `AF_INET6` (their Linux values). -/
def AF_INET : Int := 2

/-- The address family `AF_INET6`. -/
def AF_INET6 : Int := 10

/-- A socket address (`oxen::quic::Address`, a type of an external library):
family, address bits and port; the default-constructed address has no family
yet. -/
structure Address where
  family : Option Int
  addr : Nat
  port : Nat
deriving DecidableEq, Repr

/-- The default-constructed address `Address{}`. -/
def Address.empty : Address := ⟨none, 0, 0⟩

/-- Member `set_addr(const in_addr*)`. -/
def Address.set_addr4 (a : Address) (bits : Nat) : Address :=
  { a with family := some AF_INET, addr := bits }

/-- Member `set_addr(const in6_addr*)`. -/
def Address.set_addr6 (a : Address) (bits : Nat) : Address :=
  { a with family := some AF_INET6, addr := bits }

/-- Member `set_port(port)`. -/
def Address.set_port (a : Address) (port : Nat) : Address := { a with port := port }

/-- The constant `INADDR_ANY` and the bits of `in6addr_any`. -/
def INADDR_ANY : Nat := 0

/-- Embedding of `Platform::wildcard(af)`. Both `if` statements fall through to
the `throw` that ends the body: there is no `return`. -/
def Platform.wildcard (af : Int) : Except String Address :=
  let ret := Address.empty
  let ret := if af = AF_INET then ret.set_addr4 INADDR_ANY else ret
  let ret := if af = AF_INET6 then ret.set_addr6 0 else ret
  (fun (_ : Address) => Except.error "invalid_argument: not a valid address family") ret

/-- Embedding of `Platform::wildcard_with_port(port, af)`. -/
def Platform.wildcard_with_port (port : Nat) (af : Int) : Except String Address :=
  match Platform.wildcard af with
  | Except.error e => Except.error e
  | Except.ok addr => Except.ok (addr.set_port port)

end net

/-! ## Concrete states used to instantiate the theorems -/

namespace dht

/-- An empty transaction table with a default timeout of 5 s. -/
def exampleTable (K : Type) : TXHolder K := ⟨[], [], [], 5000⟩

/-- A bucket node for key `k` whose RC expires at `expiry`. -/
def exampleNode (k : Key_t) (expiry : llarp_time_t) : Key_t × RCNode :=
  (k, ⟨⟨k, 1, 0, expiry⟩, k⟩)

/-- A router at time 2000 that allows sessions to every router but 66, reports
router 4 as bad for connect, and knows the RCs `node_db`. -/
def exampleRouter (node_db : List RouterContact) : Router :=
  { rc := ⟨100, 1, 0, 100000⟩, now := 2000, SessionToRouterAllowed := fun k => !decide (k = 66),
    node_db := node_db, IsBadForConnect := fun k => decide (k = 4), rcExpiresSoonGuard := 60000 }

/-- A handler with own key 100, the given node DB and the given bucket keys,
whose id counter is about to wrap. -/
def exampleHandler (node_db : List RouterContact) (keys : List Key_t) : DHTMessageHandler :=
  { router := exampleRouter node_db, nodes := some ⟨keys.map (fun k => exampleNode k 100000)⟩,
    services := some ⟨[]⟩, allowTransit := false,
    pendingIntrosetLookups := exampleTable _, pendingRouterLookups := exampleTable _,
    pendingExploreLookups := exampleTable _, ids := 2 ^ 64 - 1, ourKey := 100 }

end dht

namespace dht

/-- A handler at router time 2000 whose RC bucket holds an RC expired long ago
(key 1), one expiring exactly now (key 2) and a live one (key 3), whose introset
bucket holds an expired and a live introset, and whose router-lookup table
holds one transaction past its deadline and one still pending. -/
def exampleExpiryHandler : DHTMessageHandler :=
  { router := exampleRouter [],
    nodes := some ⟨[exampleNode 1 1000, exampleNode 2 2000, exampleNode 3 2001]⟩,
    services := some ⟨[(8, ⟨⟨8, 0, 0, 1500⟩, 8⟩), (9, ⟨⟨9, 0, 0, 9000⟩, 9⟩)]⟩,
    allowTransit := false,
    pendingIntrosetLookups := exampleTable _,
    pendingRouterLookups :=
      { tx := [⟨⟨5, 1⟩, ⟨50, 8⟩, 7, 0, 0, Job.RecursiveRouterLookup ⟨50, 8⟩ 7 none, some 1000⟩,
               ⟨⟨5, 2⟩, ⟨50, 9⟩, 7, 1500, 0, Job.RecursiveRouterLookup ⟨50, 9⟩ 7 none, none⟩],
        started := [⟨5, 1⟩, ⟨5, 2⟩], timedOut := [], defaultTimeout := 5000 },
    pendingExploreLookups := exampleTable _, ids := 2, ourKey := 100 }

end dht

namespace path

/-- A transit hop between downstream router 1 (rx id 10) and upstream router 2
(tx id 20). -/
def exampleHopA : TransitHop := ⟨⟨1, 2, 10, 20⟩, 0, 600000⟩

/-- A transit hop that shares `(downstream 1, rx id 10)` with `exampleHopA` but
has upstream router 3 and tx id 30. -/
def exampleHopB : TransitHop := ⟨⟨1, 3, 10, 30⟩, 0, 600000⟩

/-- The path context after registering `exampleHopA` in the empty context. -/
def exampleContext : PathContext :=
  PathContext.put_transit_hop ⟨[], [], true, ⟨[], DefaultPathBuildLimit⟩⟩ exampleHopA

end path

namespace path

/-- A three-hop path built at time 0 with hop lifetime 10 min: first hop
router `first` with the given RX and TX ids, pivot router `pivot`. -/
def examplePath (first : RouterID) (rx tx : HopID) (pivot : RouterID) (established : Bool) :
    Path :=
  { hops := [⟨first, rx, tx, 600000⟩, ⟨first + 1, rx + 100, tx + 100, 600000⟩,
             ⟨pivot, rx + 200, tx + 200, 600000⟩],
    buildStarted := 0, established := established, is_session_path := false,
    is_client := true, last_recv_msg := 0 }

/-- A one-hop path built at the largest 64-bit signed time, with hop lifetime
1 ms. -/
def examplePathLate : Path :=
  { hops := [⟨11, 1, 2, 1⟩], buildStarted := 9223372036854775807, established := true,
    is_session_path := false, is_client := true, last_recv_msg := 0 }

/-- A handler without paths. -/
def exampleSet : PathHandler := ⟨[]⟩

end path

namespace handlers

/-- A codec for the examples: names ending in the five characters `.loki` are
valid, every response parses, and only the record `"record-of-alice"` decrypts
under `"alice.loki"`, to address 42. -/
def exampleCodec : service.Codec :=
  { is_valid_ons := fun s => s.takeRight 5 == ".loki",
    ons_construct := fun response => some response,
    ons_decrypt := fun record ons_name =>
      if record = "record-of-alice" ∧ ons_name = "alice.loki" then some 42 else none,
    introset_construct := fun _ => none,
    introset_decrypt := fun _ _ => none }

/-- A remote handler holding one established path and one path that is still
being built. -/
def exampleRemote : RemoteHandler :=
  { name := "remote",
    paths := [(13, path.examplePath 11 1 2 13 true), (23, path.examplePath 21 3 4 23 false)] }

/-- A remote handler holding four established paths. -/
def exampleRemoteFour : RemoteHandler :=
  { name := "remote",
    paths := [(13, path.examplePath 11 1 2 13 true), (23, path.examplePath 21 3 4 23 true),
              (33, path.examplePath 31 5 6 33 true), (43, path.examplePath 41 7 8 43 true)] }

end handlers

namespace handlers

/-- A remote handler whose address map pairs local address `10.0.0.1:0`
(written 1) with remote 77. -/
def exampleRemoteMapped : RemoteHandler :=
  { name := "remote", paths := [], address_map := ⟨[(⟨1, 0⟩, 77)]⟩ }

end handlers

/-- A context that has been configured and set up: config, router, node DB and
both loops present, nobody waiting for the close. -/
def exampleContextUp (run_ok : Bool) : Context :=
  { config := some ⟨1⟩, router := some ⟨true, run_ok, false⟩, nodedb := some 0, loop := some 0,
    _loop := some 0, closeWaiter := none }

/-- A freshly constructed context: nothing present. -/
def exampleContextNew : Context :=
  { config := none, router := none, nodedb := none, loop := none, _loop := none,
    closeWaiter := none }

/-! ## Properties -/

namespace dht

/-- C1: for every requester, txid and recursive flag, `LookupRouterRelayed` with
the handler's own key as target appends exactly one reply, a `GotRouter`
addressed to the requester that carries the txid and exactly the local RC, and
leaves the handler (so every pending table) unchanged, whatever the session
policy of the router is. -/
theorem lookup_router_relayed_self (self : DHTMessageHandler) (time_now_ms : llarp_time_t)
    (requester : Key_t) (txid : Nat) (recursive : Bool) (replies : List AbstractDHTMessage) :
    self.LookupRouterRelayed time_now_ms requester txid self.ourKey recursive replies =
      (self, replies ++ [AbstractDHTMessage.GotRouter
        { From := requester, foundRCs := [self.router.rc], closerTarget := none,
          nearKeys := [], txid := txid, relayed := false }]) := by
  simp [DHTMessageHandler.LookupRouterRelayed, GotRouterMessage.ofResults]

/-- C2: a recursive relayed lookup for a target other than ourselves, with the
session allowed, whose closest known node `next` is not the target but strictly
closer to it than we are, leaves `replies` unchanged and creates exactly one
router-lookup transaction: owner `(next, new txid)`, asker `(requester, txid)`,
target `target`. The new txid is the incremented counter; the introset and
explore tables are untouched. -/
theorem lookup_router_relayed_forward (self : DHTMessageHandler) (time_now_ms : llarp_time_t)
    (requester : Key_t) (txid : Nat) (target : Key_t) (replies : List AbstractDHTMessage)
    (hself : target ≠ self.ourKey)
    (hallowed : self.router.SessionToRouterAllowed target = true)
    (hnext : (FindClosestTo self.router.node_db target).pubkey ≠ target)
    (hcloser : distance (FindClosestTo self.router.node_db target).pubkey target
      < distance self.ourKey target) :
    (self.LookupRouterRelayed time_now_ms requester txid target true replies).2 = replies ∧
    (self.LookupRouterRelayed time_now_ms requester txid target true replies).1.ids
      = (self.ids + 1) % 2 ^ 64 ∧
    (self.LookupRouterRelayed time_now_ms requester txid target true
        replies).1.pendingRouterLookups.tx
      = self.pendingRouterLookups.tx ++
        [{ owner := ⟨(FindClosestTo self.router.node_db target).pubkey, (self.ids + 1) % 2 ^ 64⟩,
           asker := ⟨requester, txid⟩, target := target, started_at := time_now_ms,
           attempts := 0, job := Job.RecursiveRouterLookup ⟨requester, txid⟩ target none,
           timeout := none }] ∧
    (self.LookupRouterRelayed time_now_ms requester txid target true
        replies).1.pendingIntrosetLookups = self.pendingIntrosetLookups ∧
    (self.LookupRouterRelayed time_now_ms requester txid target true
        replies).1.pendingExploreLookups = self.pendingExploreLookups := by
  simp [DHTMessageHandler.LookupRouterRelayed, DHTMessageHandler.LookupRouterRecursive,
    TXHolder.NewTX, hself, hallowed, hnext, hcloser]

/-- Witness for C2: own key 100, target 7, the node DB knows 1, 2 and 5; 5 is
closest to 7 and closer than 100 is. The counter wraps from `2^64 - 1` to 0. -/
theorem lookup_router_relayed_forward_witness :
    (7 : Key_t) ≠ (exampleHandler [⟨1, 1, 0, 9⟩, ⟨2, 1, 0, 9⟩, ⟨5, 1, 0, 9⟩] []).ourKey ∧
    ((exampleHandler [⟨1, 1, 0, 9⟩, ⟨2, 1, 0, 9⟩, ⟨5, 1, 0, 9⟩] []).LookupRouterRelayed
        0 50 8 7 true []).2 = [] ∧
    ((exampleHandler [⟨1, 1, 0, 9⟩, ⟨2, 1, 0, 9⟩, ⟨5, 1, 0, 9⟩] []).LookupRouterRelayed
        0 50 8 7 true []).1.pendingRouterLookups.tx
      = [{ owner := ⟨5, 0⟩, asker := ⟨50, 8⟩, target := 7, started_at := 0, attempts := 0,
           job := Job.RecursiveRouterLookup ⟨50, 8⟩ 7 none, timeout := none }] :=
  ⟨by decide,
   (lookup_router_relayed_forward (exampleHandler [⟨1, 1, 0, 9⟩, ⟨2, 1, 0, 9⟩, ⟨5, 1, 0, 9⟩] [])
      0 50 8 7 [] (by decide) (by decide) (by decide) (by decide)).1,
   (lookup_router_relayed_forward (exampleHandler [⟨1, 1, 0, 9⟩, ⟨2, 1, 0, 9⟩, ⟨5, 1, 0, 9⟩] [])
      0 50 8 7 [] (by decide) (by decide) (by decide) (by decide)).2.2.1⟩

/-- C3: for a target other than ourselves with the session allowed, when the
closest known RC is the target's own RC: if that RC does not expire soon,
exactly one `GotRouter` reply containing it is appended and the handler (so
every table) is unchanged; if it expires soon, no reply is appended and exactly
one recursive router-lookup transaction towards the target is created on behalf
of `(requester, txid)`. Both hold for either value of `recursive`. -/
theorem lookup_router_relayed_known (self : DHTMessageHandler) (time_now_ms : llarp_time_t)
    (requester : Key_t) (txid : Nat) (target : Key_t) (recursive : Bool)
    (replies : List AbstractDHTMessage)
    (hself : target ≠ self.ourKey)
    (hallowed : self.router.SessionToRouterAllowed target = true)
    (hnext : (FindClosestTo self.router.node_db target).pubkey = target) :
    ((FindClosestTo self.router.node_db target).ExpiresSoon time_now_ms
        self.router.rcExpiresSoonGuard = false →
      self.LookupRouterRelayed time_now_ms requester txid target recursive replies =
        (self, replies ++ [AbstractDHTMessage.GotRouter
          { From := requester, foundRCs := [FindClosestTo self.router.node_db target],
            closerTarget := none, nearKeys := [], txid := txid, relayed := false }])) ∧
    ((FindClosestTo self.router.node_db target).ExpiresSoon time_now_ms
        self.router.rcExpiresSoonGuard = true →
      (self.LookupRouterRelayed time_now_ms requester txid target recursive replies).2
        = replies ∧
      (self.LookupRouterRelayed time_now_ms requester txid target recursive
          replies).1.pendingRouterLookups.tx
        = self.pendingRouterLookups.tx ++
          [{ owner := ⟨target, (self.ids + 1) % 2 ^ 64⟩, asker := ⟨requester, txid⟩,
             target := target, started_at := time_now_ms, attempts := 0,
             job := Job.RecursiveRouterLookup ⟨requester, txid⟩ target none,
             timeout := none }] ∧
      (self.LookupRouterRelayed time_now_ms requester txid target recursive
          replies).1.pendingIntrosetLookups = self.pendingIntrosetLookups ∧
      (self.LookupRouterRelayed time_now_ms requester txid target recursive
          replies).1.pendingExploreLookups = self.pendingExploreLookups) := by
  constructor
  · intro hsoon
    simp [DHTMessageHandler.LookupRouterRelayed, GotRouterMessage.ofResults, hself, hallowed,
      hnext, hsoon]
  · intro hsoon
    simp [DHTMessageHandler.LookupRouterRelayed, DHTMessageHandler.LookupRouterRecursive,
      TXHolder.NewTX, hself, hallowed, hnext, hsoon]

/-- Witness for C3: the node DB knows target 7 itself. With expiry 100000 and
guard 60000 the RC is fresh at time 0 and is sent back; at time 50000 it
expires soon and a refresh lookup towards 7 is created instead. -/
theorem lookup_router_relayed_known_witness :
    ((exampleHandler [⟨1, 1, 0, 9⟩, ⟨7, 1, 0, 100000⟩] []).LookupRouterRelayed
        0 50 8 7 false [] =
      (exampleHandler [⟨1, 1, 0, 9⟩, ⟨7, 1, 0, 100000⟩] [],
        [AbstractDHTMessage.GotRouter
          { From := 50, foundRCs := [⟨7, 1, 0, 100000⟩], closerTarget := none, nearKeys := [],
            txid := 8, relayed := false }])) ∧
    (((exampleHandler [⟨1, 1, 0, 9⟩, ⟨7, 1, 0, 100000⟩] []).LookupRouterRelayed
        50000 50 8 7 false []).2 = [] ∧
     ((exampleHandler [⟨1, 1, 0, 9⟩, ⟨7, 1, 0, 100000⟩] []).LookupRouterRelayed
        50000 50 8 7 false []).1.pendingRouterLookups.tx
      = [{ owner := ⟨7, 0⟩, asker := ⟨50, 8⟩, target := 7, started_at := 50000, attempts := 0,
           job := Job.RecursiveRouterLookup ⟨50, 8⟩ 7 none, timeout := none }]) :=
  ⟨(lookup_router_relayed_known (exampleHandler [⟨1, 1, 0, 9⟩, ⟨7, 1, 0, 100000⟩] [])
      0 50 8 7 false [] (by decide) (by decide) (by decide)).1 (by decide),
   ((lookup_router_relayed_known (exampleHandler [⟨1, 1, 0, 9⟩, ⟨7, 1, 0, 100000⟩] [])
      50000 50 8 7 false [] (by decide) (by decide) (by decide)).2 (by decide)).1,
   ((lookup_router_relayed_known (exampleHandler [⟨1, 1, 0, 9⟩, ⟨7, 1, 0, 100000⟩] [])
      50000 50 8 7 false [] (by decide) (by decide) (by decide)).2 (by decide)).2.1⟩

/-- C4: for a target other than ourselves to which a session is not allowed,
exactly one `GotRouter` reply addressed to the requester with the txid and an
empty RC set is appended and the handler (so every table) is unchanged, for
both values of `recursive`; the outcome is the same whatever the node DB
holds, so the node DB is not consulted. -/
theorem lookup_router_relayed_denied (self : DHTMessageHandler) (time_now_ms : llarp_time_t)
    (requester : Key_t) (txid : Nat) (target : Key_t) (recursive : Bool)
    (replies : List AbstractDHTMessage)
    (hself : target ≠ self.ourKey)
    (hdenied : self.router.SessionToRouterAllowed target = false) :
    self.LookupRouterRelayed time_now_ms requester txid target recursive replies =
      (self, replies ++ [AbstractDHTMessage.GotRouter
        { From := requester, foundRCs := [], closerTarget := none, nearKeys := [],
          txid := txid, relayed := false }]) ∧
    ∀ node_db : List RouterContact,
      ({ self with router := { self.router with node_db := node_db } }
          : DHTMessageHandler).LookupRouterRelayed time_now_ms requester txid target recursive
          replies =
        ({ self with router := { self.router with node_db := node_db } },
          replies ++ [AbstractDHTMessage.GotRouter
            { From := requester, foundRCs := [], closerTarget := none, nearKeys := [],
              txid := txid, relayed := false }]) := by
  constructor
  · simp [DHTMessageHandler.LookupRouterRelayed, GotRouterMessage.ofResults, hself, hdenied]
  · intro node_db
    simp [DHTMessageHandler.LookupRouterRelayed, GotRouterMessage.ofResults, hself, hdenied]

/-- Witness for C4: sessions to router 66 are denied; the node DB knows 66 but
the reply is empty. -/
theorem lookup_router_relayed_denied_witness :
    (exampleHandler [⟨66, 1, 0, 100000⟩] []).router.SessionToRouterAllowed 66 = false ∧
    (exampleHandler [⟨66, 1, 0, 100000⟩] []).LookupRouterRelayed 0 50 8 66 true [] =
      (exampleHandler [⟨66, 1, 0, 100000⟩] [],
        [AbstractDHTMessage.GotRouter
          { From := 50, foundRCs := [], closerTarget := none, nearKeys := [], txid := 8,
            relayed := false }]) :=
  ⟨by decide,
   (lookup_router_relayed_denied (exampleHandler [⟨66, 1, 0, 100000⟩] []) 0 50 8 66 true []
      (by decide) (by decide)).1⟩

/-- C5: for a target other than ourselves with the session allowed and a
closest known node `next` other than the target: a recursive lookup whose
`next` is not strictly closer to the target than we are gets exactly one
`GotRouter` reply with an empty RC set; an iterative lookup gets exactly one
`GotRouter` reply carrying `next` as closer-node hint and the txid; in both
cases the handler (so every table) is unchanged. -/
theorem lookup_router_relayed_not_closer (self : DHTMessageHandler)
    (time_now_ms : llarp_time_t) (requester : Key_t) (txid : Nat) (target : Key_t)
    (replies : List AbstractDHTMessage)
    (hself : target ≠ self.ourKey)
    (hallowed : self.router.SessionToRouterAllowed target = true)
    (hnext : (FindClosestTo self.router.node_db target).pubkey ≠ target) :
    (¬ distance (FindClosestTo self.router.node_db target).pubkey target
        < distance self.ourKey target →
      self.LookupRouterRelayed time_now_ms requester txid target true replies =
        (self, replies ++ [AbstractDHTMessage.GotRouter
          { From := requester, foundRCs := [], closerTarget := none, nearKeys := [],
            txid := txid, relayed := false }])) ∧
    self.LookupRouterRelayed time_now_ms requester txid target false replies =
      (self, replies ++ [AbstractDHTMessage.GotRouter
        { From := requester, foundRCs := [],
          closerTarget := some (FindClosestTo self.router.node_db target).pubkey,
          nearKeys := [], txid := txid, relayed := false }]) := by
  constructor
  · intro hfar
    simp [DHTMessageHandler.LookupRouterRelayed, GotRouterMessage.ofResults, hself, hallowed,
      hnext, hfar]
  · simp [DHTMessageHandler.LookupRouterRelayed, GotRouterMessage.ofCloser, hself, hallowed,
      hnext]

/-- Witness for C5: own key 100, target 101, the node DB knows 1, 2 and 5; the
closest, 5, is farther from 101 than 100 is. Recursive gives an empty reply,
iterative the hint 5. -/
theorem lookup_router_relayed_not_closer_witness :
    ((exampleHandler [⟨1, 1, 0, 9⟩, ⟨2, 1, 0, 9⟩, ⟨5, 1, 0, 9⟩] []).LookupRouterRelayed
        0 50 8 101 true [] =
      (exampleHandler [⟨1, 1, 0, 9⟩, ⟨2, 1, 0, 9⟩, ⟨5, 1, 0, 9⟩] [],
        [AbstractDHTMessage.GotRouter
          { From := 50, foundRCs := [], closerTarget := none, nearKeys := [], txid := 8,
            relayed := false }])) ∧
    ((exampleHandler [⟨1, 1, 0, 9⟩, ⟨2, 1, 0, 9⟩, ⟨5, 1, 0, 9⟩] []).LookupRouterRelayed
        0 50 8 101 false [] =
      (exampleHandler [⟨1, 1, 0, 9⟩, ⟨2, 1, 0, 9⟩, ⟨5, 1, 0, 9⟩] [],
        [AbstractDHTMessage.GotRouter
          { From := 50, foundRCs := [], closerTarget := some 5, nearKeys := [], txid := 8,
            relayed := false }])) :=
  ⟨(lookup_router_relayed_not_closer
      (exampleHandler [⟨1, 1, 0, 9⟩, ⟨2, 1, 0, 9⟩, ⟨5, 1, 0, 9⟩] []) 0 50 8 101 []
      (by decide) (by decide) (by decide)).1 (by decide),
   (lookup_router_relayed_not_closer
      (exampleHandler [⟨1, 1, 0, 9⟩, ⟨2, 1, 0, 9⟩, ⟨5, 1, 0, 9⟩] []) 0 50 8 101 []
      (by decide) (by decide) (by decide)).2⟩

end dht

namespace dht

/-! ### The `std::set<Key_t>` model -/

theorem mem_setInsert {a k : Key_t} {s : List Key_t} : a ∈ setInsert k s ↔ a = k ∨ a ∈ s := by
  unfold setInsert
  split
  · constructor
    · exact Or.inr
    · rintro (rfl | h)
      · assumption
      · exact h
  · simp [List.mem_orderedInsert]

theorem sorted_setInsert {k : Key_t} {s : List Key_t} (h : s.Sorted (fun a b => a < b)) :
    (setInsert k s).Sorted (fun a b => a < b) := by
  unfold setInsert
  split
  · exact h
  · rename_i hk
    have hle : (s.orderedInsert (fun a b => a ≤ b) k).Sorted (fun a b => a ≤ b) :=
      List.Sorted.orderedInsert k s h.le_of_lt
    have hnd : (s.orderedInsert (fun a b => a ≤ b) k).Nodup :=
      (List.perm_orderedInsert (fun a b => a ≤ b) k s).nodup_iff.mpr
        (List.nodup_cons.mpr ⟨hk, h.nodup⟩)
    exact hle.lt_of_le hnd

theorem length_setInsert_le (k : Key_t) (s : List Key_t) :
    (setInsert k s).length ≤ s.length + 1 := by
  unfold setInsert
  split
  · exact Nat.le_succ _
  · simp [List.orderedInsert_length]

theorem length_setInsert_of_not_mem {k : Key_t} {s : List Key_t} (h : k ∉ s) :
    (setInsert k s).length = s.length + 1 := by
  simp [setInsert, h, List.orderedInsert_length]

theorem mem_foldl_setInsert {a : Key_t} (l : List Key_t) :
    ∀ r : List Key_t, a ∈ l.foldl (fun s k => setInsert k s) r ↔ a ∈ r ∨ a ∈ l := by
  induction l with
  | nil => intro r; simp
  | cons k l ih =>
    intro r
    simp only [List.foldl_cons, ih, mem_setInsert, List.mem_cons]
    tauto

theorem sorted_foldl_setInsert (l : List Key_t) :
    ∀ r : List Key_t, r.Sorted (fun a b => a < b) →
      (l.foldl (fun s k => setInsert k s) r).Sorted (fun a b => a < b) := by
  induction l with
  | nil => intro r h; simpa using h
  | cons k l ih => intro r h; exact ih _ (sorted_setInsert h)

theorem length_foldl_setInsert_le (l : List Key_t) :
    ∀ r : List Key_t, (l.foldl (fun s k => setInsert k s) r).length ≤ r.length + l.length := by
  induction l with
  | nil => intro r; simp
  | cons k l ih =>
    intro r
    have h1 := ih (setInsert k r)
    have h2 := length_setInsert_le k r
    simp only [List.foldl_cons, List.length_cons]
    omega

theorem length_foldl_setInsert_of_nodup (l : List Key_t) :
    ∀ r : List Key_t, l.Nodup → (∀ a ∈ l, a ∉ r) →
      (l.foldl (fun s k => setInsert k s) r).length = r.length + l.length := by
  induction l with
  | nil => intro r _ _; simp
  | cons k l ih =>
    intro r hnd hdisj
    have hk : k ∉ r := hdisj k (List.mem_cons_self _ _)
    have hnd' := List.nodup_cons.mp hnd
    have h1 := ih (setInsert k r) hnd'.2 (by
      intro a ha hmem
      rcases mem_setInsert.mp hmem with rfl | h
      · exact hnd'.1 ha
      · exact hdisj a (List.mem_cons_of_mem _ ha) h)
    simp only [List.foldl_cons, List.length_cons, h1, length_setInsert_of_not_mem hk]
    omega

theorem mem_stdSet_pair {a x y : Key_t} : a ∈ stdSet [x, y] ↔ a = x ∨ a = y := by
  simp only [stdSet, List.foldl_cons, List.foldl_nil, mem_setInsert, List.not_mem_nil, or_false]
  tauto

/-! ### The bucket query -/

theorem mem_available {V : Type} {b : Bucket V} {exclude : List Key_t} {k : Key_t} :
    k ∈ b.available exclude ↔ k ∈ b.nodes.map Prod.fst ∧ k ∉ exclude := by
  simp [Bucket.available]

theorem available_length_le {V : Type} (b : Bucket V) (exclude : List Key_t) :
    (b.available exclude).length ≤ b.size := by
  unfold Bucket.available Bucket.size
  calc ((b.nodes.map Prod.fst).filter _).length ≤ (b.nodes.map Prod.fst).length :=
        List.length_filter_le _ _
    _ = b.nodes.length := List.length_map _ _

theorem mem_GetManyNearExcluding {V : Type} {b : Bucket V} {target : Key_t} {N : Nat}
    {exclude : List Key_t} {k : Key_t}
    (h : k ∈ (b.GetManyNearExcluding target [] N exclude).2) :
    k ∈ b.nodes.map Prod.fst ∧ k ∉ exclude := by
  unfold Bucket.GetManyNearExcluding at h
  rcases (mem_foldl_setInsert _ _).mp h with h | h
  · simp at h
  · exact mem_available.mp ((List.mem_insertionSort _).mp (List.mem_of_mem_take h))

theorem length_GetManyNearExcluding_le {V : Type} (b : Bucket V) (target : Key_t) (N : Nat)
    (exclude : List Key_t) : (b.GetManyNearExcluding target [] N exclude).2.length ≤ N := by
  unfold Bucket.GetManyNearExcluding
  refine (length_foldl_setInsert_le _ _).trans ?_
  simp

theorem sorted_GetManyNearExcluding {V : Type} (b : Bucket V) (target : Key_t) (N : Nat)
    (exclude : List Key_t) :
    (b.GetManyNearExcluding target [] N exclude).2.Sorted (fun a c => a < c) := by
  unfold Bucket.GetManyNearExcluding
  exact sorted_foldl_setInsert _ _ List.sorted_nil

theorem length_GetManyNearExcluding {V : Type} (b : Bucket V) (target : Key_t) (N : Nat)
    (exclude : List Key_t) (hnd : (b.nodes.map Prod.fst).Nodup)
    (hN : N ≤ (b.available exclude).length) :
    (b.GetManyNearExcluding target [] N exclude).2.length = N := by
  unfold Bucket.GetManyNearExcluding
  have havail : (b.available exclude).Nodup := hnd.filter _
  have hsorted : ((b.available exclude).insertionSort (closerEq target)).Nodup :=
    (List.perm_insertionSort _ _).nodup_iff.mpr havail
  have hnear : (((b.available exclude).insertionSort (closerEq target)).take N).Nodup :=
    hsorted.sublist (List.take_sublist _ _)
  rw [length_foldl_setInsert_of_nodup _ _ hnear (by simp)]
  simp [List.length_insertionSort, hN]

end dht

namespace dht

/-- The bucket keys other than `requester` and `ourKey`, in bucket order. -/
theorem available_eq_filter {V : Type} (b : Bucket V) (ourKey requester : Key_t) :
    b.available (stdSet [ourKey, requester]) =
      (b.nodes.map Prod.fst).filter (fun k => decide (k ≠ requester ∧ k ≠ ourKey)) := by
  unfold Bucket.available
  apply List.filter_congr
  intro k _
  have hmem : k ∈ stdSet [ourKey, requester] ↔ k = ourKey ∨ k = requester := mem_stdSet_pair
  rw [Bool.eq_iff_iff]
  simp only [Bool.not_eq_true', decide_eq_false_iff_not, decide_eq_true_eq, hmem]
  tauto

/-- Shape of a successful exploratory lookup. -/
theorem HandleExploritoryRouterLookup_success {self : DHTMessageHandler} {requester : Key_t}
    {txid : Nat} {target : RouterID} {reply out : List AbstractDHTMessage}
    (h : self.HandleExploritoryRouterLookup requester txid target reply = (true, out)) :
    ∃ nodes, self.nodes = some nodes ∧ nodes.size ≠ 0 ∧
      (nodes.GetManyNearExcluding target [] (min nodes.size 4)
        (stdSet [self.ourKey, requester])).1 = true ∧
      out = reply ++ [AbstractDHTMessage.GotRouter (GotRouterMessage.ofNear txid
        ((nodes.GetManyNearExcluding target [] (min nodes.size 4)
          (stdSet [self.ourKey, requester])).2.filter
            (fun f => !self.router.IsBadForConnect f)) false)] := by
  unfold DHTMessageHandler.HandleExploritoryRouterLookup at h
  cases hn : self.nodes with
  | none => simp [hn] at h
  | some nodes =>
    simp only [hn] at h
    by_cases h0 : nodes.size = 0
    · simp [h0] at h
    · simp only [h0, if_false] at h
      cases hok : (nodes.GetManyNearExcluding target [] (min nodes.size 4)
          (stdSet [self.ourKey, requester])).1 with
      | false => simp [hok] at h
      | true =>
        simp only [hok, Bool.not_true, Bool.false_eq_true, if_false, Prod.mk.injEq,
          true_and] at h
        exact ⟨nodes, rfl, h0, hok, h.symm⟩

end dht

namespace dht

/-- Removing two distinct members from a duplicate-free list of keys. -/
theorem length_filter_ne_ne {l : List Key_t} {x y : Key_t} (hnd : l.Nodup) (hx : x ∈ l)
    (hy : y ∈ l) (hxy : x ≠ y) :
    (l.filter (fun k => decide (k ≠ x ∧ k ≠ y))).length + 2 = l.length := by
  have h1 : l.filter (fun k => decide (k ≠ x ∧ k ≠ y)) = (l.erase x).erase y := by
    rw [(hnd.erase x).erase_eq_filter y, hnd.erase_eq_filter x, List.filter_filter]
    apply List.filter_congr
    intro k _
    rw [Bool.eq_iff_iff]
    simp [and_comm]
  have hy' : y ∈ l.erase x := (List.mem_erase_of_ne (Ne.symm hxy)).mpr hy
  have hpos : 0 < l.length := List.length_pos_of_mem hx
  have hpos' : 0 < (l.erase x).length := List.length_pos_of_mem hy'
  rw [h1, List.length_erase_of_mem hy', List.length_erase_of_mem hx]
  have := List.length_erase_of_mem hx
  omega

/-- With at least four bucket nodes other than requester and self, none of them
bad for connect, the reply carries exactly four router ids. -/
theorem exploratory_closer_length_four (nodes : Bucket RCNode) (ourKey requester : Key_t)
    (target : Key_t) (bad : RouterID → Bool)
    (hnd : (nodes.nodes.map Prod.fst).Nodup)
    (h4 : 4 ≤ ((nodes.nodes.map Prod.fst).filter
      (fun k => decide (k ≠ requester ∧ k ≠ ourKey))).length)
    (hgood : ∀ k ∈ nodes.nodes.map Prod.fst, k ≠ requester → k ≠ ourKey → bad k = false) :
    ((nodes.GetManyNearExcluding target [] (min nodes.size 4)
        (stdSet [ourKey, requester])).2.filter (fun f => !bad f)).length = 4 := by
  rw [← available_eq_filter] at h4
  have hsize := available_length_le nodes (stdSet [ourKey, requester])
  have hmin : min nodes.size 4 = 4 := by omega
  have hkeep : (nodes.GetManyNearExcluding target [] (min nodes.size 4)
        (stdSet [ourKey, requester])).2.filter (fun f => !bad f)
      = (nodes.GetManyNearExcluding target [] (min nodes.size 4)
        (stdSet [ourKey, requester])).2 := by
    apply List.filter_eq_self.mpr
    intro k hk
    have hk' := mem_GetManyNearExcluding hk
    have hne : ¬ (k = ourKey ∨ k = requester) := fun h => hk'.2 (mem_stdSet_pair.mpr h)
    have := hgood k hk'.1 (fun h => hne (Or.inr h)) (fun h => hne (Or.inl h))
    simp [this]
  rw [hkeep, hmin]
  exact length_GetManyNearExcluding nodes target 4 _ hnd h4

/-- The keys delivered by the bucket query are the nearest ones: each is at
least as close to `target` as every available key that is not delivered. -/
theorem GetManyNearExcluding_nearest {V : Type} (b : Bucket V) (target : Key_t) (N : Nat)
    (exclude : List Key_t) (k j : Key_t)
    (hk : k ∈ (b.GetManyNearExcluding target [] N exclude).2)
    (hj : j ∈ b.available exclude)
    (hnot : j ∉ (b.GetManyNearExcluding target [] N exclude).2) :
    distance k target ≤ distance j target := by
  unfold Bucket.GetManyNearExcluding at hk hnot
  haveI : IsTotal Key_t (closerEq target) := ⟨fun x y => Nat.le_total _ _⟩
  haveI : IsTrans Key_t (closerEq target) := ⟨fun _ _ _ hxy hyz => Nat.le_trans hxy hyz⟩
  have hsorted : ((b.available exclude).insertionSort (closerEq target)).Sorted
      (closerEq target) := List.sorted_insertionSort _ _
  have hk' : k ∈ ((b.available exclude).insertionSort (closerEq target)).take N := by
    rcases (mem_foldl_setInsert _ _).mp hk with h | h
    · simp at h
    · exact h
  have hj' : j ∈ ((b.available exclude).insertionSort (closerEq target)).drop N := by
    have hmem : j ∈ (b.available exclude).insertionSort (closerEq target) :=
      (List.mem_insertionSort _).mpr hj
    rw [← List.take_append_drop N ((b.available exclude).insertionSort (closerEq target)),
      List.mem_append] at hmem
    rcases hmem with h | h
    · exact absurd ((mem_foldl_setInsert _ _).mpr (Or.inr h)) hnot
    · exact h
  exact hsorted.rel_of_mem_take_of_mem_drop hk' hj'

/-- With at least four bucket nodes other than requester and self, and the four
of them that the bucket query delivers not bad for connect, the reply carries
exactly four router ids. -/
theorem exploratory_closer_length_four_nearest (nodes : Bucket RCNode)
    (ourKey requester : Key_t) (target : Key_t) (bad : RouterID → Bool)
    (hnd : (nodes.nodes.map Prod.fst).Nodup)
    (h4 : 4 ≤ ((nodes.nodes.map Prod.fst).filter
      (fun k => decide (k ≠ requester ∧ k ≠ ourKey))).length)
    (hgood : ∀ k ∈ (nodes.GetManyNearExcluding target [] 4 (stdSet [ourKey, requester])).2,
      bad k = false) :
    ((nodes.GetManyNearExcluding target [] (min nodes.size 4)
        (stdSet [ourKey, requester])).2.filter (fun f => !bad f)).length = 4 := by
  rw [← available_eq_filter] at h4
  have hsize := available_length_le nodes (stdSet [ourKey, requester])
  have hmin : min nodes.size 4 = 4 := by omega
  rw [hmin]
  have hkeep : (nodes.GetManyNearExcluding target [] 4
        (stdSet [ourKey, requester])).2.filter (fun f => !bad f)
      = (nodes.GetManyNearExcluding target [] 4 (stdSet [ourKey, requester])).2 := by
    apply List.filter_eq_self.mpr
    intro k hk
    simp [hgood k hk]
  rw [hkeep]
  exact length_GetManyNearExcluding nodes target 4 _ hnd h4

/-- C6, as stated, fails: the bucket holds 1, 2, 3, 4, 5, 6, none of them the
requester 50 or the local key 100, and only router 4 is bad for connect, so five
nodes other than requester and self pass the reputation filter. For target 7 the
four nearest are 6, 5, 4, 3; the bad one is dropped and not replaced, so the
reply carries three router ids. -/
theorem handle_exploratory_router_lookup_nearest_bad_counterexample :
    ([1, 2, 3, 4, 5, 6].filter (fun k => decide (k ≠ 50 ∧
        k ≠ (exampleHandler [] [1, 2, 3, 4, 5, 6]).ourKey) &&
        !(exampleHandler [] [1, 2, 3, 4, 5, 6]).router.IsBadForConnect k)) = [1, 2, 3, 5, 6] ∧
    (exampleHandler [] [1, 2, 3, 4, 5, 6]).HandleExploritoryRouterLookup 50 9 7 [] =
      (true, [AbstractDHTMessage.GotRouter (GotRouterMessage.ofNear 9 [3, 5, 6] false)]) ∧
    [3, 5, 6].length ≠ 4 := by
  decide

/-- C6, amended: whenever `HandleExploritoryRouterLookup` succeeds it appends
exactly one `GotRouter` reply carrying the txid; its router list has at most 4
entries, every entry is a key of the RC bucket, none equals the requester or the
local key, and none is reported bad for connect; the list has exactly 4 entries
when the (duplicate-free) bucket holds at least 4 nodes other than requester and
self and the 4 of them nearest to the target, the ones the bucket query
delivers, all pass the reputation filter. -/
theorem handle_exploratory_router_lookup_reply (self : DHTMessageHandler) (requester : Key_t)
    (txid : Nat) (target : RouterID) (reply out : List AbstractDHTMessage)
    (h : self.HandleExploritoryRouterLookup requester txid target reply = (true, out)) :
    ∃ (nodes : Bucket RCNode) (closer : List RouterID),
      self.nodes = some nodes ∧
      out = reply ++ [AbstractDHTMessage.GotRouter
        { From := 0, foundRCs := [], closerTarget := none, nearKeys := closer, txid := txid,
          relayed := false }] ∧
      closer.length ≤ 4 ∧
      (∀ k ∈ closer, k ∈ nodes.nodes.map Prod.fst ∧ k ≠ requester ∧ k ≠ self.ourKey ∧
        self.router.IsBadForConnect k = false) ∧
      ((nodes.nodes.map Prod.fst).Nodup →
        4 ≤ ((nodes.nodes.map Prod.fst).filter
          (fun k => decide (k ≠ requester ∧ k ≠ self.ourKey))).length →
        (∀ k ∈ (nodes.GetManyNearExcluding target [] 4
            (stdSet [self.ourKey, requester])).2,
          self.router.IsBadForConnect k = false) →
        closer.length = 4) := by
  obtain ⟨nodes, hn, _, _, hout⟩ := HandleExploritoryRouterLookup_success h
  refine ⟨nodes, _, hn, hout, ?_, ?_, ?_⟩
  · refine (List.length_filter_le _ _).trans ?_
    refine (length_GetManyNearExcluding_le _ _ _ _).trans ?_
    exact Nat.min_le_right _ _
  · intro k hk
    rw [List.mem_filter] at hk
    have hk' := mem_GetManyNearExcluding hk.1
    have hne : ¬ (k = self.ourKey ∨ k = requester) := fun h => hk'.2 (mem_stdSet_pair.mpr h)
    refine ⟨hk'.1, fun h => hne (Or.inr h), fun h => hne (Or.inl h), ?_⟩
    simpa using hk.2
  · intro hnd h4 hgood
    exact exploratory_closer_length_four_nearest nodes self.ourKey requester target _ hnd h4
      hgood

/-- Witness for C6 amended: the bucket holds 1, 2, 3, 5, 6, the bad router 4,
the local key 100 and the requester 50; the lookup for target 1 succeeds, the
four nearest 1, 3, 2, 5 all pass and the reply carries them. -/
theorem handle_exploratory_router_lookup_reply_witness :
    (exampleHandler [] [1, 2, 3, 4, 5, 6, 100, 50]).HandleExploritoryRouterLookup 50 9 1 [] =
      (true, [AbstractDHTMessage.GotRouter (GotRouterMessage.ofNear 9 [1, 2, 3, 5] false)]) ∧
    ((exampleHandler [] [1, 2, 3, 4, 5, 6, 100, 50]).nodes.map
      (fun nodes => (nodes.GetManyNearExcluding 1 [] 4 (stdSet [100, 50])).2)) =
        some [1, 2, 3, 5] ∧
    ∃ (nodes : Bucket RCNode) (closer : List RouterID),
      (exampleHandler [] [1, 2, 3, 4, 5, 6, 100, 50]).nodes = some nodes ∧
      [AbstractDHTMessage.GotRouter (GotRouterMessage.ofNear 9 [1, 2, 3, 5] false)] =
        [] ++ [AbstractDHTMessage.GotRouter
          { From := 0, foundRCs := [], closerTarget := none, nearKeys := closer, txid := 9,
            relayed := false }] ∧
      closer.length ≤ 4 ∧
      (∀ k ∈ closer, k ∈ nodes.nodes.map Prod.fst ∧ k ≠ 50 ∧
        k ≠ (exampleHandler [] [1, 2, 3, 4, 5, 6, 100, 50]).ourKey ∧
        (exampleHandler [] [1, 2, 3, 4, 5, 6, 100, 50]).router.IsBadForConnect k = false) ∧
      ((nodes.nodes.map Prod.fst).Nodup →
        4 ≤ ((nodes.nodes.map Prod.fst).filter
          (fun k => decide (k ≠ 50 ∧
            k ≠ (exampleHandler [] [1, 2, 3, 4, 5, 6, 100, 50]).ourKey))).length →
        (∀ k ∈ (nodes.GetManyNearExcluding 1 [] 4
            (stdSet [(exampleHandler [] [1, 2, 3, 4, 5, 6, 100, 50]).ourKey, 50])).2,
          (exampleHandler [] [1, 2, 3, 4, 5, 6, 100, 50]).router.IsBadForConnect k = false) →
        closer.length = 4) :=
  ⟨by decide, by decide,
   handle_exploratory_router_lookup_reply (exampleHandler [] [1, 2, 3, 4, 5, 6, 100, 50]) 50 9 1
     [] [AbstractDHTMessage.GotRouter (GotRouterMessage.ofNear 9 [1, 2, 3, 5] false)]
     (by decide)⟩

/-- C7, as stated, fails: the bucket holds only router 4, which is bad for
connect, so no node qualifies; the lookup nevertheless succeeds and appends a
`GotRouter` reply with an empty router list. -/
theorem handle_exploratory_router_lookup_all_bad_counterexample :
    (∀ k ∈ [(4 : Key_t)], ¬ (k ≠ 50 ∧ k ≠ (exampleHandler [] [4]).ourKey ∧
      (exampleHandler [] [4]).router.IsBadForConnect k = false)) ∧
    (exampleHandler [] [4]).nodes = some ⟨[exampleNode 4 100000]⟩ ∧
    (exampleHandler [] [4]).HandleExploritoryRouterLookup 50 9 7 [] =
      (true, [AbstractDHTMessage.GotRouter
        { From := 0, foundRCs := [], closerTarget := none, nearKeys := [], txid := 9,
          relayed := false }]) :=
  ⟨by decide, rfl, by decide⟩

/-- C7, amended: `HandleExploritoryRouterLookup` returns false and appends no
reply whenever no node of the RC bucket differs from both the requester and the
local key (an absent or empty bucket included). The reputation filter runs after
that check: when the bucket holds at least `min(size, 4)` such nodes and every
one of them is bad for connect, the call succeeds and appends a `GotRouter`
reply with an empty router list. -/
theorem handle_exploratory_router_lookup_insufficient (self : DHTMessageHandler)
    (requester : Key_t) (txid : Nat) (target : RouterID) (reply : List AbstractDHTMessage) :
    ((∀ nodes, self.nodes = some nodes →
        ∀ k ∈ nodes.nodes.map Prod.fst, k = requester ∨ k = self.ourKey) →
      self.HandleExploritoryRouterLookup requester txid target reply = (false, reply)) ∧
    (∀ nodes, self.nodes = some nodes → nodes.size ≠ 0 →
      min nodes.size 4 ≤ ((nodes.nodes.map Prod.fst).filter
        (fun k => decide (k ≠ requester ∧ k ≠ self.ourKey))).length →
      (∀ k ∈ nodes.nodes.map Prod.fst, k ≠ requester → k ≠ self.ourKey →
        self.router.IsBadForConnect k = true) →
      self.HandleExploritoryRouterLookup requester txid target reply =
        (true, reply ++ [AbstractDHTMessage.GotRouter
          { From := 0, foundRCs := [], closerTarget := none, nearKeys := [], txid := txid,
            relayed := false }])) := by
  constructor
  · intro hnone
    unfold DHTMessageHandler.HandleExploritoryRouterLookup
    cases hn : self.nodes with
    | none => rfl
    | some nodes =>
      simp only
      by_cases h0 : nodes.size = 0
      · simp [h0]
      · have havail : nodes.available (stdSet [self.ourKey, requester]) = [] := by
          rw [available_eq_filter]
          apply List.filter_eq_nil_iff.mpr
          intro k hk
          rcases hnone nodes hn k hk with h | h <;> simp [h]
        have hpos : 0 < min nodes.size 4 := by omega
        simp [h0, Bucket.GetManyNearExcluding, havail, Nat.pos_iff_ne_zero.mp hpos]
  · intro nodes hn h0 henough hbad
    unfold DHTMessageHandler.HandleExploritoryRouterLookup
    simp only [hn, h0, if_false]
    rw [← available_eq_filter] at henough
    have hok : (nodes.GetManyNearExcluding target [] (min nodes.size 4)
        (stdSet [self.ourKey, requester])).1 = true := by
      simp [Bucket.GetManyNearExcluding, henough]
    have hempty : (nodes.GetManyNearExcluding target [] (min nodes.size 4)
        (stdSet [self.ourKey, requester])).2.filter
          (fun f => !self.router.IsBadForConnect f) = [] := by
      apply List.filter_eq_nil_iff.mpr
      intro k hk
      have hk' := mem_GetManyNearExcluding hk
      have hne : ¬ (k = self.ourKey ∨ k = requester) :=
        fun h => hk'.2 (mem_stdSet_pair.mpr h)
      have := hbad k hk'.1 (fun h => hne (Or.inr h)) (fun h => hne (Or.inl h))
      simp [this]
    simp [hok, hempty, GotRouterMessage.ofNear]

/-- Witness for C7 amended: a bucket holding only the requester 50 and the
local key 100 gives an error; a bucket holding only the bad router 4 gives a
successful empty reply. -/
theorem handle_exploratory_router_lookup_insufficient_witness :
    (exampleHandler [] [50, 100]).HandleExploritoryRouterLookup 50 9 7 [] = (false, []) ∧
    (exampleHandler [] [4]).HandleExploritoryRouterLookup 50 9 7 [] =
      (true, [] ++ [AbstractDHTMessage.GotRouter
        { From := 0, foundRCs := [], closerTarget := none, nearKeys := [], txid := 9,
          relayed := false }]) :=
  ⟨(handle_exploratory_router_lookup_insufficient (exampleHandler [] [50, 100]) 50 9 7 []).1
      (by
        intro nodes hn k hk
        have hn' : nodes = ⟨[exampleNode 50 100000, exampleNode 100 100000]⟩ :=
          (Option.some.inj hn).symm
        subst hn'
        simp [exampleNode] at hk
        rcases hk with rfl | rfl
        · exact Or.inl rfl
        · exact Or.inr rfl),
   (handle_exploratory_router_lookup_insufficient (exampleHandler [] [4]) 50 9 7 []).2
      ⟨[exampleNode 4 100000]⟩ rfl (by decide) (by decide) (by decide)⟩

end dht

namespace dht

/-- C8, as stated, fails: with the bucket 1, 2, 3, 5, 100 (self), 50 (requester)
and target 7 the reply lists 1, 2, 3, 5, whose distances to 7 are 6, 5, 4, 2:
the ids are in ascending key order, which here is descending distance. -/
theorem handle_exploratory_router_lookup_order_counterexample :
    (exampleHandler [] [1, 2, 3, 5, 100, 50]).HandleExploritoryRouterLookup 50 9 7 [] =
      (true, [AbstractDHTMessage.GotRouter
        { From := 0, foundRCs := [], closerTarget := none, nearKeys := [1, 2, 3, 5], txid := 9,
          relayed := false }]) ∧
    ¬ List.Sorted (fun a b => distance a 7 ≤ distance b 7) [1, 2, 3, 5] ∧
    distance 1 7 = 6 ∧ distance 2 7 = 5 := by
  decide

/-- C8, amended: the router ids in the `GotRouter` reply of a successful
`HandleExploritoryRouterLookup` appear in strictly ascending key order, the
iteration order of the `std::set<Key_t>` they are collected in; for a
(duplicate-free) bucket of 6 nodes that include the requester and the local key,
the other four passing the reputation filter, the reply holds exactly 4 ids. -/
theorem handle_exploratory_router_lookup_key_order (self : DHTMessageHandler)
    (requester : Key_t) (txid : Nat) (target : RouterID) (reply out : List AbstractDHTMessage)
    (h : self.HandleExploritoryRouterLookup requester txid target reply = (true, out)) :
    ∃ (nodes : Bucket RCNode) (closer : List RouterID),
      self.nodes = some nodes ∧
      out = reply ++ [AbstractDHTMessage.GotRouter
        { From := 0, foundRCs := [], closerTarget := none, nearKeys := closer, txid := txid,
          relayed := false }] ∧
      closer.Sorted (fun a b => a < b) ∧
      (nodes.size = 6 → (nodes.nodes.map Prod.fst).Nodup →
        requester ∈ nodes.nodes.map Prod.fst → self.ourKey ∈ nodes.nodes.map Prod.fst →
        requester ≠ self.ourKey →
        (∀ k ∈ nodes.nodes.map Prod.fst, k ≠ requester → k ≠ self.ourKey →
          self.router.IsBadForConnect k = false) →
        closer.length = 4) := by
  obtain ⟨nodes, hn, _, _, hout⟩ := HandleExploritoryRouterLookup_success h
  refine ⟨nodes, _, hn, hout, ?_, ?_⟩
  · exact (sorted_GetManyNearExcluding _ _ _ _).filter _
  · intro h6 hnd hr hs hrs hgood
    have hlen := length_filter_ne_ne hnd hr hs hrs
    have hsz : (nodes.nodes.map Prod.fst).length = 6 := by
      rw [List.length_map]; exact h6
    exact exploratory_closer_length_four nodes self.ourKey requester target _ hnd
      (by omega) hgood

/-- Witness for C8 amended: the reply 1, 2, 3, 5 of the six-node bucket. -/
theorem handle_exploratory_router_lookup_key_order_witness :
    (exampleHandler [] [1, 2, 3, 5, 100, 50]).HandleExploritoryRouterLookup 50 9 7 [] =
      (true, [AbstractDHTMessage.GotRouter (GotRouterMessage.ofNear 9 [1, 2, 3, 5] false)]) ∧
    ∃ (nodes : Bucket RCNode) (closer : List RouterID),
      (exampleHandler [] [1, 2, 3, 5, 100, 50]).nodes = some nodes ∧
      [AbstractDHTMessage.GotRouter (GotRouterMessage.ofNear 9 [1, 2, 3, 5] false)] =
        [] ++ [AbstractDHTMessage.GotRouter
          { From := 0, foundRCs := [], closerTarget := none, nearKeys := closer, txid := 9,
            relayed := false }] ∧
      closer.Sorted (fun a b => a < b) ∧
      (nodes.size = 6 → (nodes.nodes.map Prod.fst).Nodup →
        50 ∈ nodes.nodes.map Prod.fst →
        (exampleHandler [] [1, 2, 3, 5, 100, 50]).ourKey ∈ nodes.nodes.map Prod.fst →
        50 ≠ (exampleHandler [] [1, 2, 3, 5, 100, 50]).ourKey →
        (∀ k ∈ nodes.nodes.map Prod.fst, k ≠ 50 →
          k ≠ (exampleHandler [] [1, 2, 3, 5, 100, 50]).ourKey →
          (exampleHandler [] [1, 2, 3, 5, 100, 50]).router.IsBadForConnect k = false) →
        closer.length = 4) :=
  ⟨by decide,
   handle_exploratory_router_lookup_key_order (exampleHandler [] [1, 2, 3, 5, 100, 50]) 50 9 7
     [] [AbstractDHTMessage.GotRouter (GotRouterMessage.ofNear 9 [1, 2, 3, 5] false)]
     (by decide)⟩

end dht

namespace dht

/-- The erase loop keeps exactly the nodes that are not expired, in order. -/
theorem eraseExpired_eq_filter {V : Type} (expired : V → Bool) (l : List (Key_t × V)) :
    eraseExpired expired l = l.filter (fun e => !expired e.2) := by
  induction l with
  | nil => rfl
  | cons e l ih =>
    unfold eraseExpired
    by_cases h : expired e.2 = true
    · simp [h, ih]
    · simp [h, ih]

/-- C9: after one cleanup tick at the router time `now`, the RC bucket holds no
node whose RC is expired at `now` and the introset bucket holds no node whose
introset is expired at `now`; every node that is not expired at `now` is still
present with its value (the buckets are exactly the old ones restricted to the
unexpired nodes, in the same order); and each of the three pending tables is
the old one expired with that same `now`. -/
theorem handle_cleaner_timer_sweep (self : DHTMessageHandler) :
    (self.handle_cleaner_timer.nodes =
      self.nodes.map (fun b => ⟨b.nodes.filter (fun e => !e.2.rc.IsExpired self.router.now)⟩)) ∧
    (∀ b', self.handle_cleaner_timer.nodes = some b' →
      ∀ e ∈ b'.nodes, e.2.rc.IsExpired self.router.now = false) ∧
    (∀ b b', self.nodes = some b → self.handle_cleaner_timer.nodes = some b' →
      ∀ e ∈ b.nodes, e.2.rc.IsExpired self.router.now = false → e ∈ b'.nodes) ∧
    (self.handle_cleaner_timer.services =
      self.services.map
        (fun b => ⟨b.nodes.filter (fun e => !e.2.introset.IsExpired self.router.now)⟩)) ∧
    (∀ b', self.handle_cleaner_timer.services = some b' →
      ∀ e ∈ b'.nodes, e.2.introset.IsExpired self.router.now = false) ∧
    (∀ b b', self.services = some b → self.handle_cleaner_timer.services = some b' →
      ∀ e ∈ b.nodes, e.2.introset.IsExpired self.router.now = false → e ∈ b'.nodes) ∧
    self.handle_cleaner_timer.pendingRouterLookups =
      self.pendingRouterLookups.Expire self.router.now ∧
    self.handle_cleaner_timer.pendingIntrosetLookups =
      self.pendingIntrosetLookups.Expire self.router.now ∧
    self.handle_cleaner_timer.pendingExploreLookups =
      self.pendingExploreLookups.Expire self.router.now := by
  have hnodes : self.handle_cleaner_timer.nodes =
      self.nodes.map
        (fun b => ⟨b.nodes.filter (fun e => !e.2.rc.IsExpired self.router.now)⟩) := by
    unfold DHTMessageHandler.handle_cleaner_timer DHTMessageHandler.CleanupTX
      DHTMessageHandler.Now
    cases hn : self.nodes <;> cases hs : self.services <;>
      simp [hn, hs, eraseExpired_eq_filter]
  have hservices : self.handle_cleaner_timer.services =
      self.services.map
        (fun b => ⟨b.nodes.filter (fun e => !e.2.introset.IsExpired self.router.now)⟩) := by
    unfold DHTMessageHandler.handle_cleaner_timer DHTMessageHandler.CleanupTX
      DHTMessageHandler.Now
    cases hn : self.nodes <;> cases hs : self.services <;>
      simp [hn, hs, eraseExpired_eq_filter]
  refine ⟨hnodes, ?_, ?_, hservices, ?_, ?_, ?_, ?_, ?_⟩
  · intro b' hb' e he
    rw [hnodes] at hb'
    cases hn : self.nodes with
    | none => simp [hn] at hb'
    | some b =>
      simp only [hn, Option.map_some', Option.some.injEq] at hb'
      subst hb'
      simpa using (List.mem_filter.mp he).2
  · intro b b' hb hb' e he hlive
    rw [hnodes, hb] at hb'
    simp only [Option.map_some', Option.some.injEq] at hb'
    subst hb'
    exact List.mem_filter.mpr ⟨he, by simp [hlive]⟩
  · intro b' hb' e he
    rw [hservices] at hb'
    cases hn : self.services with
    | none => simp [hn] at hb'
    | some b =>
      simp only [hn, Option.map_some', Option.some.injEq] at hb'
      subst hb'
      simpa using (List.mem_filter.mp he).2
  · intro b b' hb hb' e he hlive
    rw [hservices, hb] at hb'
    simp only [Option.map_some', Option.some.injEq] at hb'
    subst hb'
    exact List.mem_filter.mpr ⟨he, by simp [hlive]⟩
  · unfold DHTMessageHandler.handle_cleaner_timer DHTMessageHandler.CleanupTX
      DHTMessageHandler.Now
    cases hn : self.nodes <;> cases hs : self.services <;> simp [hn, hs]
  · unfold DHTMessageHandler.handle_cleaner_timer DHTMessageHandler.CleanupTX
      DHTMessageHandler.Now
    cases hn : self.nodes <;> cases hs : self.services <;> simp [hn, hs]
  · unfold DHTMessageHandler.handle_cleaner_timer DHTMessageHandler.CleanupTX
      DHTMessageHandler.Now
    cases hn : self.nodes <;> cases hs : self.services <;> simp [hn, hs]

/-- Witness for C9: at router time 2000 the RCs expiring at 1000 and 2000 and
the introset expiring at 1500 are evicted, the RC expiring at 2001 and the
introset expiring at 9000 stay, and the transaction with deadline 1000 is
removed from the router-lookup table. -/
theorem handle_cleaner_timer_sweep_witness :
    exampleExpiryHandler.handle_cleaner_timer.nodes = some ⟨[exampleNode 3 2001]⟩ ∧
    exampleExpiryHandler.handle_cleaner_timer.services = some ⟨[(9, ⟨⟨9, 0, 0, 9000⟩, 9⟩)]⟩ ∧
    exampleExpiryHandler.handle_cleaner_timer.pendingRouterLookups.tx =
      [⟨⟨5, 2⟩, ⟨50, 9⟩, 7, 1500, 0, Job.RecursiveRouterLookup ⟨50, 9⟩ 7 none, none⟩] ∧
    exampleExpiryHandler.handle_cleaner_timer.pendingRouterLookups.timedOut = [⟨5, 1⟩] :=
  ⟨(handle_cleaner_timer_sweep exampleExpiryHandler).1.trans (by decide),
   (handle_cleaner_timer_sweep exampleExpiryHandler).2.2.2.1.trans (by decide),
   (congrArg TXHolder.tx (handle_cleaner_timer_sweep exampleExpiryHandler).2.2.2.2.2.2.1).trans
     (by decide),
   (congrArg TXHolder.timedOut
     (handle_cleaner_timer_sweep exampleExpiryHandler).2.2.2.2.2.2.1).trans (by decide)⟩

end dht

namespace path

/-! ### The `unordered_map` model -/

theorem mapCount_ne_zero_iff {K V : Type} [DecidableEq K] (m : List (K × V)) (k : K) :
    mapCount m k ≠ 0 ↔ ∃ e ∈ m, e.1 = k := by
  unfold mapCount
  by_cases h : m.any (fun e => decide (e.1 = k)) = true
  · simp only [h, if_true, ne_eq, one_ne_zero, not_false_eq_true, true_iff]
    simpa using h
  · simp only [h, if_false, ne_eq, not_true_eq_false, false_iff]
    simpa using h

theorem mapEmplace_of_present {K V : Type} [DecidableEq K] {m : List (K × V)} {k : K} (v : V)
    (h : mapCount m k ≠ 0) : mapEmplace m k v = m := by
  have hany : m.any (fun e => decide (e.1 = k)) = true := by
    simpa using (mapCount_ne_zero_iff m k).mp h
  simp [mapEmplace, hany]

theorem mapEmplace_of_absent {K V : Type} [DecidableEq K] {m : List (K × V)} {k : K} (v : V)
    (h : mapCount m k = 0) : mapEmplace m k v = m ++ [(k, v)] := by
  have hany : ¬ m.any (fun e => decide (e.1 = k)) = true := by
    intro hany
    exact (mapCount_ne_zero_iff m k).mpr (by simpa using hany) h
  simp [mapEmplace, hany]

theorem mapFind_append_of_some {K V : Type} [DecidableEq K] {m : List (K × V)} {k : K} {v : V}
    (m2 : List (K × V)) (h : mapFind m k = some v) : mapFind (m ++ m2) k = some v := by
  unfold mapFind at h ⊢
  cases hf : m.find? (fun e => decide (e.1 = k)) with
  | none => simp [hf] at h
  | some e => rw [List.find?_append, hf]; simpa [hf] using h

theorem mapFind_eq_none_of_absent {K V : Type} [DecidableEq K] {m : List (K × V)} {k : K}
    (h : mapCount m k = 0) : mapFind m k = none := by
  unfold mapFind
  rw [Option.map_eq_none', List.find?_eq_none]
  intro e he heq
  exact (mapCount_ne_zero_iff m k).mpr ⟨e, he, by simpa using heq⟩ h

theorem mapFind_emplace_of_some {K V : Type} [DecidableEq K] {m : List (K × V)} {k : K} {v : V}
    (k2 : K) (v2 : V) (h : mapFind m k = some v) : mapFind (mapEmplace m k2 v2) k = some v := by
  unfold mapEmplace
  split
  · exact h
  · exact mapFind_append_of_some _ h

theorem mapFind_emplace_self {K V : Type} [DecidableEq K] {m : List (K × V)} {k : K} (v : V)
    (h : mapCount m k = 0) : mapFind (mapEmplace m k v) k = some v := by
  rw [mapEmplace_of_absent v h]
  have hnone := mapFind_eq_none_of_absent h
  unfold mapFind at hnone ⊢
  rw [Option.map_eq_none'] at hnone
  rw [List.find?_append, hnone]
  simp

theorem mapFind_emplace_of_ne {K V : Type} [DecidableEq K] (m : List (K × V)) {k k2 : K}
    (v2 : V) (h : k ≠ k2) : mapFind (mapEmplace m k2 v2) k = mapFind m k := by
  unfold mapEmplace
  split
  · rfl
  · unfold mapFind
    rw [List.find?_append]
    cases hf : m.find? (fun e => decide (e.1 = k)) with
    | none => simp [Ne.symm h]
    | some e => simp

theorem mapCount_eq_zero_of_find_none {K V : Type} [DecidableEq K] {m : List (K × V)} {k : K}
    (h : mapFind m k = none) : mapCount m k = 0 := by
  by_contra hne
  obtain ⟨e, he, heq⟩ := (mapCount_ne_zero_iff m k).mp hne
  unfold mapFind at h
  rw [Option.map_eq_none', List.find?_eq_none] at h
  exact h e he (by simpa using heq)

theorem length_mapEmplace_ge {K V : Type} [DecidableEq K] (m : List (K × V)) (k : K) (v : V) :
    m.length ≤ (mapEmplace m k v).length := by
  unfold mapEmplace
  split <;> simp

/-- C10, as stated, fails: the context already holds `exampleHopA` under
`(1, 10)` and `(2, 20)`; `exampleHopB` collides on `(downstream 1, rx id 10)`,
yet `put_transit_hop` changes the map, adding `exampleHopB` under its other
key `(3, 30)`. -/
theorem put_transit_hop_collision_counterexample :
    exampleContext.transit_hops = [((1, 10), exampleHopA), ((2, 20), exampleHopA)] ∧
    exampleContext.has_transit_hop exampleHopB.info = true ∧
    (exampleContext.put_transit_hop exampleHopB).transit_hops ≠ exampleContext.transit_hops ∧
    (exampleContext.put_transit_hop exampleHopB).transit_hops =
      [((1, 10), exampleHopA), ((2, 20), exampleHopA), ((3, 30), exampleHopB)] := by
  decide

/-- C10, amended: `put_transit_hop` makes no collision check and never
overwrites. Every key already in `transit_hops` keeps its hop; each of the keys
`(hop.downstream, hop.rx_id)` and `(hop.upstream, hop.tx_id)` that is not yet a
key is added with value `hop`; no other key changes; and the map is left
unchanged exactly when both keys are already present. -/
theorem put_transit_hop_emplace (self : PathContext) (hop : TransitHop) :
    (∀ k v, mapFind self.transit_hops k = some v →
      mapFind (self.put_transit_hop hop).transit_hops k = some v) ∧
    (mapCount self.transit_hops (hop.info.downstream, hop.info.rxID) = 0 →
      mapFind (self.put_transit_hop hop).transit_hops (hop.info.downstream, hop.info.rxID)
        = some hop) ∧
    (mapCount self.transit_hops (hop.info.upstream, hop.info.txID) = 0 →
      mapFind (self.put_transit_hop hop).transit_hops (hop.info.upstream, hop.info.txID)
        = some hop) ∧
    (∀ k, k ≠ (hop.info.downstream, hop.info.rxID) → k ≠ (hop.info.upstream, hop.info.txID) →
      mapFind (self.put_transit_hop hop).transit_hops k = mapFind self.transit_hops k) ∧
    ((self.put_transit_hop hop).transit_hops = self.transit_hops ↔
      (mapCount self.transit_hops (hop.info.downstream, hop.info.rxID) ≠ 0 ∧
       mapCount self.transit_hops (hop.info.upstream, hop.info.txID) ≠ 0)) := by
  unfold PathContext.put_transit_hop
  simp only
  refine ⟨?_, ?_, ?_, ?_, ?_⟩
  · intro k v h
    exact mapFind_emplace_of_some _ _ (mapFind_emplace_of_some _ _ h)
  · intro h
    exact mapFind_emplace_of_some _ _ (mapFind_emplace_self hop h)
  · intro h
    by_cases heq : (hop.info.upstream, hop.info.txID) = (hop.info.downstream, hop.info.rxID)
    · rw [heq] at h ⊢
      exact mapFind_emplace_of_some _ _ (mapFind_emplace_self hop h)
    · apply mapFind_emplace_self
      apply mapCount_eq_zero_of_find_none
      rw [mapFind_emplace_of_ne _ _ heq]
      exact mapFind_eq_none_of_absent h
  · intro k h1 h2
    rw [mapFind_emplace_of_ne _ _ h2, mapFind_emplace_of_ne _ _ h1]
  · constructor
    · intro heq
      have hdown : mapCount self.transit_hops (hop.info.downstream, hop.info.rxID) ≠ 0 := by
        intro habs
        have hlen := congrArg List.length heq
        have hge := length_mapEmplace_ge
          (mapEmplace self.transit_hops (hop.info.downstream, hop.info.rxID) hop)
          (hop.info.upstream, hop.info.txID) hop
        rw [mapEmplace_of_absent hop habs] at hge hlen
        simp at hge
        omega
      refine ⟨hdown, ?_⟩
      intro habs
      rw [mapEmplace_of_present hop hdown, mapEmplace_of_absent hop habs] at heq
      have hlen := congrArg List.length heq
      simp at hlen
    · rintro ⟨hdown, hup⟩
      rw [mapEmplace_of_present hop hdown, mapEmplace_of_present hop hup]

/-- Witness for C10 amended: registering `exampleHopB` keeps `exampleHopA`
under `(1, 10)` and adds `exampleHopB` under the free key `(3, 30)`. -/
theorem put_transit_hop_emplace_witness :
    mapFind (exampleContext.put_transit_hop exampleHopB).transit_hops (1, 10)
      = some exampleHopA ∧
    mapFind (exampleContext.put_transit_hop exampleHopB).transit_hops (3, 30)
      = some exampleHopB :=
  ⟨(put_transit_hop_emplace exampleContext exampleHopB).1 (1, 10) exampleHopA (by decide),
   (put_transit_hop_emplace exampleContext exampleHopB).2.2.1 (by decide)⟩

end path

namespace path

/-! ### Maps in which every value is filed under two keys -/

theorem eraseExpiredEntries_eq_filter {K V : Type} (expired : V → Bool) (l : List (K × V)) :
    eraseExpiredEntries expired l = l.filter (fun e => !expired e.2) := by
  induction l with
  | nil => rfl
  | cons e l ih =>
    unfold eraseExpiredEntries
    by_cases h : expired e.2 = true
    · simp [h, ih]
    · simp [h, ih]

theorem dualEntries_append {K V : Type} (k1 k2 : V → K) (vs ws : List V) :
    dualEntries k1 k2 (vs ++ ws) = dualEntries k1 k2 vs ++ dualEntries k1 k2 ws := by
  induction vs with
  | nil => rfl
  | cons v vs ih => simp [dualEntries, ih]

theorem filter_dualEntries {K V : Type} (k1 k2 : V → K) (p : V → Bool) (vs : List V) :
    (dualEntries k1 k2 vs).filter (fun e => p e.2) = dualEntries k1 k2 (vs.filter p) := by
  induction vs with
  | nil => rfl
  | cons v vs ih =>
    by_cases h : p v = true
    · simp [dualEntries, List.filter_cons, h, ih]
    · simp [dualEntries, List.filter_cons, h, ih]

theorem mem_dualEntries {K V : Type} (k1 k2 : V → K) (vs : List V) (e : K × V) :
    e ∈ dualEntries k1 k2 vs ↔ e.2 ∈ vs ∧ (e.1 = k1 e.2 ∨ e.1 = k2 e.2) := by
  induction vs with
  | nil => simp [dualEntries]
  | cons v vs ih =>
    obtain ⟨k, w⟩ := e
    simp only [dualEntries, List.mem_cons, ih, Prod.mk.injEq]
    constructor
    · rintro (⟨rfl, rfl⟩ | ⟨rfl, rfl⟩ | ⟨h1, h2⟩)
      · exact ⟨Or.inl rfl, Or.inl rfl⟩
      · exact ⟨Or.inl rfl, Or.inr rfl⟩
      · exact ⟨Or.inr h1, h2⟩
    · rintro ⟨rfl | h1, h2⟩
      · rcases h2 with h2 | h2
        · exact Or.inl ⟨h2, rfl⟩
        · exact Or.inr (Or.inl ⟨h2, rfl⟩)
      · exact Or.inr (Or.inr ⟨h1, h2⟩)

theorem length_dualEntries {K V : Type} (k1 k2 : V → K) (vs : List V) :
    (dualEntries k1 k2 vs).length = 2 * vs.length := by
  induction vs with
  | nil => rfl
  | cons v vs ih => simp [dualEntries, ih]; omega

theorem mem_keys_dualEntries {K V : Type} (k1 k2 : V → K) {vs : List V} {v : V} (hv : v ∈ vs) :
    k1 v ∈ (dualEntries k1 k2 vs).map Prod.fst ∧ k2 v ∈ (dualEntries k1 k2 vs).map Prod.fst := by
  constructor
  · exact List.mem_map.mpr ⟨(k1 v, v), (mem_dualEntries k1 k2 vs _).mpr ⟨hv, Or.inl rfl⟩, rfl⟩
  · exact List.mem_map.mpr ⟨(k2 v, v), (mem_dualEntries k1 k2 vs _).mpr ⟨hv, Or.inr rfl⟩, rfl⟩

theorem nodup_of_keys_nodup {K V : Type} (k1 k2 : V → K) (vs : List V)
    (hnd : ((dualEntries k1 k2 vs).map Prod.fst).Nodup) :
    vs.Nodup ∧ ∀ v ∈ vs, k1 v ≠ k2 v := by
  induction vs with
  | nil => simp
  | cons v vs ih =>
    simp only [dualEntries, List.map_cons, List.nodup_cons, List.mem_cons, not_or] at hnd
    obtain ⟨⟨hne, h1⟩, _, hrest⟩ := hnd
    obtain ⟨hnd', hne'⟩ := ih hrest
    refine ⟨List.nodup_cons.mpr ⟨fun hv => h1 (mem_keys_dualEntries k1 k2 hv).1, hnd'⟩, ?_⟩
    intro w hw
    rcases List.mem_cons.mp hw with rfl | hw
    · exact hne
    · exact hne' w hw

theorem count_value_dualEntries {K V : Type} [DecidableEq V] (k1 k2 : V → K) (vs : List V)
    (v : V) :
    ((dualEntries k1 k2 vs).filter (fun e => decide (e.2 = v))).length = 2 * vs.count v := by
  induction vs with
  | nil => rfl
  | cons w vs ih =>
    by_cases h : w = v
    · subst h
      simp [dualEntries, List.filter_cons, ih]
      omega
    · simp [dualEntries, List.filter_cons, h, ih, List.count_cons_of_ne (Ne.symm h)]

theorem values_dedup_length {K V : Type} [DecidableEq V] (k1 k2 : V → K) (vs : List V)
    (hnd : vs.Nodup) : ((dualEntries k1 k2 vs).map Prod.snd).dedup.length = vs.length := by
  have hset : ((dualEntries k1 k2 vs).map Prod.snd).toFinset = vs.toFinset := by
    induction vs with
    | nil => rfl
    | cons v vs ih =>
      have hnd' := (List.nodup_cons.mp hnd).2
      simp [dualEntries, ih hnd']
  rw [← List.card_toFinset, hset, List.toFinset_card_of_nodup hnd]

/-- In a map that files every value of `vs` twice and has no repeated key, a
value that occurs is the value of exactly two entries, one under each of its
keys, and the two keys differ. -/
theorem dual_registration {K V : Type} [DecidableEq V] (k1 k2 : V → K) (vs : List V)
    (hnd : ((dualEntries k1 k2 vs).map Prod.fst).Nodup) (v : V)
    (hv : v ∈ (dualEntries k1 k2 vs).map Prod.snd) :
    ((dualEntries k1 k2 vs).filter (fun e => decide (e.2 = v))).length = 2 ∧
    (k1 v, v) ∈ dualEntries k1 k2 vs ∧ (k2 v, v) ∈ dualEntries k1 k2 vs ∧ k1 v ≠ k2 v := by
  obtain ⟨e, he, rfl⟩ := List.mem_map.mp hv
  have hmem : e.2 ∈ vs := ((mem_dualEntries k1 k2 vs e).mp he).1
  obtain ⟨hvs, hne⟩ := nodup_of_keys_nodup k1 k2 vs hnd
  refine ⟨?_, ?_, ?_, hne _ hmem⟩
  · rw [count_value_dualEntries, List.count_eq_one_of_mem hvs hmem]
  · exact (mem_dualEntries k1 k2 vs _).mpr ⟨hmem, Or.inl rfl⟩
  · exact (mem_dualEntries k1 k2 vs _).mpr ⟨hmem, Or.inr rfl⟩

theorem mapCount_eq_zero_iff {K V : Type} [DecidableEq K] (m : List (K × V)) (k : K) :
    mapCount m k = 0 ↔ k ∉ m.map Prod.fst := by
  rw [← not_iff_not, not_not]
  rw [← ne_eq, mapCount_ne_zero_iff]
  simp

theorem mapAssign_of_absent {K V : Type} [DecidableEq K] {m : List (K × V)} {k : K} (v : V)
    (h : mapCount m k = 0) : mapAssign m k v = m ++ [(k, v)] := by
  have hany : ¬ m.any (fun e => decide (e.1 = k)) = true := by
    intro hany
    exact (mapCount_ne_zero_iff m k).mpr (by simpa using hany) h
  simp [mapAssign, hany]

theorem mapCount_append_singleton {K V : Type} [DecidableEq K] {m : List (K × V)} {k k2 : K}
    (v : V) (h : mapCount m k = 0) (hne : k2 ≠ k) : mapCount (m ++ [(k2, v)]) k = 0 := by
  rw [mapCount_eq_zero_iff] at h ⊢
  simp only [List.map_append, List.map_cons, List.map_nil, List.mem_append, List.mem_singleton,
    not_or]
  exact ⟨h, Ne.symm hne⟩

theorem keys_nodup_append_pair {K V : Type} [DecidableEq K] {m : List (K × V)} {k1 k2 : K}
    (v : V) (hnd : (m.map Prod.fst).Nodup) (h1 : mapCount m k1 = 0) (h2 : mapCount m k2 = 0)
    (hne : k1 ≠ k2) : ((m ++ [(k1, v), (k2, v)]).map Prod.fst).Nodup := by
  rw [mapCount_eq_zero_iff] at h1 h2
  rw [List.map_append, List.nodup_append]
  refine ⟨hnd, by simp [hne], ?_⟩
  intro a ha hb
  simp only [List.map_cons, List.map_nil, List.mem_cons, List.mem_singleton, List.not_mem_nil,
    or_false] at hb
  rcases hb with rfl | rfl
  · exact h1 ha
  · exact h2 ha

theorem keys_nodup_filter {K V : Type} {m : List (K × V)} (p : K × V → Bool)
    (hnd : (m.map Prod.fst).Nodup) : ((m.filter p).map Prod.fst).Nodup :=
  hnd.sublist ((List.filter_sublist m).map Prod.fst)

end path

namespace path

theorem has_transit_hop_eq_false {self : PathContext} {info : TransitHopInfo}
    (h : self.has_transit_hop info = false) :
    mapCount self.transit_hops (info.downstream, info.rxID) = 0 ∧
    mapCount self.transit_hops (info.upstream, info.txID) = 0 := by
  unfold PathContext.has_transit_hop at h
  by_cases h1 : mapCount self.transit_hops (info.downstream, info.rxID) = 0
  · by_cases h2 : mapCount self.transit_hops (info.upstream, info.txID) = 0
    · exact ⟨h1, h2⟩
    · simp [h1, h2] at h
  · simp [h1] at h

/-- A hop that passes the caller's check is appended under both of its keys. -/
theorem put_transit_hop_of_fresh {self : PathContext} {hop : TransitHop}
    (hfree : self.has_transit_hop hop.info = false)
    (hne : hop.downstreamKey ≠ hop.upstreamKey) :
    (self.put_transit_hop hop).transit_hops =
      self.transit_hops ++ [(hop.downstreamKey, hop), (hop.upstreamKey, hop)] := by
  obtain ⟨h1, h2⟩ := has_transit_hop_eq_false hfree
  unfold PathContext.put_transit_hop
  simp only
  have h3 : mapCount (self.transit_hops ++ [((hop.info.downstream, hop.info.rxID), hop)])
      (hop.info.upstream, hop.info.txID) = 0 := mapCount_append_singleton hop h2 hne
  rw [mapEmplace_of_absent hop h1, mapEmplace_of_absent hop h3]
  simp [TransitHop.downstreamKey, TransitHop.upstreamKey]

/-- Every state reached with checked hops files each hop exactly under its two
keys and has no repeated key. -/
theorem transit_reachable_dual {ctx : PathContext} (hreach : TransitReachable ctx) :
    ∃ hs : List TransitHop,
      ctx.transit_hops = dualEntries TransitHop.downstreamKey TransitHop.upstreamKey hs ∧
      (ctx.transit_hops.map Prod.fst).Nodup := by
  induction hreach with
  | construct => exact ⟨[], rfl, by simp [PathContext.construct]⟩
  | put ctx hop _ hfree hne ih =>
    obtain ⟨hs, heq, hnd⟩ := ih
    obtain ⟨h1, h2⟩ := has_transit_hop_eq_false hfree
    refine ⟨hs ++ [hop], ?_, ?_⟩
    · rw [put_transit_hop_of_fresh hfree hne, dualEntries_append, heq]
      rfl
    · rw [put_transit_hop_of_fresh hfree hne]
      exact keys_nodup_append_pair hop hnd h1 h2 hne
  | expire ctx now _ ih =>
    obtain ⟨hs, heq, hnd⟩ := ih
    refine ⟨hs.filter (fun hop => !hop.is_expired now), ?_, ?_⟩
    · show eraseExpiredEntries _ ctx.transit_hops = _
      rw [eraseExpiredEntries_eq_filter, heq]
      exact filter_dualEntries _ _ (fun hop => !hop.is_expired now) hs
    · show ((eraseExpiredEntries _ ctx.transit_hops).map Prod.fst).Nodup
      rw [eraseExpiredEntries_eq_filter]
      exact keys_nodup_filter _ hnd

/-- C11, as stated, fails: registering `exampleHopA` and then `exampleHopB`,
which collides with it on `(downstream 1, rx id 10)`, reaches a state in which
`exampleHopB` is the value of one entry only; the map has 3 entries, so
`CurrentTransitPaths` is 1 while 2 distinct hops are registered. -/
theorem transit_hops_dual_registration_counterexample :
    ((PathContext.construct.put_transit_hop exampleHopA).put_transit_hop
        exampleHopB).transit_hops =
      [((1, 10), exampleHopA), ((2, 20), exampleHopA), ((3, 30), exampleHopB)] ∧
    (((PathContext.construct.put_transit_hop exampleHopA).put_transit_hop
        exampleHopB).transit_hops.filter (fun e => decide (e.2 = exampleHopB))).length = 1 ∧
    ((PathContext.construct.put_transit_hop exampleHopA).put_transit_hop
        exampleHopB).CurrentTransitPaths = 1 ∧
    (((PathContext.construct.put_transit_hop exampleHopA).put_transit_hop
        exampleHopB).transit_hops.map Prod.snd).dedup.length = 2 := by
  decide

/-- C11, amended: in every state reached from the constructed context by
`ExpirePaths` and by `put_transit_hop` of hops that pass the caller's check
(`has_transit_hop` is false and the hop's two keys differ), each hop that occurs
as a value in `transit_hops` is the value of exactly 2 entries, one keyed
`(downstream, rx id)` and one keyed `(upstream, tx id)`, and
`CurrentTransitPaths() = |transit_hops| / 2` is the number of distinct hops
registered. -/
theorem transit_hops_dual_registration (ctx : PathContext) (hreach : TransitReachable ctx) :
    (∀ h : TransitHop, h ∈ ctx.transit_hops.map Prod.snd →
      (ctx.transit_hops.filter (fun e => decide (e.2 = h))).length = 2 ∧
      ((h.info.downstream, h.info.rxID), h) ∈ ctx.transit_hops ∧
      ((h.info.upstream, h.info.txID), h) ∈ ctx.transit_hops ∧
      (h.info.downstream, h.info.rxID) ≠ (h.info.upstream, h.info.txID)) ∧
    ctx.CurrentTransitPaths = (ctx.transit_hops.map Prod.snd).dedup.length := by
  obtain ⟨hs, heq, hnd⟩ := transit_reachable_dual hreach
  constructor
  · intro h hh
    rw [heq] at hh hnd ⊢
    exact dual_registration TransitHop.downstreamKey TransitHop.upstreamKey hs hnd h hh
  · unfold PathContext.CurrentTransitPaths
    rw [heq] at hnd ⊢
    rw [values_dedup_length _ _ hs (nodup_of_keys_nodup _ _ hs hnd).1, length_dualEntries]
    omega

/-- Witness for C11 amended: `exampleHopA` registered in the constructed
context, where the check passes. -/
theorem transit_hops_dual_registration_witness :
    TransitReachable (PathContext.construct.put_transit_hop exampleHopA) ∧
    ((PathContext.construct.put_transit_hop exampleHopA).transit_hops.filter
      (fun e => decide (e.2 = exampleHopA))).length = 2 ∧
    (PathContext.construct.put_transit_hop exampleHopA).CurrentTransitPaths =
      ((PathContext.construct.put_transit_hop exampleHopA).transit_hops.map
        Prod.snd).dedup.length :=
  ⟨TransitReachable.put _ _ TransitReachable.construct (by decide) (by decide),
   ((transit_hops_dual_registration (PathContext.construct.put_transit_hop exampleHopA)
      (TransitReachable.put _ _ TransitReachable.construct (by decide) (by decide))).1
      exampleHopA (by decide)).1,
   (transit_hops_dual_registration (PathContext.construct.put_transit_hop exampleHopA)
      (TransitReachable.put _ _ TransitReachable.construct (by decide) (by decide))).2⟩

end path

namespace path

/-- A path with fresh ids is appended under its TX id and under its RX id. -/
theorem AddOwnPath_of_fresh {self : PathContext} (set : PathHandler) {path : Path}
    (hne : path.RXID ≠ path.TXID) (htx : mapCount self.own_paths path.TXID = 0)
    (hrx : mapCount self.own_paths path.RXID = 0) :
    (self.AddOwnPath set path).2.own_paths =
      self.own_paths ++ [(path.TXID, path), (path.RXID, path)] := by
  have h3 : mapCount (self.own_paths ++ [(path.TXID, path)]) path.RXID = 0 :=
    mapCount_append_singleton path hrx (Ne.symm hne)
  unfold PathContext.AddOwnPath
  simp only
  rw [mapAssign_of_absent path htx, mapAssign_of_absent path h3]
  simp

/-- Every state reached with fresh path ids files each path exactly under its
TX id and its RX id and has no repeated key. -/
theorem own_reachable_dual {ctx : PathContext} (hreach : OwnReachable ctx) :
    ∃ ps : List Path,
      ctx.own_paths = dualEntries Path.TXID Path.RXID ps ∧
      (ctx.own_paths.map Prod.fst).Nodup := by
  induction hreach with
  | construct => exact ⟨[], rfl, by simp [PathContext.construct]⟩
  | add ctx set path _ hne htx hrx ih =>
    obtain ⟨ps, heq, hnd⟩ := ih
    refine ⟨ps ++ [path], ?_, ?_⟩
    · rw [AddOwnPath_of_fresh set hne htx hrx, dualEntries_append, heq]
      rfl
    · rw [AddOwnPath_of_fresh set hne htx hrx]
      exact keys_nodup_append_pair path hnd htx hrx (Ne.symm hne)
  | expire ctx now _ ih =>
    obtain ⟨ps, heq, hnd⟩ := ih
    refine ⟨ps.filter (fun path => !path.is_expired now), ?_, ?_⟩
    · show eraseExpiredEntries _ ctx.own_paths = _
      rw [eraseExpiredEntries_eq_filter, heq]
      exact filter_dualEntries _ _ (fun path => !path.is_expired now) ps
    · show ((eraseExpiredEntries _ ctx.own_paths).map Prod.fst).Nodup
      rw [eraseExpiredEntries_eq_filter]
      exact keys_nodup_filter _ hnd

/-- C12, as stated, fails: after adding a path with first-hop RX id 1 and TX
id 2 and then a path with first-hop RX id 7 and TX id 1, the assignment under
key 1 has replaced the first path there, so the first path is still in
`own_paths` but is the value of one entry only. -/
theorem own_paths_dual_registration_counterexample :
    (((PathContext.construct.AddOwnPath exampleSet (examplePath 11 1 2 13 true)).2.AddOwnPath
        exampleSet (examplePath 21 7 1 23 true)).2.own_paths) =
      [(2, examplePath 11 1 2 13 true), (1, examplePath 21 7 1 23 true),
       (7, examplePath 21 7 1 23 true)] ∧
    (((PathContext.construct.AddOwnPath exampleSet (examplePath 11 1 2 13 true)).2.AddOwnPath
        exampleSet (examplePath 21 7 1 23 true)).2.own_paths.filter
      (fun e => decide (e.2 = examplePath 11 1 2 13 true))).length = 1 := by
  decide

/-- C12, amended: in every state reached from the constructed context by
`ExpirePaths` and by `AddOwnPath` of paths whose first-hop RX and TX ids differ
and are not yet keys of `own_paths`, each path is either absent from
`own_paths` or the value of exactly two entries, one keyed by its first-hop RX
id and one keyed by its first-hop TX id. -/
theorem own_paths_dual_registration (ctx : PathContext) (hreach : OwnReachable ctx)
    (p : Path) :
    p ∉ ctx.own_paths.map Prod.snd ∨
    ((ctx.own_paths.filter (fun e => decide (e.2 = p))).length = 2 ∧
      (p.RXID, p) ∈ ctx.own_paths ∧ (p.TXID, p) ∈ ctx.own_paths ∧ p.RXID ≠ p.TXID) := by
  obtain ⟨ps, heq, hnd⟩ := own_reachable_dual hreach
  by_cases hp : p ∈ ctx.own_paths.map Prod.snd
  · right
    rw [heq] at hp hnd ⊢
    obtain ⟨h1, h2, h3, h4⟩ := dual_registration Path.TXID Path.RXID ps hnd p hp
    exact ⟨h1, h3, h2, Ne.symm h4⟩
  · exact Or.inl hp

/-- Witness for C12 amended: one path with first-hop RX id 1 and TX id 2 added
to the constructed context. -/
theorem own_paths_dual_registration_witness :
    OwnReachable (PathContext.construct.AddOwnPath exampleSet (examplePath 11 1 2 13 true)).2 ∧
    (examplePath 11 1 2 13 true ∉
        (PathContext.construct.AddOwnPath exampleSet
          (examplePath 11 1 2 13 true)).2.own_paths.map Prod.snd ∨
      (((PathContext.construct.AddOwnPath exampleSet
          (examplePath 11 1 2 13 true)).2.own_paths.filter
          (fun e => decide (e.2 = examplePath 11 1 2 13 true))).length = 2 ∧
        ((examplePath 11 1 2 13 true).RXID, examplePath 11 1 2 13 true) ∈
          (PathContext.construct.AddOwnPath exampleSet
            (examplePath 11 1 2 13 true)).2.own_paths ∧
        ((examplePath 11 1 2 13 true).TXID, examplePath 11 1 2 13 true) ∈
          (PathContext.construct.AddOwnPath exampleSet
            (examplePath 11 1 2 13 true)).2.own_paths ∧
        (examplePath 11 1 2 13 true).RXID ≠ (examplePath 11 1 2 13 true).TXID)) :=
  ⟨OwnReachable.add _ _ _ OwnReachable.construct (by decide) (by decide) (by decide),
   own_paths_dual_registration _
     (OwnReachable.add _ exampleSet (examplePath 11 1 2 13 true) OwnReachable.construct
       (by decide) (by decide) (by decide)) (examplePath 11 1 2 13 true)⟩

end path

namespace path

/-- The scan keeps, in map order, the paths of the entries that are not filed
under the path's TX id, whose pivot is `r` and which are ready. -/
theorem findOwnedScan_eq_filter (time_now_ms : llarp_time_t) (r : RouterID)
    (l : List (HopID × Path)) :
    findOwnedScan time_now_ms r l =
      (l.filter (fun e => !decide (e.2.TXID = e.1) &&
        (decide (e.2.pivot_router_id = r) && e.2.is_ready time_now_ms))).map Prod.snd := by
  induction l with
  | nil => rfl
  | cons e l ih =>
    obtain ⟨pathid, path⟩ := e
    unfold findOwnedScan
    by_cases h1 : path.TXID = pathid
    · simp [h1, ih]
    · by_cases h2 : (decide (path.pivot_router_id = r) && path.is_ready time_now_ms) = true
      · simp only [h1, if_false, h2, if_true, List.filter_cons, decide_False, Bool.not_false,
          Bool.true_and, List.map_cons, ih]
      · simp only [h1, if_false, h2, List.filter_cons, decide_False, Bool.not_false,
          Bool.true_and, ih]
        simp

theorem mem_findOwnedScan {time_now_ms : llarp_time_t} {r : RouterID}
    {l : List (HopID × Path)} {p : Path} :
    p ∈ findOwnedScan time_now_ms r l ↔
      ∃ k, (k, p) ∈ l ∧ p.TXID ≠ k ∧ p.pivot_router_id = r ∧ p.is_ready time_now_ms = true := by
  rw [findOwnedScan_eq_filter, List.mem_map]
  constructor
  · rintro ⟨⟨k, q⟩, he, rfl⟩
    rw [List.mem_filter] at he
    obtain ⟨hmem, hc⟩ := he
    simp only [Bool.and_eq_true, Bool.not_eq_true', decide_eq_false_iff_not,
      decide_eq_true_eq] at hc
    exact ⟨k, hmem, hc.1, hc.2.1, hc.2.2⟩
  · rintro ⟨k, hmem, h1, h2, h3⟩
    refine ⟨(k, p), List.mem_filter.mpr ⟨hmem, ?_⟩, rfl⟩
    simp [h1, h2, h3]

theorem mem_mapAssign_self {K V : Type} [DecidableEq K] (m : List (K × V)) (k : K) (v : V) :
    (k, v) ∈ mapAssign m k v := by
  unfold mapAssign
  split
  · rename_i hany
    obtain ⟨e, he, hk⟩ := List.any_eq_true.mp hany
    exact List.mem_map.mpr ⟨e, he, by simp [of_decide_eq_true hk]⟩
  · simp

/-- C13, as stated, fails: a ready path whose first hop has the same RX and TX
id (9) is filed under that single key, which is its TX id, so the scan skips it
and the lookup by its pivot 13 finds nothing. -/
theorem find_owned_after_add_counterexample :
    (examplePath 11 9 9 13 true).is_ready 0 = true ∧
    (examplePath 11 9 9 13 true).pivot_router_id = 13 ∧
    (PathContext.construct.AddOwnPath exampleSet (examplePath 11 9 9 13 true)).2.own_paths =
      [(9, examplePath 11 9 9 13 true)] ∧
    ((PathContext.construct.AddOwnPath exampleSet
        (examplePath 11 9 9 13 true)).2.FindOwnedPathsWithEndpoint 0 13).1 = [] := by
  decide

/-- C13, amended: for every state of the path context and every path `p` that
is ready and whose first-hop RX and TX ids differ, after `AddOwnPath(set, p)`
the result of `FindOwnedPathsWithEndpoint(pivot(p))` contains `p`. -/
theorem find_owned_after_add (ctx : PathContext) (set : PathHandler) (p : Path)
    (time_now_ms : llarp_time_t) (hready : p.is_ready time_now_ms = true)
    (hne : p.RXID ≠ p.TXID) :
    p ∈ ((ctx.AddOwnPath set p).2.FindOwnedPathsWithEndpoint time_now_ms
      p.pivot_router_id).1 := by
  unfold PathContext.FindOwnedPathsWithEndpoint PathContext.AddOwnPath
  simp only
  exact mem_findOwnedScan.mpr ⟨p.RXID, mem_mapAssign_self _ _ _, Ne.symm hne, rfl, hready⟩

/-- Witness for C13 amended: a ready path with first-hop RX id 8 and TX id 9
and pivot 13 is found after it is added to a context that already holds another
path. -/
theorem find_owned_after_add_witness :
    (examplePath 11 8 9 13 true).is_ready 0 = true ∧
    examplePath 11 8 9 13 true ∈
      (((PathContext.construct.AddOwnPath exampleSet (examplePath 21 7 1 23 true)).2.AddOwnPath
        exampleSet (examplePath 11 8 9 13 true)).2.FindOwnedPathsWithEndpoint 0
        (examplePath 11 8 9 13 true).pivot_router_id).1 :=
  ⟨by decide,
   find_owned_after_add
     (PathContext.construct.AddOwnPath exampleSet (examplePath 21 7 1 23 true)).2 exampleSet
     (examplePath 11 8 9 13 true) 0 (by decide) (by decide)⟩

/-- C14: for every router id `r`, `FindOwnedPathsWithEndpoint(r)` returns only
paths of `own_paths` that are ready and whose pivot is `r`; when `own_paths`
has no repeated key and files every path under its first-hop RX or TX id (the
dual registration), no path is returned twice; and the context is returned as
it was. -/
theorem find_owned_paths_with_endpoint_sound (ctx : PathContext)
    (time_now_ms : llarp_time_t) (r : RouterID) :
    (∀ p ∈ (ctx.FindOwnedPathsWithEndpoint time_now_ms r).1,
      p.is_ready time_now_ms = true ∧ p.pivot_router_id = r ∧
      p ∈ ctx.own_paths.map Prod.snd) ∧
    ((ctx.own_paths.map Prod.fst).Nodup →
      (∀ e ∈ ctx.own_paths, e.1 = e.2.RXID ∨ e.1 = e.2.TXID) →
      (ctx.FindOwnedPathsWithEndpoint time_now_ms r).1.Nodup) ∧
    (ctx.FindOwnedPathsWithEndpoint time_now_ms r).2 = ctx := by
  refine ⟨?_, ?_, rfl⟩
  · intro p hp
    obtain ⟨k, hmem, _, hpivot, hready⟩ := mem_findOwnedScan.mp hp
    exact ⟨hready, hpivot, List.mem_map.mpr ⟨(k, p), hmem, rfl⟩⟩
  · intro hnd hkeys
    show (findOwnedScan time_now_ms r ctx.own_paths).Nodup
    rw [findOwnedScan_eq_filter]
    refine List.Nodup.map_on ?_ ((List.Nodup.of_map Prod.fst hnd).filter _)
    intro x hx y hy hxy
    rw [List.mem_filter] at hx hy
    have hx1 : x.2.TXID ≠ x.1 := by
      have := hx.2
      simp only [Bool.and_eq_true, Bool.not_eq_true', decide_eq_false_iff_not] at this
      exact this.1
    have hy1 : y.2.TXID ≠ y.1 := by
      have := hy.2
      simp only [Bool.and_eq_true, Bool.not_eq_true', decide_eq_false_iff_not] at this
      exact this.1
    have hxk : x.1 = x.2.RXID := by
      rcases hkeys x hx.1 with h | h
      · exact h
      · exact absurd h.symm hx1
    have hyk : y.1 = y.2.RXID := by
      rcases hkeys y hy.1 with h | h
      · exact h
      · exact absurd h.symm hy1
    exact Prod.ext (by rw [hxk, hyk, hxy]) hxy

/-- Witness for C14: two ready paths with pivot 13 and one with pivot 23, each
filed twice; the lookup for 13 returns the two, once each. -/
theorem find_owned_paths_with_endpoint_sound_witness :
    ((((PathContext.construct.AddOwnPath exampleSet (examplePath 11 1 2 13 true)).2.AddOwnPath
        exampleSet (examplePath 21 3 4 23 true)).2.AddOwnPath exampleSet
        (examplePath 31 5 6 13 true)).2.FindOwnedPathsWithEndpoint 0 13).1 =
      [examplePath 11 1 2 13 true, examplePath 31 5 6 13 true] ∧
    ((((PathContext.construct.AddOwnPath exampleSet (examplePath 11 1 2 13 true)).2.AddOwnPath
        exampleSet (examplePath 21 3 4 23 true)).2.AddOwnPath exampleSet
        (examplePath 31 5 6 13 true)).2.FindOwnedPathsWithEndpoint 0 13).1.Nodup :=
  ⟨by decide,
   (find_owned_paths_with_endpoint_sound
      (((PathContext.construct.AddOwnPath exampleSet (examplePath 11 1 2 13 true)).2.AddOwnPath
        exampleSet (examplePath 21 3 4 23 true)).2.AddOwnPath exampleSet
        (examplePath 31 5 6 13 true)).2 0 13).2.1 (by decide) (by decide)⟩

end path

namespace path

/-- C15: after `ExpirePaths(now)`, `own_paths` holds no entry whose path is
expired at `now` and `transit_hops` holds no entry whose hop is expired at
`now` (every registration of an expired path or hop is gone), and every entry
whose path or hop is not expired at `now` is retained unchanged: each map is
the old one restricted to its unexpired entries, in the same order. -/
theorem expire_paths_sweep (ctx : PathContext) (now : llarp_time_t) :
    (ctx.ExpirePaths now).own_paths =
      ctx.own_paths.filter (fun e => !e.2.is_expired now) ∧
    (∀ e ∈ (ctx.ExpirePaths now).own_paths, e.2.is_expired now = false) ∧
    (∀ e ∈ ctx.own_paths, e.2.is_expired now = false → e ∈ (ctx.ExpirePaths now).own_paths) ∧
    (ctx.ExpirePaths now).transit_hops =
      ctx.transit_hops.filter (fun e => !e.2.is_expired now) ∧
    (∀ e ∈ (ctx.ExpirePaths now).transit_hops, e.2.is_expired now = false) ∧
    (∀ e ∈ ctx.transit_hops, e.2.is_expired now = false →
      e ∈ (ctx.ExpirePaths now).transit_hops) := by
  have hown : (ctx.ExpirePaths now).own_paths =
      ctx.own_paths.filter (fun e => !e.2.is_expired now) :=
    eraseExpiredEntries_eq_filter _ _
  have htransit : (ctx.ExpirePaths now).transit_hops =
      ctx.transit_hops.filter (fun e => !e.2.is_expired now) :=
    eraseExpiredEntries_eq_filter _ _
  refine ⟨hown, ?_, ?_, htransit, ?_, ?_⟩
  · intro e he
    rw [hown] at he
    simpa using (List.mem_filter.mp he).2
  · intro e he hlive
    rw [hown]
    exact List.mem_filter.mpr ⟨he, by simp [hlive]⟩
  · intro e he
    rw [htransit] at he
    simpa using (List.mem_filter.mp he).2
  · intro e he hlive
    rw [htransit]
    exact List.mem_filter.mpr ⟨he, by simp [hlive]⟩

/-- Witness for C15: a path built at 0 with first-hop lifetime 10 min and a
transit hop started at 0 with the same lifetime are both registered twice; at
`10 min + 1 s` both registrations of each are removed, at `10 min − 1 s`
everything is retained. -/
theorem expire_paths_sweep_witness :
    (((PathContext.construct.AddOwnPath exampleSet (examplePath 11 1 2 13 true)).2.put_transit_hop
        exampleHopA).ExpirePaths 601000).own_paths = [] ∧
    (((PathContext.construct.AddOwnPath exampleSet (examplePath 11 1 2 13 true)).2.put_transit_hop
        exampleHopA).ExpirePaths 601000).transit_hops = [] ∧
    (((PathContext.construct.AddOwnPath exampleSet (examplePath 11 1 2 13 true)).2.put_transit_hop
        exampleHopA).ExpirePaths 599000).own_paths =
      [(2, examplePath 11 1 2 13 true), (1, examplePath 11 1 2 13 true)] ∧
    (((PathContext.construct.AddOwnPath exampleSet (examplePath 11 1 2 13 true)).2.put_transit_hop
        exampleHopA).ExpirePaths 599000).transit_hops =
      [((1, 10), exampleHopA), ((2, 20), exampleHopA)] :=
  ⟨(expire_paths_sweep _ 601000).1.trans (by decide),
   (expire_paths_sweep _ 601000).2.2.2.1.trans (by decide),
   (expire_paths_sweep _ 599000).1.trans (by decide),
   (expire_paths_sweep _ 599000).2.2.2.1.trans (by decide)⟩

theorem wrapInt64_of_inRange (x : Int) (hlo : -2 ^ 63 ≤ x) (hhi : x < 2 ^ 63) :
    wrapInt64 x = x := by
  unfold wrapInt64
  have h0 : 0 ≤ x + 2 ^ 63 := by omega
  have h1 : x + 2 ^ 63 < 2 ^ 64 := by omega
  rw [Int.emod_eq_of_lt h0 h1]
  omega

/-- C16, as stated, fails: a path built at the largest 64-bit time with
first-hop lifetime 1 ms has its expiry time wrapped to the smallest 64-bit
value, so `ExpiresSoon(0, 0)` holds although 0 is not at or past
`buildStarted + lifetime - dlt`. -/
theorem path_expires_soon_counterexample :
    examplePathLate.buildStarted = 9223372036854775807 ∧
    examplePathLate.hops = [⟨11, 1, 2, 1⟩] ∧
    examplePathLate.ExpireTime = -9223372036854775808 ∧
    examplePathLate.ExpiresSoon 0 0 = true ∧
    ¬ ((0 : Int) ≥ 9223372036854775807 + 1 - 0) := by
  decide

/-- C16, amended: for every path with at least one hop `hop0`, every time `now`
and every guard `dlt`, `ExpireTime()` is `buildStarted + hop0.lifetime` and
`ExpiresSoon(now, dlt)` is `now >= ExpireTime() - dlt`, both computed on 64-bit
signed milliseconds; whenever `buildStarted + hop0.lifetime` and that sum minus
`dlt` lie within the signed 64-bit range, `ExpireTime()` equals the sum and
`ExpiresSoon(now, dlt)` holds iff `now >= buildStarted + hop0.lifetime - dlt`;
a path built at 0 with first-hop lifetime 10 min expires soon at `10 min − 4 s`
under the default 5 s guard; and `ExpiresSoon` is monotone in `now`. -/
theorem path_expires_soon (p : Path) (hop0 : PathHopConfig) (rest : List PathHopConfig)
    (hhops : p.hops = hop0 :: rest) (now dlt : llarp_time_t) :
    p.ExpireTime = wrapInt64 (p.buildStarted + hop0.lifetime) ∧
    (p.ExpiresSoon now dlt = true ↔
      now ≥ wrapInt64 (wrapInt64 (p.buildStarted + hop0.lifetime) - dlt)) ∧
    (-2 ^ 63 ≤ p.buildStarted + hop0.lifetime → p.buildStarted + hop0.lifetime < 2 ^ 63 →
      p.ExpireTime = p.buildStarted + hop0.lifetime ∧
      (-2 ^ 63 ≤ p.buildStarted + hop0.lifetime - dlt →
        p.buildStarted + hop0.lifetime - dlt < 2 ^ 63 →
        (p.ExpiresSoon now dlt = true ↔ now ≥ p.buildStarted + hop0.lifetime - dlt))) ∧
    (p.buildStarted = 0 → hop0.lifetime = 600000 →
      p.ExpiresSoon (600000 - 4000) ExpiresSoonDefault = true) ∧
    (∀ later : llarp_time_t, now ≤ later → p.ExpiresSoon now dlt = true →
      p.ExpiresSoon later dlt = true) := by
  have hexp : p.ExpireTime = wrapInt64 (p.buildStarted + hop0.lifetime) := by
    simp [Path.ExpireTime, Path.firstHop, hhops]
  refine ⟨hexp, ?_, ?_, ?_, ?_⟩
  · simp [Path.ExpiresSoon, hexp]
  · intro hlo hhi
    have hsum : p.ExpireTime = p.buildStarted + hop0.lifetime := by
      rw [hexp]
      exact wrapInt64_of_inRange _ hlo hhi
    refine ⟨hsum, ?_⟩
    intro hlo2 hhi2
    simp only [Path.ExpiresSoon, hsum, decide_eq_true_eq,
      wrapInt64_of_inRange _ hlo2 hhi2]
  · intro h0 hL
    have hsum : p.ExpireTime = 600000 := by
      rw [hexp, h0, hL]
      decide
    simp only [Path.ExpiresSoon, hsum, ExpiresSoonDefault, decide_eq_true_eq]
    decide
  · intro later hle hsoon
    simp only [Path.ExpiresSoon, decide_eq_true_eq, ge_iff_le] at hsoon ⊢
    exact le_trans hsoon hle

/-- Witness for C16: the example path, built at 0 with hop lifetime 10 min. -/
theorem path_expires_soon_witness :
    (examplePath 11 1 2 13 true).ExpireTime = 600000 ∧
    ((examplePath 11 1 2 13 true).ExpiresSoon 596000 5000 = true ↔
      (596000 : Int) ≥ 0 + 600000 - 5000) ∧
    (examplePath 11 1 2 13 true).ExpiresSoon 596000 ExpiresSoonDefault = true ∧
    (examplePath 11 1 2 13 true).ExpiresSoon 594999 ExpiresSoonDefault = false :=
  ⟨((path_expires_soon (examplePath 11 1 2 13 true) _ _ rfl 596000 5000).2.2.1
      (by decide) (by decide)).1,
   ((path_expires_soon (examplePath 11 1 2 13 true) _ _ rfl 596000 5000).2.2.1
      (by decide) (by decide)).2 (by decide) (by decide),
   (path_expires_soon (examplePath 11 1 2 13 true) _ _ rfl 596000 5000).2.2.2.1 rfl rfl,
   by decide⟩

end path

namespace path

theorem setPort_setPort (ip : IpAddress) (p q : Nat) : (ip.setPort p).setPort q = ip.setPort q :=
  rfl

/-- The first call for an address that is not held inserts it, port zeroed,
with the time of the call, and reports no hit. -/
theorem check_path_limit_first {ctx : PathContext} {ip : IpAddress} (t0 : llarp_time_t)
    (hfirst : ctx.path_limits.Contains (ip.setPort 0) = false) :
    ctx.check_path_limit_hit_by_ip false t0 ip =
      (false, { ctx with path_limits :=
        { ctx.path_limits with
          m_Values := ctx.path_limits.m_Values ++ [(ip.setPort 0, t0)] } }) := by
  simp [PathContext.check_path_limit_hit_by_ip, DecayingHashSet.Insert, hfirst]

/-- A call for an address that is held reports a hit. -/
theorem check_path_limit_held {ctx : PathContext} {ip : IpAddress} (t : llarp_time_t)
    (hheld : ctx.path_limits.Contains (ip.setPort 0) = true) :
    (ctx.check_path_limit_hit_by_ip false t ip).1 = true := by
  simp [PathContext.check_path_limit_hit_by_ip, DecayingHashSet.Insert, hheld]

/-- A call for an address that is not held reports no hit. -/
theorem check_path_limit_free {ctx : PathContext} {ip : IpAddress} (t : llarp_time_t)
    (hfree : ctx.path_limits.Contains (ip.setPort 0) = false) :
    (ctx.check_path_limit_hit_by_ip false t ip).1 = false := by
  simp [PathContext.check_path_limit_hit_by_ip, DecayingHashSet.Insert, hfree]

/-- C17: in a non-testnet build with the 500 ms window, the first call of
`check_path_limit_hit_by_ip` for an address that is not in the set returns
false; a further call for the same IP, with any port, returns true, also after
an `ExpirePaths(now)` that falls within the window; and once `ExpirePaths(now)`
has run with the window elapsed (`t0 + 500 ms ≤ now`) a call for that IP returns
false again. -/
theorem check_path_limit_hit_by_ip_window (ctx : PathContext) (ip : IpAddress)
    (t0 : llarp_time_t)
    (hwindow : ctx.path_limits.m_CacheInterval = DefaultPathBuildLimit)
    (hfirst : ctx.path_limits.Contains (ip.setPort 0) = false) :
    (ctx.check_path_limit_hit_by_ip false t0 ip).1 = false ∧
    (∀ (port : Nat) (t1 : llarp_time_t),
      ((ctx.check_path_limit_hit_by_ip false t0 ip).2.check_path_limit_hit_by_ip false t1
        (ip.setPort port)).1 = true) ∧
    (∀ (port : Nat) (now t1 : llarp_time_t), now < t0 + 500 →
      (((ctx.check_path_limit_hit_by_ip false t0 ip).2.ExpirePaths
        now).check_path_limit_hit_by_ip false t1 (ip.setPort port)).1 = true) ∧
    (∀ (port : Nat) (now t1 : llarp_time_t), t0 + 500 ≤ now →
      (((ctx.check_path_limit_hit_by_ip false t0 ip).2.ExpirePaths
        now).check_path_limit_hit_by_ip false t1 (ip.setPort port)).1 = false) := by
  have hnot : ∀ e ∈ ctx.path_limits.m_Values, e.1 ≠ ip.setPort 0 := by
    intro e he heq
    have : ctx.path_limits.Contains (ip.setPort 0) = true :=
      List.any_eq_true.mpr ⟨e, he, by simp [heq]⟩
    rw [hfirst] at this
    exact Bool.false_ne_true this
  rw [check_path_limit_first t0 hfirst]
  refine ⟨rfl, ?_, ?_, ?_⟩
  · intro port t1
    apply check_path_limit_held
    simp [DecayingHashSet.Contains, setPort_setPort]
  · intro port now t1 hnow
    apply check_path_limit_held
    have hkeep : ¬ (500 + t0 ≤ now) := by
      intro h
      have h2 : t0 + 500 ≤ now := by rw [add_comm]; exact h
      exact absurd hnow (not_lt.mpr h2)
    simp [PathContext.ExpirePaths, DecayingHashSet.Decay, DecayingHashSet.Contains,
      setPort_setPort, hwindow, DefaultPathBuildLimit, List.filter_append, hkeep]
  · intro port now t1 hnow
    apply check_path_limit_free
    have hdrop : (500 : llarp_time_t) + t0 ≤ now := by rw [add_comm]; exact hnow
    simp only [PathContext.ExpirePaths, DecayingHashSet.Decay, DecayingHashSet.Contains,
      setPort_setPort, hwindow, DefaultPathBuildLimit, List.filter_append]
    rw [Bool.eq_false_iff]
    intro hany
    obtain ⟨e, he, heq⟩ := List.any_eq_true.mp hany
    rcases List.mem_append.mp he with h | h
    · exact hnot e (List.mem_filter.mp h).1 (of_decide_eq_true heq)
    · simp [hdrop] at h

/-- Witness for C17: address 7 with port 1000 asks at time 0 in the constructed
context; the same IP with port 2000 is limited at time 100, also after a sweep
at 499, and is free again after a sweep at 500. -/
theorem check_path_limit_hit_by_ip_window_witness :
    (PathContext.construct.check_path_limit_hit_by_ip false 0 ⟨7, 1000⟩).1 = false ∧
    ((PathContext.construct.check_path_limit_hit_by_ip false 0
      ⟨7, 1000⟩).2.check_path_limit_hit_by_ip false 100 ⟨7, 2000⟩).1 = true ∧
    (((PathContext.construct.check_path_limit_hit_by_ip false 0 ⟨7, 1000⟩).2.ExpirePaths
      499).check_path_limit_hit_by_ip false 499 ⟨7, 2000⟩).1 = true ∧
    (((PathContext.construct.check_path_limit_hit_by_ip false 0 ⟨7, 1000⟩).2.ExpirePaths
      500).check_path_limit_hit_by_ip false 500 ⟨7, 2000⟩).1 = false :=
  ⟨(check_path_limit_hit_by_ip_window PathContext.construct ⟨7, 1000⟩ 0 rfl rfl).1,
   (check_path_limit_hit_by_ip_window PathContext.construct ⟨7, 1000⟩ 0 rfl rfl).2.1 2000 100,
   (check_path_limit_hit_by_ip_window PathContext.construct ⟨7, 1000⟩ 0 rfl rfl).2.2.1 2000 499
     499 (by decide),
   (check_path_limit_hit_by_ip_window PathContext.construct ⟨7, 1000⟩ 0 rfl rfl).2.2.2 2000 500
     500 (by decide)⟩

end path

namespace handlers

/-- On a response that parses, the handler of `resolve_ons` invokes the hook
with the result of the decryption. -/
theorem ons_response_handler_parsed (svc : service.Codec) (ons_name response : String)
    (hparse : (svc.ons_construct response).isSome = true) :
    ons_response_handler svc ons_name response =
      some ((svc.ons_construct response).bind
        (fun record => svc.ons_decrypt record ons_name)) := by
  unfold ons_response_handler
  cases hc : svc.ons_construct response with
  | none => simp [hc] at hparse
  | some record =>
    simp only [Option.some_bind]
    cases svc.ons_decrypt record ons_name <;> rfl

/-- On a response that does not parse, the handler of `resolve_ons` does not
reach the hook. -/
theorem ons_response_handler_unparsed (svc : service.Codec) (ons_name response : String)
    (hparse : svc.ons_construct response = none) :
    ons_response_handler svc ons_name response = none := by
  unfold ons_response_handler
  rw [hparse]

/-- Calls that all carry the handler `h`, answered one response each on which
`h` invokes the hook with `g`: the hook invocations are the `g` of the
responses, in order. -/
theorem hookCallsOnResponses_same_handler {R α : Type} (mk : α → PathCall R)
    (h : String → Option (Option R)) (g : String → Option R)
    (hmk : ∀ a, (mk a).response_handler = h) :
    ∀ (l : List α) (rs : List String), rs.length = l.length →
      (∀ r ∈ rs, h r = some (g r)) →
      hookCallsOnResponses (l.map mk) rs = some (rs.map g) := by
  intro l
  induction l with
  | nil =>
    intro rs hlen _
    have : rs = [] := List.length_eq_zero.mp hlen
    subst this
    rfl
  | cons a l ih =>
    intro rs hlen hrs
    cases rs with
    | nil => simp at hlen
    | cons r rs =>
      simp only [List.length_cons, Nat.add_right_cancel_iff] at hlen
      have hr : h r = some (g r) := hrs r (List.mem_cons_self r rs)
      have hrest := ih rs hlen (fun x hx => hrs x (List.mem_cons_of_mem r hx))
      simp only [List.map_cons, hookCallsOnResponses, hmk, hr, hrest]

/-- C18, as stated, fails: the handler holds two paths and the name is valid;
both responses parse, the first path's response does not decrypt under the
name, the second one's does. The hook is invoked twice, first with an absent
result and then with the address: absent is delivered although not all
responses fail. -/
theorem resolve_ons_first_success_counterexample :
    exampleCodec.is_valid_ons "alice.loki" = true ∧
    exampleRemote.paths.length = 2 ∧
    (exampleCodec.ons_construct "garbage").isSome = true ∧
    (exampleCodec.ons_construct "record-of-alice").isSome = true ∧
    (exampleRemote.resolve_ons exampleCodec "alice.loki").hook_calls = [] ∧
    hookCallsOnResponses (exampleRemote.resolve_ons exampleCodec "alice.loki").path_calls
      ["garbage", "record-of-alice"] = some [none, some 42] := by
  decide

/-- C18, amended: for a syntactically valid name and a handler holding `k`
paths whose responses all parse as name records, `resolve_ons` invokes the hook
not at all by itself and then once per response, in the order of the responses,
each time with that response's own result: the address when the record decrypts
under the queried name, an absent result when it does not. So every decrypting
response delivers its address (a further success invokes the hook again), every
response that fails to decrypt delivers absent whatever the other responses
are, and all invocations are absent exactly when the records of all `k` paths
fail to decrypt. -/
theorem resolve_ons_hook_per_response (self : RemoteHandler) (svc : service.Codec)
    (ons : String) (responses : List String) (hvalid : svc.is_valid_ons ons = true)
    (hlen : responses.length = self.paths.length)
    (hparse : ∀ response ∈ responses, (svc.ons_construct response).isSome = true) :
    (self.resolve_ons svc ons).hook_calls = [] ∧
    ∃ calls,
      hookCallsOnResponses (self.resolve_ons svc ons).path_calls responses = some calls ∧
      calls = responses.map (fun response =>
        (svc.ons_construct response).bind (fun record => svc.ons_decrypt record ons)) ∧
      ((∀ c ∈ calls, c = none) ↔
        ∀ response ∈ responses,
          (svc.ons_construct response).bind (fun record => svc.ons_decrypt record ons) =
            none) := by
  refine ⟨by simp [RemoteHandler.resolve_ons, hvalid], _, ?_, rfl, by simp⟩
  have hcalls : (self.resolve_ons svc ons).path_calls = self.paths.map
      (fun e => ⟨e.1, e.2, PathRequest.resolve_ons ons, ons_response_handler svc ons⟩) := by
    simp [RemoteHandler.resolve_ons, hvalid]
  rw [hcalls]
  exact hookCallsOnResponses_same_handler _ (ons_response_handler svc ons) _ (fun _ => rfl)
    self.paths responses hlen
    (fun r hr => ons_response_handler_parsed svc ons r (hparse r hr))

/-- Witness for C18 amended: two paths, both responses parse, one fails to
decrypt and one decrypts. -/
theorem resolve_ons_hook_per_response_witness :
    exampleCodec.is_valid_ons "alice.loki" = true ∧
    (∀ response ∈ ["garbage", "record-of-alice"],
      (exampleCodec.ons_construct response).isSome = true) ∧
    ∃ calls,
      hookCallsOnResponses (exampleRemote.resolve_ons exampleCodec "alice.loki").path_calls
        ["garbage", "record-of-alice"] = some calls ∧
      calls = ["garbage", "record-of-alice"].map (fun response =>
        (exampleCodec.ons_construct response).bind
          (fun record => exampleCodec.ons_decrypt record "alice.loki")) :=
  ⟨by decide, by decide,
   (resolve_ons_hook_per_response exampleRemote exampleCodec "alice.loki"
      ["garbage", "record-of-alice"] (by decide) (by decide) (by decide)).2.imp
        (fun _ h => ⟨h.1, h.2.1⟩)⟩

/-- C19, as stated, fails: the handler holds an established path and one that
is still being built (not established, not ready); for a valid name
`resolve_ons` issues a name lookup on both, so also on the one that is not
established. -/
theorem resolve_ons_fan_out_counterexample :
    exampleCodec.is_valid_ons "alice.loki" = true ∧
    (path.examplePath 21 3 4 23 false).established = false ∧
    (path.examplePath 21 3 4 23 false).is_ready 0 = false ∧
    (exampleRemote.resolve_ons exampleCodec "alice.loki").path_calls.map
        (fun c => (c.path, c.request)) =
      [(path.examplePath 11 1 2 13 true, PathRequest.resolve_ons "alice.loki"),
       (path.examplePath 21 3 4 23 false, PathRequest.resolve_ons "alice.loki")] := by
  decide

/-- C19, amended: for a syntactically valid name, `resolve_ons` issues exactly
one name lookup on each path the handler holds, established or not, in map
order, and none on any other path, so a handler holding 4 paths issues exactly
4 path queries; `lookup_intro` makes the same fan-out with `find_intro` keyed
on the DHT key derived from the remote router id, and neither invokes the hook
itself. -/
theorem resolve_ons_fan_out (self : RemoteHandler) (svc : service.Codec) (ons : String)
    (hvalid : svc.is_valid_ons ons = true) (remote : RouterID) (is_relayed : Bool)
    (order : Nat) :
    (self.resolve_ons svc ons).path_calls.map (fun c => (c.rid, c.path)) = self.paths ∧
    (∀ c ∈ (self.resolve_ons svc ons).path_calls, c.request = PathRequest.resolve_ons ons) ∧
    (self.paths.length = 4 → (self.resolve_ons svc ons).path_calls.length = 4) ∧
    (self.resolve_ons svc ons).hook_calls = [] ∧
    (self.lookup_intro svc remote is_relayed order).path_calls.map (fun c => (c.rid, c.path)) =
      self.paths ∧
    (∀ c ∈ (self.lookup_intro svc remote is_relayed order).path_calls,
      c.request = PathRequest.find_intro (dht.derive_from_rid remote) is_relayed order) ∧
    (self.lookup_intro svc remote is_relayed order).hook_calls = [] := by
  refine ⟨?_, ?_, ?_, ?_, ?_, ?_, rfl⟩
  · simp [RemoteHandler.resolve_ons, hvalid, Function.comp_def]
  · intro c hc
    simp only [RemoteHandler.resolve_ons, hvalid, Bool.not_true, Bool.false_eq_true, if_false,
      List.mem_map] at hc
    obtain ⟨e, _, rfl⟩ := hc
    rfl
  · intro h4
    simp [RemoteHandler.resolve_ons, hvalid, h4]
  · simp [RemoteHandler.resolve_ons, hvalid]
  · simp [RemoteHandler.lookup_intro, Function.comp_def]
  · intro c hc
    simp only [RemoteHandler.lookup_intro, List.mem_map] at hc
    obtain ⟨e, _, rfl⟩ := hc
    rfl

/-- Witness for C19 amended: a handler holding four established paths issues
four name lookups. -/
theorem resolve_ons_fan_out_witness :
    exampleCodec.is_valid_ons "alice.loki" = true ∧
    (exampleRemoteFour.resolve_ons exampleCodec "alice.loki").path_calls.length = 4 ∧
    (exampleRemoteFour.resolve_ons exampleCodec "alice.loki").path_calls.map
      (fun c => (c.rid, c.path)) = exampleRemoteFour.paths :=
  ⟨by decide,
   (resolve_ons_fan_out exampleRemoteFour exampleCodec "alice.loki" (by decide) 0 false 0).2.2.1
     rfl,
   (resolve_ons_fan_out exampleRemoteFour exampleCodec "alice.loki" (by decide) 0 false 0).1⟩

/-- C20: for every name that fails the ONS syntax check, `resolve_ons` invokes
the hook exactly once, with an absent result, and makes no call on any path,
whatever paths the handler holds. -/
theorem resolve_ons_invalid_name (self : RemoteHandler) (svc : service.Codec) (ons : String)
    (hinvalid : svc.is_valid_ons ons = false) :
    (self.resolve_ons svc ons).hook_calls = [none] ∧
    (self.resolve_ons svc ons).path_calls = [] := by
  simp [RemoteHandler.resolve_ons, hinvalid]

/-- Witness for C20: the name `alice` lacks the suffix; the handler holds four
paths and none is asked. -/
theorem resolve_ons_invalid_name_witness :
    exampleCodec.is_valid_ons "alice" = false ∧
    (exampleRemoteFour.resolve_ons exampleCodec "alice").hook_calls = [none] ∧
    (exampleRemoteFour.resolve_ons exampleCodec "alice").path_calls.length = 0 :=
  ⟨by decide,
   (resolve_ons_invalid_name exampleRemoteFour exampleCodec "alice" (by decide)).1,
   congrArg List.length
     (resolve_ons_invalid_name exampleRemoteFour exampleCodec "alice" (by decide)).2⟩

end handlers

namespace handlers

/-- C21: `initiate_session(remote, is_exit, is_snode)` throws iff `is_exit` and
`is_snode` are both true, and then hands nothing to the event loop; in every
other case it hands exactly one job to the event loop, which when run is the
introset lookup `lookup_intro(remote, false, 0, hook)`. -/
theorem initiate_session_schedules (self : RemoteHandler) (svc : service.Codec)
    (remote : RouterID) (is_exit is_snode : Bool) :
    ((∃ e, (self.initiate_session remote is_exit is_snode).1 = Except.error e) ↔
      (is_exit = true ∧ is_snode = true)) ∧
    ((is_exit = true ∧ is_snode = true) →
      (self.initiate_session remote is_exit is_snode).2 = []) ∧
    (¬ (is_exit = true ∧ is_snode = true) →
      self.initiate_session remote is_exit is_snode =
        (Except.ok false, [LoopJob.lookup_intro remote false 0])) ∧
    LoopJob.run self svc (LoopJob.lookup_intro remote false 0) =
      self.lookup_intro svc remote false 0 := by
  cases is_exit <;> cases is_snode <;> simp [RemoteHandler.initiate_session, LoopJob.run]

/-- Witness for C21: an exit session to a service node is rejected; a plain
session to remote 13 schedules one lookup. -/
theorem initiate_session_schedules_witness :
    (exampleRemote.initiate_session 13 true true).2 = [] ∧
    exampleRemote.initiate_session 13 true false =
      (Except.ok false, [LoopJob.lookup_intro 13 false 0]) :=
  ⟨(initiate_session_schedules exampleRemote exampleCodec 13 true true).2.1 ⟨rfl, rfl⟩,
   (initiate_session_schedules exampleRemote exampleCodec 13 true false).2.2.1 (by decide)⟩

/-- C22, as stated, fails: in a map that already pairs remote 77 with local
address 1, mapping 77 to local address 2 and then unmapping 77 leaves the map
empty; the pair that was there before is gone. -/
theorem map_unmap_roundtrip_counterexample :
    exampleRemoteMapped.address_map.get_local_from_remote 77 = some ⟨1, 0⟩ ∧
    ((exampleRemoteMapped.map_remote_to_local_addr 77 ⟨2, 0⟩).unmap_local_addr_by_remote
      77).address_map = ⟨[]⟩ ∧
    ((exampleRemoteMapped.map_remote_to_local_addr 77 ⟨2, 0⟩).unmap_local_addr_by_remote
      77).address_map ≠ exampleRemoteMapped.address_map := by
  decide

/-- C22, amended: `map_remote_to_local_addr(r, a)` followed by
`unmap_local_addr_by_remote(r)` leaves the address map equal to `m` whenever
neither `r` nor `a` is paired in `m`; in general it leaves `m` without the
pairs of `r` and of `a`. -/
theorem map_unmap_roundtrip (self : RemoteHandler) (r : service.NetworkAddress)
    (a : LocalAddress) :
    ((self.map_remote_to_local_addr r a).unmap_local_addr_by_remote r).address_map =
      ⟨self.address_map.pairs.filter (fun e => decide (e.1 ≠ a ∧ e.2 ≠ r))⟩ ∧
    (self.address_map.get_local_from_remote r = none →
      self.address_map.get_remote_from_local a = none →
      (self.map_remote_to_local_addr r a).unmap_local_addr_by_remote r = self) := by
  have hgen : ((self.map_remote_to_local_addr r a).unmap_local_addr_by_remote r).address_map =
      ⟨self.address_map.pairs.filter (fun e => decide (e.1 ≠ a ∧ e.2 ≠ r))⟩ := by
    simp only [RemoteHandler.unmap_local_addr_by_remote, RemoteHandler.map_remote_to_local_addr,
      AddressMap.unmap, AddressMap.insert_or_assign, List.filter_append, List.filter_filter]
    congr 1
    simp only [List.filter_cons, List.filter_nil, ne_eq, not_true_eq_false, decide_False,
      Bool.false_eq_true, if_false, List.append_nil]
    apply List.filter_congr
    intro e _
    by_cases h1 : e.1 = a <;> by_cases h2 : e.2 = r <;> simp [h1, h2]
  refine ⟨hgen, ?_⟩
  intro hr ha
  have hkeep : self.address_map.pairs.filter (fun e => decide (e.1 ≠ a ∧ e.2 ≠ r)) =
      self.address_map.pairs := by
    apply List.filter_eq_self.mpr
    intro e he
    have h1 : e.2 ≠ r := by
      intro h
      unfold AddressMap.get_local_from_remote at hr
      rw [Option.map_eq_none', List.find?_eq_none] at hr
      exact hr e he (by simp [h])
    have h2 : e.1 ≠ a := by
      intro h
      unfold AddressMap.get_remote_from_local at ha
      rw [Option.map_eq_none', List.find?_eq_none] at ha
      exact ha e he (by simp [h])
    simp [h1, h2]
  have hmap : ((self.map_remote_to_local_addr r a).unmap_local_addr_by_remote r).address_map =
      self.address_map := by
    rw [hgen, hkeep]
  calc (self.map_remote_to_local_addr r a).unmap_local_addr_by_remote r
      = { self with address_map :=
            ((self.map_remote_to_local_addr r a).unmap_local_addr_by_remote r).address_map } :=
        rfl
    _ = self := by rw [hmap]

/-- Witness for C22 amended: remote 88 and local address 2 are both free in the
example map; mapping and unmapping them gives the handler back. -/
theorem map_unmap_roundtrip_witness :
    exampleRemoteMapped.address_map.get_local_from_remote 88 = none ∧
    (exampleRemoteMapped.map_remote_to_local_addr 88 ⟨2, 0⟩).unmap_local_addr_by_remote 88 =
      exampleRemoteMapped :=
  ⟨by decide,
   (map_unmap_roundtrip exampleRemoteMapped 88 ⟨2, 0⟩).2 (by decide) (by decide)⟩

end handlers

/-- C23: `Context::run` returns 1 iff no router is set up, which is the case
after `close`; it returns 2 iff a router is present but fails to start, and
then the event loop is not run; it returns 0 only when the router started and
the event loop ran, after which config, node DB, router and `loop` are all
released; and with a router that starts and a `loop` present it does return
0. -/
theorem context_run_exit_codes (self : Context) :
    ((∃ after events, self.run = some (1, after, events)) ↔ self.router = none) ∧
    (self.close.run = some (1, self.close, [])) ∧
    ((∃ after events, self.run = some (2, after, events)) ↔
      ∃ router, self.router = some router ∧ router.run_ok = false) ∧
    (∀ after events, self.run = some (2, after, events) → RunEvent.loop_run ∉ events) ∧
    (∀ after events, self.run = some (0, after, events) →
      (∃ router, self.router = some router ∧ router.run_ok = true) ∧
      events.take 2 = [RunEvent.router_run, RunEvent.loop_run] ∧
      after.config = none ∧ after.nodedb = none ∧ after.router = none ∧ after.loop = none) ∧
    (∀ router l, self.router = some router → router.run_ok = true → self.loop = some l →
      ∃ after events, self.run = some (0, after, events)) := by
  refine ⟨?_, rfl, ?_, ?_, ?_, ?_⟩
  · constructor
    · rintro ⟨after, events, h⟩
      cases hr : self.router with
      | none => rfl
      | some router =>
        exfalso
        unfold Context.run at h
        simp only [hr] at h
        cases hok : router.run_ok <;> cases hl : self.loop <;> cases hc : self.closeWaiter <;>
          simp [RouterProcess.run, hok, hl, hc] at h
    · intro hr
      exact ⟨self, [], by simp [Context.run, hr]⟩
  · constructor
    · rintro ⟨after, events, h⟩
      cases hr : self.router with
      | none => simp [Context.run, hr] at h
      | some router =>
        refine ⟨router, rfl, ?_⟩
        unfold Context.run at h
        simp only [hr] at h
        cases hok : router.run_ok
        · rfl
        · exfalso
          cases hl : self.loop <;> cases hc : self.closeWaiter <;>
            simp [RouterProcess.run, hok, hl, hc] at h
    · rintro ⟨router, hr, hok⟩
      exact ⟨_, _, by simp [Context.run, hr, RouterProcess.run, hok]; exact ⟨rfl, rfl⟩⟩
  · intro after events h
    cases hr : self.router with
    | none => simp [Context.run, hr] at h
    | some router =>
      unfold Context.run at h
      simp only [hr] at h
      cases hok : router.run_ok
      · simp [RouterProcess.run, hok] at h
        rw [← h.2]
        simp
      · exfalso
        cases hl : self.loop <;> cases hc : self.closeWaiter <;>
          simp [RouterProcess.run, hok, hl, hc] at h
  · intro after events h
    cases hr : self.router with
    | none => simp [Context.run, hr] at h
    | some router =>
      unfold Context.run at h
      simp only [hr] at h
      cases hok : router.run_ok
      · simp [RouterProcess.run, hok] at h
      · cases hl : self.loop with
        | none => simp [RouterProcess.run, hok, hl] at h
        | some l =>
          cases hc : self.closeWaiter <;>
            simp only [RouterProcess.run, hok, hl, hc, Bool.not_true, Bool.false_eq_true,
              if_false, Option.some.injEq, Prod.mk.injEq] at h <;>
            (obtain ⟨_, hafter, hev⟩ := h
             subst hafter hev
             exact ⟨⟨router, rfl, hok⟩, rfl, rfl, rfl, rfl, rfl⟩)
  · intro router l hr hok hl
    cases hc : self.closeWaiter <;>
      exact ⟨_, _, by simp [Context.run, hr, RouterProcess.run, hok, hl, hc]; exact ⟨rfl, rfl⟩⟩

/-- Witness for C23: a context that is set up returns 0 and is released when
its router starts, returns 2 when it does not, and a new context returns 1. -/
theorem context_run_exit_codes_witness :
    (exampleContextUp true).run =
      some (0, { exampleContextNew with _loop := some 0 },
        [RunEvent.router_run, RunEvent.loop_run]) ∧
    (exampleContextUp false).run =
      some (2, exampleContextUp false, [RunEvent.router_run]) ∧
    exampleContextNew.run = some (1, exampleContextNew, []) ∧
    RunEvent.loop_run ∉ [RunEvent.router_run] :=
  ⟨by decide, by decide, by decide,
   (context_run_exit_codes (exampleContextUp false)).2.2.2.1 (exampleContextUp false)
     [RunEvent.router_run] (by decide)⟩

/-- C24: `Context::configure` throws iff a configuration is already present,
and then leaves the context, so the existing configuration, unchanged;
otherwise it stores the given configuration. `Context::setup` throws when no
configuration is present and then leaves the context unchanged: neither router
nor node DB is created. -/
theorem context_configure_setup (self : Context) (conf : Option Config)
    (opts : RuntimeOptions) (env : SetupEnv) :
    ((∃ e, (self.configure conf).1 = Except.error e) ↔ self.config.isSome = true) ∧
    (self.config.isSome = true → (self.configure conf).2 = self) ∧
    (self.config = none →
      self.configure conf = (Except.ok (), { self with config := conf })) ∧
    (self.config = none →
      (∃ e, (self.setup opts env).1 = Except.error e) ∧ (self.setup opts env).2 = self ∧
      (self.setup opts env).2.router = self.router ∧
      (self.setup opts env).2.nodedb = self.nodedb) := by
  refine ⟨?_, ?_, ?_, ?_⟩
  · cases h : self.config <;> simp [Context.configure, h]
  · intro h
    simp [Context.configure, h]
  · intro h
    simp [Context.configure, h]
  · intro h
    simp [Context.setup, h]

/-- Witness for C24: a second `configure` is refused and changes nothing, and
`setup` on a new context is refused and creates nothing. -/
theorem context_configure_setup_witness :
    ((exampleContextUp true).configure (some ⟨2⟩)).2 = exampleContextUp true ∧
    exampleContextNew.configure (some ⟨2⟩) =
      (Except.ok (), { exampleContextNew with config := some ⟨2⟩ }) ∧
    (exampleContextNew.setup ⟨false⟩ ⟨true, true, true⟩).2 = exampleContextNew :=
  ⟨(context_configure_setup (exampleContextUp true) (some ⟨2⟩) ⟨false⟩ ⟨true, true, true⟩).2.1
      rfl,
   (context_configure_setup exampleContextNew (some ⟨2⟩) ⟨false⟩ ⟨true, true, true⟩).2.2.1 rfl,
   ((context_configure_setup exampleContextNew (some ⟨2⟩) ⟨false⟩
      ⟨true, true, true⟩).2.2.2 rfl).2.1⟩

namespace dht

/-- The fold of `FindClosest`, started on a candidate, ends on a key of the
list that is at least as close to the target as every key of the list. -/
theorem foldl_closest (target : Key_t) (l : List Key_t) :
    ∀ a : Key_t, ∃ r,
      l.foldl
        (fun result k =>
          match result with
          | none => some k
          | some r => if distance k target < distance r target then some k else some r)
        (some a) = some r ∧
      r ∈ a :: l ∧ ∀ k ∈ a :: l, distance r target ≤ distance k target := by
  induction l with
  | nil =>
    intro a
    exact ⟨a, rfl, List.mem_cons_self _ _, by simp⟩
  | cons b l ih =>
    intro a
    by_cases h : distance b target < distance a target
    · obtain ⟨r, hr, hmem, hmin⟩ := ih b
      refine ⟨r, by simp [List.foldl_cons, h, hr], ?_, ?_⟩
      · exact List.mem_cons_of_mem _ hmem
      · intro k hk
        rcases List.mem_cons.mp hk with rfl | hk
        · exact le_trans (hmin b (List.mem_cons_self _ _)) (le_of_lt h)
        · exact hmin k hk
    · obtain ⟨r, hr, hmem, hmin⟩ := ih a
      refine ⟨r, by simp [List.foldl_cons, h, hr], ?_, ?_⟩
      · rcases List.mem_cons.mp hmem with rfl | hmem
        · exact List.mem_cons_self _ _
        · exact List.mem_cons_of_mem _ (List.mem_cons_of_mem _ hmem)
      · intro k hk
        rcases List.mem_cons.mp hk with rfl | hk
        · exact hmin _ (List.mem_cons_self _ _)
        · rcases List.mem_cons.mp hk with rfl | hk
          · exact le_trans (hmin a (List.mem_cons_self _ _)) (not_lt.mp h)
          · exact hmin k (List.mem_cons_of_mem _ hk)

theorem FindClosest_empty {V : Type} (b : Bucket V) (target : Key_t) (h : b.nodes = []) :
    b.FindClosest target = none := by
  simp [Bucket.FindClosest, h]

theorem FindClosest_nonempty {V : Type} (b : Bucket V) (target : Key_t) (h : b.nodes ≠ []) :
    ∃ r, b.FindClosest target = some r ∧ r ∈ b.nodes.map Prod.fst ∧
      ∀ k ∈ b.nodes.map Prod.fst, distance r target ≤ distance k target := by
  unfold Bucket.FindClosest
  cases hn : b.nodes with
  | nil => exact absurd hn h
  | cons e rest =>
    simp only [List.map_cons, List.foldl_cons]
    exact foldl_closest target (rest.map Prod.fst) e.1

/-- C25: on a handler with an RC bucket, `LookupRouter(target, handler)` returns
false and leaves the handler unchanged (no TX) when the bucket is empty;
otherwise it returns true and creates exactly one recursive router-lookup TX for
`target`, whose owner peer is a bucket key closest to `target` by XOR distance,
whose owner txid is the incremented counter and whose asker is `(own key, 0)`;
the other tables are untouched. -/
theorem lookup_router_first_hop (self : DHTMessageHandler) (time_now_ms : llarp_time_t)
    (target : RouterID) (handler : RouterLookupHandler) (nodes : Bucket RCNode)
    (hnodes : self.nodes = some nodes) :
    (nodes.nodes = [] → self.LookupRouter time_now_ms target handler = some (false, self)) ∧
    (nodes.nodes ≠ [] →
      ∃ askpeer after,
        askpeer ∈ nodes.nodes.map Prod.fst ∧
        (∀ k ∈ nodes.nodes.map Prod.fst, distance askpeer target ≤ distance k target) ∧
        self.LookupRouter time_now_ms target handler = some (true, after) ∧
        after.pendingRouterLookups.tx = self.pendingRouterLookups.tx ++
          [{ owner := ⟨askpeer, (self.ids + 1) % 2 ^ 64⟩, asker := ⟨self.ourKey, 0⟩,
             target := target, started_at := time_now_ms, attempts := 0,
             job := Job.RecursiveRouterLookup ⟨self.ourKey, 0⟩ target handler,
             timeout := none }] ∧
        after.pendingIntrosetLookups = self.pendingIntrosetLookups ∧
        after.pendingExploreLookups = self.pendingExploreLookups) := by
  constructor
  · intro hempty
    simp [DHTMessageHandler.LookupRouter, hnodes, FindClosest_empty nodes target hempty]
  · intro hne
    obtain ⟨r, hr, hmem, hmin⟩ := FindClosest_nonempty nodes target hne
    refine ⟨r, self.LookupRouterRecursive time_now_ms target self.ourKey 0 r handler, hmem,
      hmin, ?_, ?_, rfl, rfl⟩
    · simp only [DHTMessageHandler.LookupRouter, hnodes, hr]
    · simp [DHTMessageHandler.LookupRouterRecursive, TXHolder.NewTX]

/-- Witness for C25: own key 100, bucket keys 1, 2 and 5, target 7: the first
hop is 5; with an empty bucket the lookup is refused. -/
theorem lookup_router_first_hop_witness :
    (exampleHandler [] []).LookupRouter 0 7 none = some (false, exampleHandler [] []) ∧
    ∃ askpeer after,
      askpeer ∈ [1, 2, 5] ∧
      (∀ k ∈ [1, 2, 5], distance askpeer 7 ≤ distance k 7) ∧
      (exampleHandler [] [1, 2, 5]).LookupRouter 0 7 none = some (true, after) ∧
      after.pendingRouterLookups.tx = [] ++
        [{ owner := ⟨askpeer, 0⟩, asker := ⟨100, 0⟩, target := 7, started_at := 0,
           attempts := 0, job := Job.RecursiveRouterLookup ⟨100, 0⟩ 7 none, timeout := none }] ∧
      after.pendingIntrosetLookups = (exampleHandler [] [1, 2, 5]).pendingIntrosetLookups ∧
      after.pendingExploreLookups = (exampleHandler [] [1, 2, 5]).pendingExploreLookups :=
  ⟨(lookup_router_first_hop (exampleHandler [] []) 0 7 none ⟨[]⟩ rfl).1 rfl,
   (lookup_router_first_hop (exampleHandler [] [1, 2, 5]) 0 7 none
      ⟨[1, 2, 5].map (fun k => exampleNode k 100000)⟩ rfl).2 (by decide)⟩

end dht

namespace dht

theorem successiveIds_succ (ids n : Nat) :
    successiveIds ids (n + 1) =
      (ids + 1) % 2 ^ 64 :: successiveIds ((ids + 1) % 2 ^ 64) n := by
  unfold successiveIds
  rw [List.range_succ_eq_map, List.map_cons, List.map_map]
  congr 1
  apply List.map_congr_left
  intro k _
  simp only [Function.comp_apply]
  omega

theorem nodup_successiveIds (ids n : Nat) (hn : n ≤ 2 ^ 64) : (successiveIds ids n).Nodup := by
  unfold successiveIds
  refine List.Nodup.map_on ?_ (List.nodup_range n)
  intro x hx y hy hxy
  have hx' := List.mem_range.mp hx
  have hy' := List.mem_range.mp hy
  have hpow : (2 : Nat) ^ 64 = 18446744073709551616 := by norm_num
  rw [hpow] at hxy hn
  omega

/-- Every TX-creating operation increments the counter once and appends one
transaction, owned under the new counter value, to one of the three tables. -/
theorem perform_creates_one (self : DHTMessageHandler) (time_now_ms : llarp_time_t)
    (op : TxOperation) :
    ∃ (r : List (TX RouterID)) (i : List (TX TXOwner)) (e : List (TX RouterID)),
      (self.perform time_now_ms op).ids = (self.ids + 1) % 2 ^ 64 ∧
      (self.perform time_now_ms op).pendingRouterLookups.tx =
        self.pendingRouterLookups.tx ++ r ∧
      (self.perform time_now_ms op).pendingIntrosetLookups.tx =
        self.pendingIntrosetLookups.tx ++ i ∧
      (self.perform time_now_ms op).pendingExploreLookups.tx =
        self.pendingExploreLookups.tx ++ e ∧
      r.map (fun t => t.owner.txid) ++ i.map (fun t => t.owner.txid) ++
        e.map (fun t => t.owner.txid) = [(self.ids + 1) % 2 ^ 64] := by
  cases op with
  | LookupRouterRecursive target whoasked txid askpeer handler =>
    exact ⟨[_], [], [], rfl, rfl, by simp [DHTMessageHandler.perform,
      DHTMessageHandler.LookupRouterRecursive], by simp [DHTMessageHandler.perform,
      DHTMessageHandler.LookupRouterRecursive], rfl⟩
  | LookupRouterForPath target txid path askpeer =>
    exact ⟨[_], [], [], rfl, rfl, by simp [DHTMessageHandler.perform,
      DHTMessageHandler.LookupRouterForPath], by simp [DHTMessageHandler.perform,
      DHTMessageHandler.LookupRouterForPath], rfl⟩
  | LookupIntroSetForPath addr txid path askpeer relayOrder =>
    exact ⟨[], [_], [], rfl, by simp [DHTMessageHandler.perform,
      DHTMessageHandler.LookupIntroSetForPath], rfl, by simp [DHTMessageHandler.perform,
      DHTMessageHandler.LookupIntroSetForPath], rfl⟩
  | LookupIntroSetRelayed addr whoasked txid askpeer relayOrder handler =>
    exact ⟨[], [_], [], rfl, by simp [DHTMessageHandler.perform,
      DHTMessageHandler.LookupIntroSetRelayed], rfl, by simp [DHTMessageHandler.perform,
      DHTMessageHandler.LookupIntroSetRelayed], rfl⟩
  | LookupIntroSetDirect addr whoasked txid askpeer handler =>
    exact ⟨[], [_], [], rfl, by simp [DHTMessageHandler.perform,
      DHTMessageHandler.LookupIntroSetDirect], rfl, by simp [DHTMessageHandler.perform,
      DHTMessageHandler.LookupIntroSetDirect], rfl⟩
  | PropagateIntroSetTo src txid introset tellpeer relayOrder =>
    exact ⟨[], [_], [], rfl, by simp [DHTMessageHandler.perform,
      DHTMessageHandler.PropagateIntroSetTo], rfl, by simp [DHTMessageHandler.perform,
      DHTMessageHandler.PropagateIntroSetTo], rfl⟩
  | PropagateLocalIntroSet src txid introset tellpeer relayOrder =>
    exact ⟨[], [_], [], rfl, by simp [DHTMessageHandler.perform,
      DHTMessageHandler.PropagateLocalIntroSet], rfl, by simp [DHTMessageHandler.perform,
      DHTMessageHandler.PropagateLocalIntroSet], rfl⟩
  | ExploreNetworkVia askpeer =>
    exact ⟨[], [], [_], rfl, by simp [DHTMessageHandler.perform,
      DHTMessageHandler.ExploreNetworkVia], by simp [DHTMessageHandler.perform,
      DHTMessageHandler.ExploreNetworkVia], rfl, rfl⟩

/-- Successive operations append transactions whose owner txids are, up to the
order of the tables, the successive values of the counter. -/
theorem performAll_creates (time_now_ms : llarp_time_t) (ops : List TxOperation) :
    ∀ self : DHTMessageHandler,
      ∃ (r : List (TX RouterID)) (i : List (TX TXOwner)) (e : List (TX RouterID)),
        (self.performAll time_now_ms ops).pendingRouterLookups.tx =
          self.pendingRouterLookups.tx ++ r ∧
        (self.performAll time_now_ms ops).pendingIntrosetLookups.tx =
          self.pendingIntrosetLookups.tx ++ i ∧
        (self.performAll time_now_ms ops).pendingExploreLookups.tx =
          self.pendingExploreLookups.tx ++ e ∧
        (r.map (fun t => t.owner.txid) ++ i.map (fun t => t.owner.txid) ++
          e.map (fun t => t.owner.txid)).Perm (successiveIds self.ids ops.length) := by
  induction ops with
  | nil =>
    intro self
    exact ⟨[], [], [], by simp [DHTMessageHandler.performAll],
      by simp [DHTMessageHandler.performAll], by simp [DHTMessageHandler.performAll],
      by simp [successiveIds]⟩
  | cons op ops ih =>
    intro self
    obtain ⟨r1, i1, e1, hids, hr1, hi1, he1, hone⟩ := perform_creates_one self time_now_ms op
    obtain ⟨r2, i2, e2, hr2, hi2, he2, hperm⟩ := ih (self.perform time_now_ms op)
    refine ⟨r1 ++ r2, i1 ++ i2, e1 ++ e2, ?_, ?_, ?_, ?_⟩
    · simp [DHTMessageHandler.performAll, hr2, hr1]
    · simp [DHTMessageHandler.performAll, hi2, hi1]
    · simp [DHTMessageHandler.performAll, he2, he1]
    · rw [List.length_cons, successiveIds_succ]
      rw [hids] at hperm
      have hsplit : (List.map (fun t => t.owner.txid) (r1 ++ r2) ++
            List.map (fun t => t.owner.txid) (i1 ++ i2) ++
            List.map (fun t => t.owner.txid) (e1 ++ e2)).Perm
          ((r1.map (fun t => t.owner.txid) ++ i1.map (fun t => t.owner.txid) ++
              e1.map (fun t => t.owner.txid)) ++
            (r2.map (fun t => t.owner.txid) ++ i2.map (fun t => t.owner.txid) ++
              e2.map (fun t => t.owner.txid))) := by
        rw [List.perm_iff_count]
        intro a
        simp only [List.map_append, List.count_append]
        omega
      refine hsplit.trans ?_
      rw [hone]
      exact List.Perm.cons _ hperm

end dht

namespace dht

/-- C26: every TX-creating operation of the handler advances the `ids` counter
by exactly one modulo `2^64` and appends exactly one transaction, to one of the
three tables, whose owner txid is the new counter value; so the transactions
created by fewer than `2^64` successive operations on one handler have pairwise
distinct owner txids, and therefore pairwise distinct owners within each
table. -/
theorem tx_ids_distinct (self : DHTMessageHandler) (time_now_ms : llarp_time_t) :
    (∀ op : TxOperation,
      ∃ (r : List (TX RouterID)) (i : List (TX TXOwner)) (e : List (TX RouterID)),
        (self.perform time_now_ms op).ids = (self.ids + 1) % 2 ^ 64 ∧
        (self.perform time_now_ms op).pendingRouterLookups.tx =
          self.pendingRouterLookups.tx ++ r ∧
        (self.perform time_now_ms op).pendingIntrosetLookups.tx =
          self.pendingIntrosetLookups.tx ++ i ∧
        (self.perform time_now_ms op).pendingExploreLookups.tx =
          self.pendingExploreLookups.tx ++ e ∧
        r.map (fun t => t.owner.txid) ++ i.map (fun t => t.owner.txid) ++
          e.map (fun t => t.owner.txid) = [(self.ids + 1) % 2 ^ 64]) ∧
    (∀ ops : List TxOperation, ops.length < 2 ^ 64 →
      ∃ (r : List (TX RouterID)) (i : List (TX TXOwner)) (e : List (TX RouterID)),
        (self.performAll time_now_ms ops).pendingRouterLookups.tx =
          self.pendingRouterLookups.tx ++ r ∧
        (self.performAll time_now_ms ops).pendingIntrosetLookups.tx =
          self.pendingIntrosetLookups.tx ++ i ∧
        (self.performAll time_now_ms ops).pendingExploreLookups.tx =
          self.pendingExploreLookups.tx ++ e ∧
        r.length + i.length + e.length = ops.length ∧
        (r.map (fun t => t.owner.txid) ++ i.map (fun t => t.owner.txid) ++
          e.map (fun t => t.owner.txid)).Nodup ∧
        (r.map (fun t => t.owner)).Nodup ∧ (i.map (fun t => t.owner)).Nodup ∧
        (e.map (fun t => t.owner)).Nodup) := by
  refine ⟨perform_creates_one self time_now_ms, ?_⟩
  intro ops hlen
  obtain ⟨r, i, e, hr, hi, he, hperm⟩ := performAll_creates time_now_ms ops self
  have hnd : (r.map (fun t => t.owner.txid) ++ i.map (fun t => t.owner.txid) ++
      e.map (fun t => t.owner.txid)).Nodup :=
    hperm.nodup_iff.mpr (nodup_successiveIds self.ids ops.length (le_of_lt hlen))
  have hcount : r.length + i.length + e.length = ops.length := by
    have h := hperm.length_eq
    simp only [successiveIds, List.length_append, List.length_map, List.length_range] at h
    exact h
  have hrnd : (r.map (fun t => t.owner.txid)).Nodup :=
    (List.Nodup.of_append_left hnd).of_append_left
  have hind : (i.map (fun t => t.owner.txid)).Nodup :=
    (List.Nodup.of_append_left hnd).of_append_right
  have hend : (e.map (fun t => t.owner.txid)).Nodup := List.Nodup.of_append_right hnd
  refine ⟨r, i, e, hr, hi, he, hcount, hnd, ?_, ?_, ?_⟩
  · apply List.Nodup.of_map (fun o : TXOwner => o.txid)
    simpa [List.map_map, Function.comp_def] using hrnd
  · apply List.Nodup.of_map (fun o : TXOwner => o.txid)
    simpa [List.map_map, Function.comp_def] using hind
  · apply List.Nodup.of_map (fun o : TXOwner => o.txid)
    simpa [List.map_map, Function.comp_def] using hend

/-- Witness for C26: three operations on a handler whose counter is
`2^64 - 1`; the counter wraps and the transactions get the txids 0, 1 and 2. -/
theorem tx_ids_distinct_witness :
    ((exampleHandler [] []).performAll 0
        [TxOperation.ExploreNetworkVia 5, TxOperation.LookupRouterForPath 7 9 1 5,
         TxOperation.LookupRouterRecursive 7 50 8 5 none]).pendingRouterLookups.tx.map
      (fun t => t.owner) = [⟨5, 1⟩, ⟨5, 2⟩] ∧
    ((exampleHandler [] []).performAll 0
        [TxOperation.ExploreNetworkVia 5, TxOperation.LookupRouterForPath 7 9 1 5,
         TxOperation.LookupRouterRecursive 7 50 8 5 none]).pendingExploreLookups.tx.map
      (fun t => t.owner) = [⟨5, 0⟩] ∧
    ∃ (r : List (TX RouterID)) (i : List (TX TXOwner)) (e : List (TX RouterID)),
      ((exampleHandler [] []).performAll 0
          [TxOperation.ExploreNetworkVia 5, TxOperation.LookupRouterForPath 7 9 1 5,
           TxOperation.LookupRouterRecursive 7 50 8 5 none]).pendingRouterLookups.tx =
        (exampleHandler [] []).pendingRouterLookups.tx ++ r ∧
      ((exampleHandler [] []).performAll 0
          [TxOperation.ExploreNetworkVia 5, TxOperation.LookupRouterForPath 7 9 1 5,
           TxOperation.LookupRouterRecursive 7 50 8 5 none]).pendingIntrosetLookups.tx =
        (exampleHandler [] []).pendingIntrosetLookups.tx ++ i ∧
      ((exampleHandler [] []).performAll 0
          [TxOperation.ExploreNetworkVia 5, TxOperation.LookupRouterForPath 7 9 1 5,
           TxOperation.LookupRouterRecursive 7 50 8 5 none]).pendingExploreLookups.tx =
        (exampleHandler [] []).pendingExploreLookups.tx ++ e ∧
      r.length + i.length + e.length = 3 ∧
      (r.map (fun t => t.owner.txid) ++ i.map (fun t => t.owner.txid) ++
        e.map (fun t => t.owner.txid)).Nodup ∧
      (r.map (fun t => t.owner)).Nodup ∧ (i.map (fun t => t.owner)).Nodup ∧
      (e.map (fun t => t.owner)).Nodup :=
  ⟨by decide, by decide,
   (tx_ids_distinct (exampleHandler [] []) 0).2
     [TxOperation.ExploreNetworkVia 5, TxOperation.LookupRouterForPath 7 9 1 5,
      TxOperation.LookupRouterRecursive 7 50 8 5 none] (by decide)⟩

/-- C27, the code at a failing input: whatever `keepalive` is, `DHTSendTo` sends
the message and asks to persist the session until `now + 60 s`. At router time
2000 ms that is 62000 ms, not the 12000 ms of a 10 s keep-alive, and with
`keepalive = false` the session is persisted all the same. -/
theorem dht_send_to_persists_one_minute :
    (∀ (self : DHTMessageHandler) (peer : RouterID) (msg : AbstractDHTMessage)
        (keepalive : Bool),
      self.DHTSendTo peer msg keepalive =
        { sent := [(peer, msg)], persisted := [(peer, self.router.now + 60000)] }) ∧
    (exampleHandler [] []).router.now = 2000 ∧
    ((exampleHandler [] []).DHTSendTo 5 (AbstractDHTMessage.FindRouter 1) true).persisted =
      [(5, 62000)] ∧
    ((exampleHandler [] []).DHTSendTo 5 (AbstractDHTMessage.FindRouter 1) true).persisted ≠
      [(5, 2000 + 10000)] ∧
    ((exampleHandler [] []).DHTSendTo 5 (AbstractDHTMessage.FindRouter 1) false).persisted =
      [(5, 62000)] :=
  ⟨fun _ _ _ _ => rfl, rfl, by decide, by decide, by decide⟩

end dht

namespace dht

end dht

namespace net

/-- C29, the code at a failing input: `Platform::wildcard` ends in its `throw`
for every address family, `AF_INET` and `AF_INET6` included, so it never returns
an address; and `wildcard_with_port` throws with it. -/
theorem wildcard_always_throws :
    (∀ af : Int, Platform.wildcard af =
      Except.error "invalid_argument: not a valid address family") ∧
    Platform.wildcard AF_INET = Except.error "invalid_argument: not a valid address family" ∧
    Platform.wildcard AF_INET6 = Except.error "invalid_argument: not a valid address family" ∧
    (∀ (port : Nat) (af : Int), Platform.wildcard_with_port port af =
      Except.error "invalid_argument: not a valid address family") :=
  ⟨fun _ => rfl, rfl, rfl, fun _ _ => rfl⟩

end net

end llarp
